import Mathlib

set_option autoImplicit false

/-!
# Image geometry conversion (`utils/image_utils.c`)

A shallow embedding of the crop / bilinear-scale / letterbox routines of
`image_utils.c` together with the properties established about them.

Conventions of the embedding

* C `int` values are mathematical integers (`Int`).  The `int` expressions
  that multiply image dimensions (the byte sizes of `get_image_size`, the
  subscripts `index_A .. index_D`, `index + c` and
  `(dst_y * dst_width + dst_x) * channel + c`, and the plane offsets
  `width * height`) are reduced to 32 bits by `int32`, the two's complement
  wrap-around (signed overflow is undefined behaviour in C; the wrapped value
  is what the compiled code computes on the targets).  A property about a
  byte offset is either stated for the wrapped value or carries the bound on
  the byte size below which nothing wraps.  Sums and differences of two
  coordinates (`crop_x + src_x1`, `right - left + 1`,
  `dst_box_x + dst_box_width`, the loop counters) are kept exact.
* C `float` values are the rational numbers they denote.  Every `float`
  operation is the exact operation followed by `F32.rnd`, the IEEE-754
  binary32 round-to-nearest-even rounding (normal and subnormal range; the
  magnitudes occurring in this file stay far below the overflow threshold).
  Expressions are evaluated one operation at a time in binary32, in the order
  fixed by the C grammar.
* A byte (`unsigned char`) is a number below 256.  A byte buffer reached
  through an `unsigned char *` is a function from the byte offset (relative to
  the pointer) to the byte stored there; a pointer that may be `NULL` is an
  `Option`.  Source and destination buffers are distinct objects (they do not
  overlap).
* The hardware library (librga) is a parameter: a record of its format codes
  and calls, each call answering with a status and its effect.

The definitions come first (arithmetic model, data model, the routines of the
file in source order, sample inputs); the lemmas and the properties follow.
-/

/-!
## Arithmetic model
-/

/-- An `unsigned char`. -/
abbrev Byte := Fin 256

/-- C conversion of an integer value to `unsigned char`: reduction modulo 256. -/
def byte_of_int (v : Int) : Byte := ⟨(v % 256).toNat, by omega⟩

/-- The value of a 32-bit `int` expression whose exact result is `v`: `v`
itself from -2147483648 to 2147483647, and wrapped around modulo 2^32 (two's
complement) beyond. -/
def int32 (v : Int) : Int := (v + 2147483648) % 4294967296 - 2147483648

namespace F32

/-- Round to the nearest integer, ties to the even integer. -/
def rne (x : ℚ) : Int :=
  let f := ⌊x⌋
  let r := x - f
  if r < 1 / 2 then f else if 1 / 2 < r then f + 1 else if f % 2 = 0 then f else f + 1

/-- Exponent of the unit in the last place of the binary32 binade of `q`:
24 significant bits, smallest normal exponent `-126`. -/
def ulpExp (q : ℚ) : Int := max (Int.log 2 |q|) (-126) - 23

/-- IEEE-754 binary32 rounding of an exact result (round to nearest, ties to even). -/
def rnd (q : ℚ) : ℚ := (rne (q / 2 ^ ulpExp q) : ℚ) * 2 ^ ulpExp q

/-- C conversion `(float)n` of an `int`. -/
def ofInt (n : Int) : ℚ := rnd n

/-- C `a + b` on `float`. -/
def add (a b : ℚ) : ℚ := rnd (a + b)

/-- C `a - b` on `float`. -/
def sub (a b : ℚ) : ℚ := rnd (a - b)

/-- C `a * b` on `float`. -/
def mul (a b : ℚ) : ℚ := rnd (a * b)

/-- C `a / b` on `float` (for a divisor different from zero). -/
def div (a b : ℚ) : ℚ := rnd (a / b)

/-- C conversion `(int)x` of a `float`: truncation toward zero. -/
def toInt (x : ℚ) : Int := if 0 ≤ x then ⌊x⌋ else ⌈x⌉

/-- C conversion `(unsigned char)x` of a `float`: truncation toward zero, kept
to eight bits. -/
def toUChar (x : ℚ) : Byte := byte_of_int (toInt x)

end F32

/-!
## Data model and software path
-/

namespace ImageUtils

/-- Bytes reachable through an `unsigned char *`: offset from the pointer to byte. -/
abbrev Mem := Int → Byte

/-- Pointer arithmetic `p + k`: the memory as seen from the advanced pointer. -/
def Mem.offset (m : Mem) (k : Int) : Mem := fun i => m (i + k)

/-- Modelled from the spec: the pixel-format tags of `image_format_t`, whose
declaration lives in a header outside the translated source file.  The five
layouts named by the code, and `UNKNOWN tag` for any other value of the enum. -/
inductive image_format_t where
  | IMAGE_FORMAT_GRAY8
  | IMAGE_FORMAT_RGB888
  | IMAGE_FORMAT_RGBA8888
  | IMAGE_FORMAT_YUV420SP_NV21
  | IMAGE_FORMAT_YUV420SP_NV12
  | UNKNOWN (tag : Int)
  deriving DecidableEq

open image_format_t

/-- Modelled from the spec: the image buffer descriptor `image_buffer_t`
(fields used by the code: dimensions, format, data pointer, declared byte
size, file descriptor). -/
structure image_buffer_t where
  width : Int
  height : Int
  format : image_format_t
  virt_addr : Option Mem
  size : Int
  fd : Int

/-- Modelled from the spec: the inclusive rectangle `image_rect_t`. -/
structure image_rect_t where
  left : Int
  top : Int
  right : Int
  bottom : Int
  deriving DecidableEq

/-- Modelled from the spec: the letterbox description `letterbox_t`. -/
structure letterbox_t where
  x_pad : Int
  y_pad : Int
  scale : ℚ

/-- The C loop `for (int i = lo; i < hi; i++) body`, threading the state. -/
def forLoop {σ : Type} (lo hi : Int) (body : Int → σ → σ) (s : σ) : σ :=
  (List.range (hi - lo).toNat).foldl (fun (acc : σ) (k : Nat) => body (lo + (k : Int)) acc) s

/-- The library call `memset(p, color, n)`: the first `n` bytes become
`(unsigned char)color`.  The length is the `int` the caller passes; a negative
one (which the C call would convert to an enormous `size_t`) fills nothing
here, and the properties about filled bytes are stated for lengths that are
the exact byte size. -/
def memset (m : Mem) (color : Int) (n : Int) : Mem :=
  fun i => if 0 ≤ i ∧ i < n then byte_of_int color else m i

/-- The clamp `fmax(0, fmin(g, n - 1))` stored back into an `int` (every `int`
is exactly representable as a `double`). -/
def clamp_src (g n : Int) : Int := max 0 (min g (n - 1))

/-- Per-pixel sampling data of `crop_and_scale_image_c`: the clamped global
source coordinates and the fractional offsets. -/
structure taps_t where
  global_src_x1 : Int
  global_src_y1 : Int
  global_src_x2 : Int
  global_src_y2 : Int
  x_diff : ℚ
  y_diff : ℚ

/-- The coordinate part of the loop body of `crop_and_scale_image_c`
(source lines 448-473). -/
def src_taps (src_width src_height crop_x crop_y crop_width crop_height : Int)
    (x_ratio y_ratio : ℚ) (dst_x_offset dst_y_offset : Int) : taps_t :=
  let src_x_float := F32.mul (F32.ofInt dst_x_offset) x_ratio
  let src_y_float := F32.mul (F32.ofInt dst_y_offset) y_ratio
  let src_x1 := F32.toInt src_x_float
  let src_y1 := F32.toInt src_y_float
  let src_x2 := if src_x1 + 1 < crop_width then src_x1 + 1 else src_x1
  let src_y2 := if src_y1 + 1 < crop_height then src_y1 + 1 else src_y1
  let x_diff := F32.sub src_x_float (F32.ofInt src_x1)
  let y_diff := F32.sub src_y_float (F32.ofInt src_y1)
  { global_src_x1 := clamp_src (crop_x + src_x1) src_width
    global_src_y1 := clamp_src (crop_y + src_y1) src_height
    global_src_x2 := clamp_src (crop_x + src_x2) src_width
    global_src_y2 := clamp_src (crop_y + src_y2) src_height
    x_diff := x_diff
    y_diff := y_diff }

/-- The bilinear expression of source lines 488-493, evaluated in `float` from
left to right and converted to `unsigned char`. -/
def bilinear (A B C D : Byte) (x_diff y_diff : ℚ) : Byte :=
  F32.toUChar
    (F32.add
      (F32.add
        (F32.add
          (F32.mul (F32.mul (F32.ofInt (A.val : Int)) (F32.sub 1 x_diff)) (F32.sub 1 y_diff))
          (F32.mul (F32.mul (F32.ofInt (B.val : Int)) x_diff) (F32.sub 1 y_diff)))
        (F32.mul (F32.mul (F32.ofInt (C.val : Int)) (F32.sub 1 x_diff)) y_diff))
      (F32.mul (F32.mul (F32.ofInt (D.val : Int)) x_diff) y_diff))

/-- The four byte indices `index_A .. index_D` of source lines 476-479, each an
`int` expression. -/
def index_A (t : taps_t) (src_width channel : Int) : Int :=
  int32 (t.global_src_y1 * src_width * channel + t.global_src_x1 * channel)

/-- Byte index of the right neighbour. -/
def index_B (t : taps_t) (src_width channel : Int) : Int :=
  int32 (t.global_src_y1 * src_width * channel + t.global_src_x2 * channel)

/-- Byte index of the lower neighbour. -/
def index_C (t : taps_t) (src_width channel : Int) : Int :=
  int32 (t.global_src_y2 * src_width * channel + t.global_src_x1 * channel)

/-- Byte index of the lower right neighbour. -/
def index_D (t : taps_t) (src_width channel : Int) : Int :=
  int32 (t.global_src_y2 * src_width * channel + t.global_src_x2 * channel)

/-- The value stored for channel `c` of the destination pixel with paste
offsets `dst_x_offset`, `dst_y_offset` (source lines 448-493).  The subscript
`index_A + c` of each read is an `int` expression. -/
def pixel_value (channel : Int) (src : Mem) (src_width src_height : Int)
    (crop_x crop_y crop_width crop_height dst_box_width dst_box_height : Int)
    (dst_x_offset dst_y_offset c : Int) : Byte :=
  let x_ratio := F32.div (F32.ofInt crop_width) (F32.ofInt dst_box_width)
  let y_ratio := F32.div (F32.ofInt crop_height) (F32.ofInt dst_box_height)
  let t := src_taps src_width src_height crop_x crop_y crop_width crop_height
    x_ratio y_ratio dst_x_offset dst_y_offset
  bilinear (src (int32 (index_A t src_width channel + c)))
    (src (int32 (index_B t src_width channel + c)))
    (src (int32 (index_C t src_width channel + c)))
    (src (int32 (index_D t src_width channel + c)))
    t.x_diff t.y_diff

/-- The three nested loops of `crop_and_scale_image_c` (source lines 446-498)
on buffers known to be present.  The destination subscript
`(dst_y * dst_width + dst_x) * channel + c` is an `int` expression. -/
def crop_and_scale_loops (channel : Int) (src : Mem) (src_width src_height : Int)
    (crop_x crop_y crop_width crop_height : Int) (dst : Mem) (dst_width : Int)
    (dst_box_x dst_box_y dst_box_width dst_box_height : Int) : Mem :=
  forLoop dst_box_y (dst_box_y + dst_box_height) (fun dst_y m1 =>
    forLoop dst_box_x (dst_box_x + dst_box_width) (fun dst_x m2 =>
      forLoop 0 channel (fun c m3 =>
        Function.update m3 (int32 ((dst_y * dst_width + dst_x) * channel + c))
          (pixel_value channel src src_width src_height crop_x crop_y crop_width crop_height
            dst_box_width dst_box_height (dst_x - dst_box_x) (dst_y - dst_box_y) c)) m2) m1) dst

/-- The function `crop_and_scale_image_c`: return code and destination memory
after the call. -/
def crop_and_scale_image_c (channel : Int) (src : Option Mem) (src_width src_height : Int)
    (crop_x crop_y crop_width crop_height : Int) (dst : Option Mem)
    (dst_width dst_height : Int)
    (dst_box_x dst_box_y dst_box_width dst_box_height : Int) : Int × Option Mem :=
  match dst, src with
  | some d, some s =>
    (0, some (crop_and_scale_loops channel s src_width src_height crop_x crop_y crop_width
      crop_height d dst_width dst_box_x dst_box_y dst_box_width dst_box_height))
  | _, _ => (-1, dst)

/-- The function `crop_and_scale_image_yuv420sp`, called on present buffers: a
luma pass at offset 0 and a chroma pass through the pointers advanced by the
`int` products `src_width * src_height` and `dst_width * dst_height`.  The
return codes of the two passes are ignored, as in the source. -/
def crop_and_scale_image_yuv420sp (src : Mem) (src_width src_height : Int)
    (crop_x crop_y crop_width crop_height : Int) (dst : Mem) (dst_width dst_height : Int)
    (dst_box_x dst_box_y dst_box_width dst_box_height : Int) : Int × Mem :=
  let src_y := src
  let src_uv := Mem.offset src (int32 (src_width * src_height))
  let dst1 := ((crop_and_scale_image_c 1 (some src_y) src_width src_height
    crop_x crop_y crop_width crop_height (some dst) dst_width dst_height
    dst_box_x dst_box_y dst_box_width dst_box_height).2).getD dst
  let dst_uv := Mem.offset dst1 (int32 (dst_width * dst_height))
  let dst_uv2 := ((crop_and_scale_image_c 2 (some src_uv) (src_width.tdiv 2) (src_height.tdiv 2)
    (crop_x.tdiv 2) (crop_y.tdiv 2) (crop_width.tdiv 2) (crop_height.tdiv 2)
    (some dst_uv) (dst_width.tdiv 2) (dst_height.tdiv 2)
    (dst_box_x.tdiv 2) (dst_box_y.tdiv 2) (dst_box_width.tdiv 2)
    (dst_box_height.tdiv 2)).2).getD dst_uv
  (0, Mem.offset dst_uv2 (-(int32 (dst_width * dst_height))))

/-- The first call in `crop_and_scale_image_yuv420sp` (source lines 513-514),
the luma pass, as a function of the destination memory it starts from. -/
def yuv420sp_luma_pass (src : Mem) (src_width src_height : Int)
    (crop_x crop_y crop_width crop_height : Int) (dst : Mem) (dst_width dst_height : Int)
    (dst_box_x dst_box_y dst_box_width dst_box_height : Int) : Mem :=
  ((crop_and_scale_image_c 1 (some src) src_width src_height
    crop_x crop_y crop_width crop_height (some dst) dst_width dst_height
    dst_box_x dst_box_y dst_box_width dst_box_height).2).getD dst

/-- The second call in `crop_and_scale_image_yuv420sp` (source lines 518-521),
the chroma pass, as a function of the destination memory it starts from: it
works through the pointers advanced by the `int` products `width * height`. -/
def yuv420sp_chroma_pass (src : Mem) (src_width src_height : Int)
    (crop_x crop_y crop_width crop_height : Int) (dst : Mem) (dst_width dst_height : Int)
    (dst_box_x dst_box_y dst_box_width dst_box_height : Int) : Mem :=
  Mem.offset
    (((crop_and_scale_image_c 2 (some (Mem.offset src (int32 (src_width * src_height))))
      (src_width.tdiv 2) (src_height.tdiv 2)
      (crop_x.tdiv 2) (crop_y.tdiv 2) (crop_width.tdiv 2) (crop_height.tdiv 2)
      (some (Mem.offset dst (int32 (dst_width * dst_height)))) (dst_width.tdiv 2)
      (dst_height.tdiv 2)
      (dst_box_x.tdiv 2) (dst_box_y.tdiv 2) (dst_box_width.tdiv 2)
      (dst_box_height.tdiv 2)).2).getD (Mem.offset dst (int32 (dst_width * dst_height))))
    (-(int32 (dst_width * dst_height)))

/-- The function `get_image_size`; the argument is `none` for a `NULL`
descriptor.  The products are `int` expressions; C division truncates toward
zero. -/
def get_image_size (image : Option image_buffer_t) : Int :=
  match image with
  | none => 0
  | some img =>
    match img.format with
    | IMAGE_FORMAT_GRAY8 => int32 (img.width * img.height)
    | IMAGE_FORMAT_RGB888 => int32 (img.width * img.height * 3)
    | IMAGE_FORMAT_RGBA8888 => int32 (img.width * img.height * 4)
    | IMAGE_FORMAT_YUV420SP_NV12 => (int32 (img.width * img.height * 3)).tdiv 2
    | IMAGE_FORMAT_YUV420SP_NV21 => (int32 (img.width * img.height * 3)).tdiv 2
    | UNKNOWN _ => 0

/-- The size function as the specification words it (section 4.1): the exact
byte size per layout, and `none` (unsupported format) otherwise. -/
def sizeFor (format : image_format_t) (w h : Int) : Option Int :=
  match format with
  | IMAGE_FORMAT_GRAY8 => some (w * h)
  | IMAGE_FORMAT_RGB888 => some (w * h * 3)
  | IMAGE_FORMAT_RGBA8888 => some (w * h * 4)
  | IMAGE_FORMAT_YUV420SP_NV12 => some ((w * h * 3).tdiv 2)
  | IMAGE_FORMAT_YUV420SP_NV21 => some ((w * h * 3).tdiv 2)
  | UNKNOWN _ => none

/-- Crop or paste box as computed at the top of `convert_image_cpu`:
`(x, y, w, h)` from an optional rectangle, defaulting to the whole image. -/
def box_of (box : Option image_rect_t) (width height : Int) : Int × Int × Int × Int :=
  match box with
  | none => (0, 0, width, height)
  | some b => (b.left, b.top, b.right - b.left + 1, b.bottom - b.top + 1)

/-- The pad fill of `convert_image_cpu` (source lines 564-569): the whole
destination is set to the pad colour when the paste box is not the whole
destination. -/
def pad_fill (dst : image_buffer_t) (d : Mem) (color : Int)
    (dst_box_x dst_box_y dst_box_w dst_box_h : Int) : Mem :=
  if dst_box_w ≠ dst.width ∨ dst_box_h ≠ dst.height ∨ dst_box_x ≠ 0 ∨ dst_box_y ≠ 0 then
    memset d color (get_image_size (some dst))
  else d

/-- The dispatch on the format in `convert_image_cpu` (source lines 571-594):
return code of the resampling routine and destination memory. -/
def cpu_dispatch (format : image_format_t) (s : Mem) (src_width src_height : Int)
    (src_box_x src_box_y src_box_w src_box_h : Int) (d1 : Mem) (dst_width dst_height : Int)
    (dst_box_x dst_box_y dst_box_w dst_box_h : Int) : Int × Option Mem :=
  match format with
  | IMAGE_FORMAT_RGB888 =>
    crop_and_scale_image_c 3 (some s) src_width src_height
      src_box_x src_box_y src_box_w src_box_h (some d1) dst_width dst_height
      dst_box_x dst_box_y dst_box_w dst_box_h
  | IMAGE_FORMAT_RGBA8888 =>
    crop_and_scale_image_c 4 (some s) src_width src_height
      src_box_x src_box_y src_box_w src_box_h (some d1) dst_width dst_height
      dst_box_x dst_box_y dst_box_w dst_box_h
  | IMAGE_FORMAT_GRAY8 =>
    crop_and_scale_image_c 1 (some s) src_width src_height
      src_box_x src_box_y src_box_w src_box_h (some d1) dst_width dst_height
      dst_box_x dst_box_y dst_box_w dst_box_h
  | IMAGE_FORMAT_YUV420SP_NV12 =>
    let q := crop_and_scale_image_yuv420sp s src_width src_height
      src_box_x src_box_y src_box_w src_box_h d1 dst_width dst_height
      dst_box_x dst_box_y dst_box_w dst_box_h
    (q.1, some q.2)
  | IMAGE_FORMAT_YUV420SP_NV21 =>
    let q := crop_and_scale_image_yuv420sp s src_width src_height
      src_box_x src_box_y src_box_w src_box_h d1 dst_width dst_height
      dst_box_x dst_box_y dst_box_w dst_box_h
    (q.1, some q.2)
  | UNKNOWN _ => (-1, some d1)

/-- The function `convert_image_cpu`: return code and destination descriptor
after the call. -/
def convert_image_cpu (src dst : image_buffer_t) (src_box dst_box : Option image_rect_t)
    (color : Int) : Int × image_buffer_t :=
  match dst.virt_addr with
  | none => (-1, dst)
  | some d =>
    match src.virt_addr with
    | none => (-1, dst)
    | some s =>
      if src.format ≠ dst.format then (-1, dst) else
      let sb := box_of src_box src.width src.height
      let db := box_of dst_box dst.width dst.height
      let d1 := pad_fill dst d color db.1 db.2.1 db.2.2.1 db.2.2.2
      let r := cpu_dispatch src.format s src.width src.height sb.1 sb.2.1 sb.2.2.1 sb.2.2.2
        d1 dst.width dst.height db.1 db.2.1 db.2.2.1 db.2.2.2
      if r.1 ≠ 0 then (-1, { dst with virt_addr := r.2 }) else (0, { dst with virt_addr := r.2 })

/-!
## Hardware path, dispatcher and letterbox entry point
-/

/-- Compile-time switches read by the preprocessor conditionals of the file. -/
structure build_config where
  DISABLE_RGA : Bool
  RV1106_1103 : Bool
  LIBRGA_IM2D_HANDLE : Bool

/-- One call into the hardware library, as recorded in the call log. -/
inductive rga_call where
  | importbuffer (handle : Int)
  | imfill
  | improcess
  | releasebuffer_handle (handle : Int)
  deriving DecidableEq

/-- The hardware library (librga), an external collaborator with its own
state `σ`: its format codes and the calls the file makes.  `imfill` and
`improcess` answer with a status, the effect on the destination bytes and the
next state; the import calls with a handle and the next state. -/
structure rga_backend (σ : Type) where
  RK_FORMAT_RGB_888 : Int
  RK_FORMAT_RGBA_8888 : Int
  RK_FORMAT_YCbCr_420_SP : Int
  RK_FORMAT_YCrCb_420_SP : Int
  importbuffer_fd : σ → Int → Int × σ
  importbuffer_virtualaddr : σ → Option Mem → Int × σ
  releasebuffer_handle : σ → Int → σ
  imfill : σ → image_buffer_t → Int → Int × (Mem → Mem) × σ
  improcess : σ → image_buffer_t → image_buffer_t → (Int × Int × Int × Int) →
    (Int × Int × Int × Int) → Int × (Mem → Mem) × σ

/-- Outcome of a conversion that may involve the hardware: return code,
destination descriptor, hardware state and the log of hardware calls (oldest
first). -/
structure convert_result (σ : Type) where
  ret : Int
  dst : image_buffer_t
  state : σ
  log : List rga_call

/-- The function `get_rga_fmt`. -/
def get_rga_fmt {σ : Type} (hw : rga_backend σ) (fmt : image_format_t) : Int :=
  match fmt with
  | IMAGE_FORMAT_RGB888 => hw.RK_FORMAT_RGB_888
  | IMAGE_FORMAT_RGBA8888 => hw.RK_FORMAT_RGBA_8888
  | IMAGE_FORMAT_YUV420SP_NV12 => hw.RK_FORMAT_YCbCr_420_SP
  | IMAGE_FORMAT_YUV420SP_NV21 => hw.RK_FORMAT_YCrCb_420_SP
  | IMAGE_FORMAT_GRAY8 => -1
  | UNKNOWN _ => -1

/-- The label `err:` of `convert_image_rga` (source lines 806-813): release
each handle that is positive, then return `ret`. -/
def rga_cleanup {σ : Type} (hw : rga_backend σ) (ret : Int) (dst : image_buffer_t)
    (st : σ) (log : List rga_call) (rga_handle_src rga_handle_dst : Int) : convert_result σ :=
  let (st1, log1) :=
    if rga_handle_src > 0 then
      (hw.releasebuffer_handle st rga_handle_src,
        log ++ [rga_call.releasebuffer_handle rga_handle_src])
    else (st, log)
  let (st2, log2) :=
    if rga_handle_dst > 0 then
      (hw.releasebuffer_handle st1 rga_handle_dst,
        log1 ++ [rga_call.releasebuffer_handle rga_handle_dst])
    else (st1, log1)
  { ret := ret, dst := dst, state := st2, log := log2 }

/-- The import of one buffer (source lines 731-738 and 755-762).  The
physical address is the constant `NULL` in the source, so the choice is between
the file descriptor and the virtual address. -/
def rga_import {σ : Type} (hw : rga_backend σ) (st : σ) (img : image_buffer_t) : Int × σ :=
  if img.fd > 0 then hw.importbuffer_fd st img.fd
  else hw.importbuffer_virtualaddr st img.virt_addr

/-- The pad fill and the scaling call of `convert_image_rga` (source lines
779-804), followed by the cleanup at `err:`. -/
def rga_fill_and_process {σ : Type} (hw : rga_backend σ) (st : σ) (log : List rga_call)
    (src_img dst_img : image_buffer_t) (srect drect : Int × Int × Int × Int) (color : Int)
    (rga_handle_src rga_handle_dst : Int) : convert_result σ :=
  let (dst1, st1, log1) :=
    if drect.2.2.1 ≠ dst_img.width ∨ drect.2.2.2 ≠ dst_img.height ∨ drect.1 ≠ 0 ∨
        drect.2.1 ≠ 0 then
      let f := hw.imfill st dst_img color
      let filled : image_buffer_t :=
        { dst_img with virt_addr := dst_img.virt_addr.map f.2.1 }
      let refilled : image_buffer_t :=
        { filled with
          virt_addr :=
            filled.virt_addr.map (fun d => memset d color (get_image_size (some dst_img))) }
      if f.1 ≤ 0 then (refilled, f.2.2, log ++ [rga_call.imfill])
      else (filled, f.2.2, log ++ [rga_call.imfill])
    else (dst_img, st, log)
  let p := hw.improcess st1 src_img dst1 srect drect
  let dst2 : image_buffer_t := { dst1 with virt_addr := dst1.virt_addr.map p.2.1 }
  let ret : Int := if p.1 ≤ 0 then -1 else 0
  rga_cleanup hw ret dst2 p.2.2 (log1 ++ [rga_call.improcess]) rga_handle_src rga_handle_dst

/-- The function `convert_image_rga`.  `uninit_src` and `uninit_dst` stand for
the indeterminate contents of `rga_handle_src` and `rga_handle_dst` when the
early `goto err` jumps over their initialisation. -/
def convert_image_rga {σ : Type} (cfg : build_config) (hw : rga_backend σ) (st : σ)
    (uninit_src uninit_dst : Int) (src_img dst_img : image_buffer_t)
    (src_box dst_box : Option image_rect_t) (color : Int) : convert_result σ :=
  if get_rga_fmt hw src_img.format = -1 then
    rga_cleanup hw 0 dst_img st [] uninit_src uninit_dst
  else if get_rga_fmt hw dst_img.format = -1 then
    rga_cleanup hw 0 dst_img st [] uninit_src uninit_dst
  else
    let srect := box_of src_box src_img.width src_img.height
    let drect := box_of dst_box dst_img.width dst_img.height
    if cfg.LIBRGA_IM2D_HANDLE then
      let hs := rga_import hw st src_img
      if hs.1 ≤ 0 then
        rga_cleanup hw (-1) dst_img hs.2 [rga_call.importbuffer hs.1] hs.1 0
      else
        let hd := rga_import hw hs.2 dst_img
        if hd.1 ≤ 0 then
          rga_cleanup hw (-1) dst_img hd.2
            [rga_call.importbuffer hs.1, rga_call.importbuffer hd.1] hs.1 hd.1
        else
          rga_fill_and_process hw hd.2
            [rga_call.importbuffer hs.1, rga_call.importbuffer hd.1]
            src_img dst_img srect drect color hs.1 hd.1
    else
      rga_fill_and_process hw st [] src_img dst_img srect drect color 0 0

/-- The alignment quantum of the width test in `convert_image`. -/
def rga_align (cfg : build_config) : Int := if cfg.RV1106_1103 then 4 else 16

/-- The condition under which `convert_image` tries the hardware (source
lines 826-831). -/
def rga_selected {σ : Type} (cfg : build_config) (hw : rga_backend σ)
    (src_img dst_img : image_buffer_t) : Bool :=
  src_img.width.tmod (rga_align cfg) = 0 && dst_img.width.tmod (rga_align cfg) = 0 &&
    get_rga_fmt hw src_img.format ≠ -1 && get_rga_fmt hw dst_img.format ≠ -1

/-- The function `convert_image`. -/
def convert_image {σ : Type} (cfg : build_config) (hw : rga_backend σ) (st : σ)
    (uninit_src uninit_dst : Int) (src_img dst_img : image_buffer_t)
    (src_box dst_box : Option image_rect_t) (color : Int) : convert_result σ :=
  if cfg.DISABLE_RGA then
    let r := convert_image_cpu src_img dst_img src_box dst_box color
    { ret := r.1, dst := r.2, state := st, log := [] }
  else if rga_selected cfg hw src_img dst_img then
    let h := convert_image_rga cfg hw st uninit_src uninit_dst src_img dst_img src_box dst_box
      color
    if h.ret ≠ 0 then
      let r := convert_image_cpu src_img h.dst src_box dst_box color
      { ret := r.1, dst := r.2, state := h.state, log := h.log }
    else h
  else
    let r := convert_image_cpu src_img dst_img src_box dst_box color
    { ret := r.1, dst := r.2, state := st, log := [] }

/-- The adjustment `if (v % 2 != 0) { v -= 1; if (v < 0) v = 0; }` applied to
the centring offsets. -/
def even_offset (v : Int) : Int :=
  if v.tmod 2 ≠ 0 then (if v - 1 < 0 then 0 else v - 1) else v

/-- The geometry computed by `convert_image_with_letterbox` before it touches
any buffer (source lines 855-941).  `resize_w0` and `resize_h0` are `resize_w`
and `resize_h` as they stand after the scale is applied and before the
alignment block. -/
structure letterbox_geometry_t where
  src_box : image_rect_t
  dst_box : image_rect_t
  resize_w0 : Int
  resize_h0 : Int
  resize_w : Int
  resize_h : Int
  padding_w : Int
  padding_h : Int
  left_offset : Int
  top_offset : Int
  scale : ℚ

/-- The letterbox computation of `convert_image_with_letterbox` (source lines
855-941, with `allow_slight_change = 1`). -/
def letterbox_geometry (src_w src_h dst_w dst_h : Int) : letterbox_geometry_t :=
  let scale_w := F32.div (F32.ofInt dst_w) (F32.ofInt src_w)
  let scale_h := F32.div (F32.ofInt dst_h) (F32.ofInt src_h)
  let scale := if scale_w < scale_h then scale_w else scale_h
  let resize_w0 := if scale_w < scale_h then dst_w else F32.toInt (F32.mul (F32.ofInt src_w) scale)
  let resize_h0 := if scale_w < scale_h then F32.toInt (F32.mul (F32.ofInt src_h) scale) else dst_h
  let resize_w :=
    if resize_w0.tmod 4 ≠ 0 then
      (if resize_w0 - resize_w0.tmod 4 < 4 ∧ dst_w ≥ 4 then 4 else resize_w0 - resize_w0.tmod 4)
    else resize_w0
  let resize_h :=
    if resize_h0.tmod 2 ≠ 0 then
      (if resize_h0 - resize_h0.tmod 2 < 2 ∧ dst_h ≥ 2 then 2 else resize_h0 - resize_h0.tmod 2)
    else resize_h0
  let padding_h := dst_h - resize_h
  let padding_w := dst_w - resize_w
  let (left, top) :=
    if scale_w < scale_h then
      (even_offset ((dst_w - resize_w).tdiv 2), even_offset (padding_h.tdiv 2))
    else
      (even_offset (padding_w.tdiv 2), even_offset ((dst_h - resize_h).tdiv 2))
  { src_box := { left := 0, top := 0, right := src_w - 1, bottom := src_h - 1 }
    dst_box := { left := left, top := top, right := left + resize_w - 1,
                 bottom := top + resize_h - 1 }
    resize_w0 := resize_w0
    resize_h0 := resize_h0
    resize_w := resize_w
    resize_h := resize_h
    padding_w := padding_w
    padding_h := padding_h
    left_offset := left
    top_offset := top
    scale := scale }

/-- Outcome of `convert_image_with_letterbox`: the conversion outcome and the
letterbox record after the call (`none` when the caller passed `NULL`). -/
structure letterbox_result (σ : Type) where
  ret : Int
  dst : image_buffer_t
  letterbox : Option letterbox_t
  state : σ
  log : List rga_call

/-- The function `convert_image_with_letterbox`.  `malloc` is the allocator:
`none` when the allocation fails. -/
def convert_image_with_letterbox {σ : Type} (cfg : build_config) (hw : rga_backend σ) (st : σ)
    (uninit_src uninit_dst : Int) (malloc : Int → Option Mem)
    (src_image dst_image : image_buffer_t) (letterbox : Option letterbox_t) (color : Int) :
    letterbox_result σ :=
  let g := letterbox_geometry src_image.width src_image.height dst_image.width dst_image.height
  let lb : Option letterbox_t :=
    letterbox.map (fun _ => { x_pad := g.left_offset, y_pad := g.top_offset, scale := g.scale })
  let run (dst1 : image_buffer_t) : letterbox_result σ :=
    let r := convert_image cfg hw st uninit_src uninit_dst src_image dst1
      (some g.src_box) (some g.dst_box) color
    { ret := r.ret, dst := r.dst, letterbox := lb, state := r.state, log := r.log }
  if dst_image.virt_addr.isNone ∧ dst_image.fd ≤ 0 then
    let dst_size := get_image_size (some dst_image)
    if dst_size = 0 then
      { ret := -1, dst := dst_image, letterbox := lb, state := st, log := [] }
    else
      match malloc dst_size with
      | none => { ret := -1, dst := dst_image, letterbox := lb, state := st, log := [] }
      | some p => run { dst_image with virt_addr := some p, size := dst_size }
  else
    if dst_image.size < get_image_size (some dst_image) then
      { ret := -1, dst := dst_image, letterbox := lb, state := st, log := [] }
    else run dst_image

/-!
## Sample inputs
-/

/-- Bytes of a Gray8 image 16777218 pixels wide and one pixel high: the last
pixel is 1, every other pixel 0. -/
def wide_src_bytes : Mem := fun i => if i = 16777217 then 1 else 0

/-- The Gray8 image over `wide_src_bytes`. -/
def wide_src : image_buffer_t :=
  { width := 16777218, height := 1, format := IMAGE_FORMAT_GRAY8,
    virt_addr := some wide_src_bytes, size := 16777218, fd := 0 }

/-- A destination of the same format and size as `wide_src`, all zero. -/
def wide_dst : image_buffer_t :=
  { width := 16777218, height := 1, format := IMAGE_FORMAT_GRAY8,
    virt_addr := some (fun _ => 0), size := 16777218, fd := 0 }

/-- The Gray8 image over `wide_src_bytes` laid out as one column: one pixel
wide and 16777218 pixels high. -/
def tall_src : image_buffer_t :=
  { width := 1, height := 16777218, format := IMAGE_FORMAT_GRAY8,
    virt_addr := some wide_src_bytes, size := 16777218, fd := 0 }

/-- A destination of the same format and size as `tall_src`, all zero. -/
def tall_dst : image_buffer_t :=
  { width := 1, height := 16777218, format := IMAGE_FORMAT_GRAY8,
    virt_addr := some (fun _ => 0), size := 16777218, fd := 0 }

/-- Bytes that are all 0 except byte `k`, which is 1. -/
def marked_bytes (k : Int) : Mem := fun i => if i = k then 1 else 0

/-- Bytes of a small test image: byte `i` holds `i mod 256`. -/
def ramp_bytes : Mem := fun i => byte_of_int i

/-- A present image over the given bytes whose declared size is the size of
its layout. -/
def image_of (width height : Int) (format : image_format_t) (bytes : Mem) : image_buffer_t :=
  { width := width, height := height, format := format, virt_addr := some bytes,
    size := (sizeFor format width height).getD 0, fd := 0 }

/-- A build with the hardware path enabled, the 16-pixel alignment and no
buffer handles. -/
def rga_build : build_config :=
  { DISABLE_RGA := false, RV1106_1103 := false, LIBRGA_IM2D_HANDLE := false }

/-- A hardware library every call of which fails without touching a byte; the
format codes are those of librga. -/
def failing_backend : rga_backend Unit :=
  { RK_FORMAT_RGB_888 := 512
    RK_FORMAT_RGBA_8888 := 0
    RK_FORMAT_YCbCr_420_SP := 2560
    RK_FORMAT_YCrCb_420_SP := 3584
    importbuffer_fd := fun _ _ => (0, ())
    importbuffer_virtualaddr := fun _ _ => (0, ())
    releasebuffer_handle := fun _ _ => ()
    imfill := fun _ _ _ => (0, id, ())
    improcess := fun _ _ _ _ _ => (0, id, ()) }

/-- A hardware library whose scaling call sets every destination byte to 255
and then reports failure; the format codes are those of librga. -/
def scribbling_backend : rga_backend Unit :=
  { RK_FORMAT_RGB_888 := 512
    RK_FORMAT_RGBA_8888 := 0
    RK_FORMAT_YCbCr_420_SP := 2560
    RK_FORMAT_YCrCb_420_SP := 3584
    importbuffer_fd := fun _ _ => (0, ())
    importbuffer_virtualaddr := fun _ _ => (0, ())
    releasebuffer_handle := fun _ _ => ()
    imfill := fun _ _ _ => (0, id, ())
    improcess := fun _ _ _ _ _ => (0, fun _ _ => 255, ()) }

/-- Bytes of a Gray8 image 16777217 pixels wide and one pixel high: pixel
16777120 (97 times 172960) is 1, every other pixel 0. -/
def downscale_src_bytes : Mem := fun i => if i = 16777120 then 1 else 0

/-- A build with the hardware path enabled and buffer handles in use
(`LIBRGA_IM2D_HANDLE` defined). -/
def handle_build : build_config :=
  { DISABLE_RGA := false, RV1106_1103 := false, LIBRGA_IM2D_HANDLE := true }

/-- A hardware library every call of which succeeds without touching a byte.
Its state is the number of handles issued so far; each import issues the next
number as the handle.  The format codes are those of librga. -/
def counting_backend : rga_backend Int :=
  { RK_FORMAT_RGB_888 := 512
    RK_FORMAT_RGBA_8888 := 0
    RK_FORMAT_YCbCr_420_SP := 2560
    RK_FORMAT_YCrCb_420_SP := 3584
    importbuffer_fd := fun n _ => (n + 1, n + 1)
    importbuffer_virtualaddr := fun n _ => (n + 1, n + 1)
    releasebuffer_handle := fun n _ => n
    imfill := fun n _ _ => (1, id, n)
    improcess := fun n _ _ _ _ => (1, id, n) }

/-- A source image known to the hardware by file descriptor only: no data
pointer. -/
def fd_only_src : image_buffer_t :=
  { width := 16, height := 2, format := IMAGE_FORMAT_RGB888, virt_addr := none,
    size := 96, fd := 5 }

/-- A present 2 x 2 Gray8 destination whose declared size is 0, smaller than
the 4 bytes of its layout. -/
def undersized_dst : image_buffer_t :=
  { width := 2, height := 2, format := IMAGE_FORMAT_GRAY8, virt_addr := some (fun _ => 0),
    size := 0, fd := 0 }

/-- An allocator that always fails. -/
def failing_malloc : Int → Option Mem := fun _ => none

end ImageUtils

/-!
## Lemmas on binary32 rounding
-/

namespace F32

theorem rne_intCast (n : Int) : rne (n : ℚ) = n := by
  simp [rne]

theorem rne_eq_of_abs_sub_lt (x : ℚ) (m : Int) (h : |x - m| < 1 / 2) : rne x = m := by
  rw [abs_lt] at h
  obtain ⟨h1, h2⟩ := h
  have hfl := Int.floor_le x
  have hfl2 := Int.lt_floor_add_one x
  unfold rne
  simp only
  split_ifs with c1 c2 c3
  · -- r < 1/2 : floor = m
    have : (⌊x⌋ : ℚ) < m + 1 := by linarith
    have a1 : ⌊x⌋ < m + 1 := by exact_mod_cast this
    have : (m : ℚ) < ⌊x⌋ + 1 := by linarith
    have a2 : m < ⌊x⌋ + 1 := by exact_mod_cast this
    omega
  · have : (⌊x⌋ : ℚ) + 1 < m + 1 := by linarith
    have a1 : ⌊x⌋ + 1 < m + 1 := by exact_mod_cast this
    have : (m : ℚ) < ⌊x⌋ + 1 + 1 := by linarith
    have a2 : m < ⌊x⌋ + 1 + 1 := by exact_mod_cast this
    omega
  · have e : x - ⌊x⌋ = 1 / 2 := le_antisymm (not_lt.mp c2) (not_lt.mp c1)
    have : (⌊x⌋ : ℚ) < m + 1 := by linarith
    have a1 : ⌊x⌋ < m + 1 := by exact_mod_cast this
    have : (m : ℚ) < ⌊x⌋ + 1 := by linarith
    have a2 : m < ⌊x⌋ + 1 := by exact_mod_cast this
    omega
  · have e : x - ⌊x⌋ = 1 / 2 := le_antisymm (not_lt.mp c2) (not_lt.mp c1)
    have : (⌊x⌋ : ℚ) < m := by linarith
    have a1 : ⌊x⌋ < m := by exact_mod_cast this
    have : (m : ℚ) < ⌊x⌋ + 1 := by linarith
    have a2 : m < ⌊x⌋ + 1 := by exact_mod_cast this
    omega

/-- Distance from `x` to its rounding is at most one half. -/
theorem abs_rne_sub_le (x : ℚ) : |(rne x : ℚ) - x| ≤ 1 / 2 := by
  have hfl := Int.floor_le x
  have hfl2 := Int.lt_floor_add_one x
  unfold rne
  simp only
  rw [abs_le]
  split_ifs with c1 c2 c3
  · constructor <;> linarith
  · push_cast; constructor <;> linarith
  · constructor <;> linarith
  · push_cast; constructor <;> linarith

theorem rne_tie_even (x : ℚ) (m : Int) (h : |x - m| = 1 / 2) (hm : m % 2 = 0) : rne x = m := by
  have hfl := Int.floor_le x
  have hfl2 := Int.lt_floor_add_one x
  rcases abs_eq (by norm_num : (0:ℚ) ≤ 1/2) |>.mp h with h1 | h1
  · have hf : ⌊x⌋ = m := by
      rw [Int.floor_eq_iff]; constructor <;> linarith
    unfold rne
    simp only [hf]
    have : x - m = 1/2 := h1
    rw [this]
    simp [hm]
  · have hf : ⌊x⌋ = m - 1 := by
      rw [Int.floor_eq_iff]; push_cast; constructor <;> linarith
    unfold rne
    simp only [hf]
    have : x - ((m - 1 : Int) : ℚ) = 1/2 := by push_cast; linarith
    rw [this]
    have h2 : (m - 1) % 2 ≠ 0 := by omega
    simp [h2]

theorem ulpExp_eq (q : ℚ) (e : Int) (he : -149 ≤ e) (h1 : (2:ℚ) ^ (e + 23) ≤ |q|)
    (h2 : |q| < (2:ℚ) ^ (e + 24)) : ulpExp q = e := by
  have hpos : 0 < |q| := lt_of_lt_of_le (by positivity) h1
  have a : e + 23 ≤ Int.log 2 |q| := by
    rw [← Int.zpow_le_iff_le_log (by norm_num) hpos]; exact_mod_cast h1
  have b : Int.log 2 |q| < e + 24 := by
    rw [← Int.lt_zpow_iff_log_lt (by norm_num) hpos]; exact_mod_cast h2
  unfold ulpExp
  omega

theorem ulpExp_le (q : ℚ) (e : Int) (he : -149 ≤ e) (h2 : |q| < (2:ℚ) ^ (e + 24)) (hq : q ≠ 0) :
    ulpExp q ≤ e := by
  have hpos : 0 < |q| := abs_pos.mpr hq
  have b : Int.log 2 |q| < e + 24 := by
    rw [← Int.lt_zpow_iff_log_lt (by norm_num) hpos]; exact_mod_cast h2
  unfold ulpExp
  omega

theorem ulpExp_eq_subnormal (q : ℚ) (hq : q ≠ 0) (h2 : |q| < (2:ℚ) ^ (-125 : Int)) :
    ulpExp q = -149 := by
  have hpos : 0 < |q| := abs_pos.mpr hq
  have b : Int.log 2 |q| < -125 := by
    rw [← Int.lt_zpow_iff_log_lt (by norm_num) hpos]; exact_mod_cast h2
  unfold ulpExp
  omega

theorem rnd_zero : rnd 0 = 0 := by
  simp [rnd, rne]

theorem rnd_eq_self (q : ℚ) (m e : Int) (he : -149 ≤ e) (hq : |q| < (2:ℚ) ^ (e + 24))
    (hm : q = m * (2:ℚ) ^ e) : rnd q = q := by
  by_cases h0 : q = 0
  · rw [h0, rnd_zero]
  have hu := ulpExp_le q e he hq h0
  unfold rnd
  generalize ulpExp q = u at hu
  obtain ⟨k, hk⟩ : ∃ k : ℕ, e = u + k := ⟨(e - u).toNat, by omega⟩
  have h2 : (2:ℚ) ^ u ≠ 0 := by positivity
  have : q / 2 ^ u = ((m * 2 ^ k : Int) : ℚ) := by
    rw [hm, hk, zpow_add₀ (by norm_num), zpow_natCast]
    push_cast
    field_simp
    ring
  rw [this, rne_intCast, ← this]
  field_simp

theorem rnd_intCast (n : Int) (h : |n| ≤ 2 ^ 24) : rnd (n : ℚ) = n := by
  rcases lt_or_eq_of_le h with h1 | h1
  · apply rnd_eq_self n n 0 (by norm_num)
    · have : |(n:ℚ)| < (2:ℚ) ^ (24:ℕ) := by exact_mod_cast h1
      rw [show (0:Int) + 24 = ((24:ℕ):Int) by norm_num, zpow_natCast]
      exact this
    · simp
  · rcases abs_eq (by norm_num : (0:Int) ≤ 2^24) |>.mp h1 with h2 | h2
    · subst h2
      apply rnd_eq_self _ (2^23) 1 (by norm_num) <;> norm_num
    · subst h2
      apply rnd_eq_self _ (-2^23) 1 (by norm_num) <;> norm_num

theorem rnd_cert (q : ℚ) (m e : Int) (he : -149 ≤ e) (h1 : (2:ℚ) ^ (e + 23) ≤ |q|)
    (h2 : |q| < (2:ℚ) ^ (e + 24)) (hr : rne (q / 2 ^ e) = m) : rnd q = m * 2 ^ e := by
  unfold rnd
  rw [ulpExp_eq q e he h1 h2, hr]


theorem one_le_rne (x : ℚ) (h : 1 ≤ x) : 1 ≤ rne x := by
  have h1 := abs_le.mp (abs_rne_sub_le x)
  have h2 : (1 / 2 : ℚ) ≤ rne x := by linarith [h1.1]
  by_contra hc
  have h3 : rne x ≤ 0 := by omega
  have h4 : (rne x : ℚ) ≤ 0 := by exact_mod_cast h3
  linarith

/-- The unit in the last place does not exceed a value that is at least the
smallest subnormal. -/
theorem ulp_le_self (q : ℚ) (h : (2:ℚ) ^ (-149 : Int) ≤ q) : (2:ℚ) ^ ulpExp q ≤ q := by
  have hpos : 0 < q := lt_of_lt_of_le (by positivity) h
  have habs : |q| = q := abs_of_pos hpos
  unfold ulpExp
  rw [habs]
  rcases le_total (Int.log 2 q) (-126) with hL | hL
  · rw [max_eq_right hL]
    norm_num at h ⊢
    exact h
  · rw [max_eq_left hL]
    have h1 : (2:ℚ) ^ (Int.log 2 q - 23) ≤ (2:ℚ) ^ (Int.log 2 q) :=
      zpow_le_zpow_right₀ (by norm_num) (by omega)
    have h2 : ((2:ℕ):ℚ) ^ (Int.log 2 q) ≤ q := Int.zpow_log_le_self (by norm_num) hpos
    have h3 : (2:ℚ) ^ (Int.log 2 q) ≤ q := by exact_mod_cast h2
    linarith

theorem rnd_pos (q : ℚ) (h : (2:ℚ) ^ (-149 : Int) ≤ q) : 0 < rnd q := by
  have h1 := ulp_le_self q h
  have hu : (0:ℚ) < 2 ^ ulpExp q := by positivity
  have h2 : 1 ≤ q / 2 ^ ulpExp q := by rw [le_div_iff₀ hu]; linarith
  have h3 := one_le_rne _ h2
  have h4 : (1:ℚ) ≤ rne (q / 2 ^ ulpExp q) := by exact_mod_cast h3
  unfold rnd
  positivity

theorem rnd_one : rnd 1 = 1 := by
  have := rnd_intCast 1 (by norm_num)
  simpa using this

theorem ofInt_pos (n : Int) (hn : 0 < n) : 0 < ofInt n := by
  apply rnd_pos
  have h1 : (1:ℚ) ≤ n := by exact_mod_cast hn
  have h2 : (2:ℚ) ^ (-149 : Int) ≤ 1 := zpow_le_one_of_nonpos₀ (by norm_num) (by norm_num)
  linarith

theorem ofInt_eq (n : Int) (h0 : 0 ≤ n) (h1 : n ≤ 16777216) : ofInt n = n := by
  apply rnd_intCast
  rw [abs_of_nonneg h0]
  norm_num
  exact h1

theorem div_ofInt_self (n : Int) (hn : 0 < n) : div (ofInt n) (ofInt n) = 1 := by
  unfold div
  rw [div_self (ne_of_gt (ofInt_pos n hn)), rnd_one]

theorem toInt_intCast (n : Int) : toInt (n : ℚ) = n := by
  unfold toInt
  split_ifs <;> simp

theorem sub_self_intCast (n : Int) (h0 : 0 ≤ n) (h1 : n ≤ 16777216) :
    sub (n : ℚ) (ofInt n) = 0 := by
  unfold sub
  rw [ofInt_eq n h0 h1, sub_self, rnd_zero]

theorem byte_ofInt (A : Byte) : ofInt (A.val : Int) = (A.val : ℚ) := by
  have h := A.isLt
  have := ofInt_eq (A.val : Int) (by omega) (by omega)
  simpa using this

theorem toUChar_byte (A : Byte) : toUChar ((A.val : ℚ)) = A := by
  unfold toUChar
  have : toInt ((A.val : ℚ)) = (A.val : Int) := by
    have := toInt_intCast (A.val : Int)
    simpa using this
  rw [this]
  apply Fin.ext
  have h := A.isLt
  simp only [byte_of_int]
  omega

/-- Scaled by its unit in the last place, a value is below `2 ^ 24` in
magnitude. -/
theorem abs_div_ulp_lt (q : ℚ) : |q / 2 ^ ulpExp q| < 2 ^ 24 := by
  have hu : (0:ℚ) < 2 ^ ulpExp q := by positivity
  rw [abs_div, abs_of_pos hu, div_lt_iff₀ hu]
  have h1 : |q| < ((2:ℕ):ℚ) ^ (Int.log 2 |q| + 1) := Int.lt_zpow_succ_log_self (by norm_num) _
  have h2 : (2:ℚ) ^ (Int.log 2 |q| + 1) ≤ 2 ^ (ulpExp q + 24) := by
    apply zpow_le_zpow_right₀ (by norm_num)
    unfold ulpExp
    omega
  have h3 : (2:ℚ) ^ (ulpExp q + 24) = 2 ^ 24 * 2 ^ ulpExp q := by
    rw [zpow_add₀ (by norm_num)]
    norm_num
    ring
  have h1' : |q| < (2:ℚ) ^ (Int.log 2 |q| + 1) := by exact_mod_cast h1
  linarith

theorem ulpExp_ge (q : ℚ) : -149 ≤ ulpExp q := by
  unfold ulpExp
  omega

/-- The mantissa chosen by the rounding has at most 24 bits. -/
theorem abs_rne_div_ulp_le (q : ℚ) : |rne (q / 2 ^ ulpExp q)| ≤ 2 ^ 24 := by
  have h1 := abs_div_ulp_lt q
  have h2 := abs_rne_sub_le (q / 2 ^ ulpExp q)
  have h3 : |(rne (q / 2 ^ ulpExp q) : ℚ)| < 2 ^ 24 + 1 := by
    have := abs_sub_abs_le_abs_sub (rne (q / 2 ^ ulpExp q) : ℚ) (q / 2 ^ ulpExp q)
    linarith
  have h4 : |rne (q / 2 ^ ulpExp q)| < 2 ^ 24 + 1 := by exact_mod_cast h3
  omega

/-- A rounded value is representable: rounding it again changes nothing. -/
theorem rnd_idem (q : ℚ) : rnd (rnd q) = rnd q := by
  have hm := abs_rne_div_ulp_le q
  have he := ulpExp_ge q
  have hu : (0:ℚ) < 2 ^ ulpExp q := by positivity
  rcases lt_or_eq_of_le hm with h | h
  · apply rnd_eq_self (rnd q) (rne (q / 2 ^ ulpExp q)) (ulpExp q) he
    · unfold rnd
      rw [abs_mul, abs_of_pos hu, zpow_add₀ (by norm_num), mul_comm ((2:ℚ) ^ ulpExp q)]
      apply mul_lt_mul_of_pos_right _ hu
      have : |(rne (q / 2 ^ ulpExp q) : ℚ)| < (2:ℚ) ^ (24 : ℕ) := by exact_mod_cast h
      have e24 : (2:ℚ) ^ (24 : Int) = 2 ^ (24 : ℕ) := by norm_num
      rw [e24]
      exact this
    · rfl
  · have hcases : rne (q / 2 ^ ulpExp q) = 2 ^ 24 ∨ rne (q / 2 ^ ulpExp q) = -2 ^ 24 := by
      rcases abs_eq (by norm_num : (0:Int) ≤ 2 ^ 24) |>.mp h with h' | h'
      · exact Or.inl h'
      · exact Or.inr h'
    have e1 : (2:ℚ) ^ (ulpExp q + 1) = 2 * 2 ^ ulpExp q := by
      rw [zpow_add₀ (by norm_num)]; norm_num; ring
    have e25 : (2:ℚ) ^ (ulpExp q + 1 + 24) = 2 ^ 25 * 2 ^ ulpExp q := by
      rw [zpow_add₀ (by norm_num), e1]; norm_num; ring
    rcases hcases with h' | h'
    · apply rnd_eq_self (rnd q) (2 ^ 23) (ulpExp q + 1) (by omega)
      · unfold rnd
        rw [h', e25, abs_mul, abs_of_pos hu]
        apply mul_lt_mul_of_pos_right _ hu
        norm_num
      · unfold rnd
        rw [h', e1]
        push_cast
        ring
    · apply rnd_eq_self (rnd q) (-2 ^ 23) (ulpExp q + 1) (by omega)
      · unfold rnd
        rw [h', e25, abs_mul, abs_of_pos hu]
        apply mul_lt_mul_of_pos_right _ hu
        norm_num
      · unfold rnd
        rw [h', e1]
        push_cast
        ring

/-- Truncation toward zero moves a value by less than one and not away from
zero. -/
theorem toInt_spec (x : ℚ) : |x - toInt x| < 1 ∧ |(toInt x : ℚ)| ≤ |x| := by
  unfold toInt
  split_ifs with h
  · have h1 := Int.floor_le x
    have h2 := Int.lt_floor_add_one x
    have h3 : (0:ℚ) ≤ ⌊x⌋ := by exact_mod_cast Int.floor_nonneg.mpr h
    rw [abs_of_nonneg (by linarith), abs_of_nonneg h3, abs_of_nonneg h]
    constructor <;> linarith
  · push_neg at h
    have h1 := Int.le_ceil x
    have h2 := Int.ceil_lt_add_one x
    have h3 : (⌈x⌉ : ℚ) ≤ 0 := by exact_mod_cast Int.ceil_le.mpr (by simpa using le_of_lt h)
    rw [abs_of_nonpos (by linarith), abs_of_nonpos h3, abs_of_neg h]
    constructor <;> linarith

/-- The integer part of a rounded value is representable. -/
theorem ofInt_toInt_rnd (q : ℚ) : ofInt (toInt (rnd q)) = (toInt (rnd q) : ℚ) := by
  unfold ofInt
  rcases le_or_lt 0 (ulpExp q) with hE | hE
  · -- the rounded value is an integer
    obtain ⟨k, hk⟩ : ∃ k : ℕ, ulpExp q = k := ⟨(ulpExp q).toNat, by omega⟩
    have hint : rnd q = ((rne (q / 2 ^ ulpExp q) * 2 ^ k : Int) : ℚ) := by
      unfold rnd
      rw [hk]
      push_cast
      rw [zpow_natCast]
    have ht : (toInt (rnd q) : ℚ) = rnd q := by
      rw [hint, toInt_intCast]
    rw [ht, rnd_idem]
  · apply rnd_intCast
    have hm := abs_rne_div_ulp_le q
    have hs := (toInt_spec (rnd q)).2
    have hu : (2:ℚ) ^ ulpExp q ≤ 2 ^ (-1 : Int) := zpow_le_zpow_right₀ (by norm_num) (by omega)
    have hu0 : (0:ℚ) < 2 ^ ulpExp q := by positivity
    have hr : |rnd q| ≤ 2 ^ 24 * 2 ^ (-1 : Int) := by
      unfold rnd
      rw [abs_mul, abs_of_pos hu0]
      have : |(rne (q / 2 ^ ulpExp q) : ℚ)| ≤ 2 ^ 24 := by exact_mod_cast hm
      exact mul_le_mul this hu (le_of_lt hu0) (by norm_num)
    have h3 : |(toInt (rnd q) : ℚ)| ≤ 2 ^ 24 := by
      have : (2:ℚ) ^ 24 * 2 ^ (-1 : Int) ≤ 2 ^ 24 := by norm_num
      linarith
    exact_mod_cast h3

/-- Rounding error: half a unit in the last place, which is at most the
relative error `2 ^ -24` in the normal range and `2 ^ -150` below it. -/
theorem abs_rnd_sub_le (z : ℚ) : |rnd z - z| ≤ |z| / 2 ^ 24 + 1 / 2 ^ 150 := by
  by_cases hzero : z = 0
  · rw [hzero, rnd_zero]
    norm_num
  have hu0 : (0:ℚ) < 2 ^ ulpExp z := by positivity
  have h1 := abs_rne_sub_le (z / 2 ^ ulpExp z)
  have h2 : |rnd z - z| ≤ 2 ^ ulpExp z / 2 := by
    have e : rnd z - z = ((rne (z / 2 ^ ulpExp z) : ℚ) - z / 2 ^ ulpExp z) * 2 ^ ulpExp z := by
      unfold rnd
      field_simp
    rw [e, abs_mul, abs_of_pos hu0]
    calc |(rne (z / 2 ^ ulpExp z) : ℚ) - z / 2 ^ ulpExp z| * 2 ^ ulpExp z
        ≤ 1 / 2 * 2 ^ ulpExp z := mul_le_mul_of_nonneg_right h1 (le_of_lt hu0)
      _ = 2 ^ ulpExp z / 2 := by ring
  rcases le_or_lt (Int.log 2 |z|) (-126) with hL | hL
  · have hE : ulpExp z = -149 := by unfold ulpExp; omega
    rw [hE] at h2
    have : (2:ℚ) ^ (-149 : Int) / 2 = 1 / 2 ^ 150 := by norm_num
    have hz : 0 ≤ |z| / 2 ^ 24 := by positivity
    linarith
  · have hE : ulpExp z = Int.log 2 |z| - 23 := by unfold ulpExp; omega
    have hz0 : 0 < |z| := abs_pos.mpr hzero
    have h3 : ((2:ℕ):ℚ) ^ (Int.log 2 |z|) ≤ |z| := Int.zpow_log_le_self (by norm_num) hz0
    have h3' : (2:ℚ) ^ (Int.log 2 |z|) ≤ |z| := by exact_mod_cast h3
    have h4 : (2:ℚ) ^ ulpExp z / 2 = 2 ^ (Int.log 2 |z|) / 2 ^ 24 := by
      rw [hE, zpow_sub₀ (by norm_num)]
      norm_num
      ring
    rw [h4] at h2
    have h5 : (2:ℚ) ^ (Int.log 2 |z|) / 2 ^ 24 ≤ |z| / 2 ^ 24 :=
      div_le_div_of_nonneg_right h3' (by positivity)
    have : (0:ℚ) ≤ 1 / 2 ^ 150 := by positivity
    linarith

/-- Rounding an approximation of `z0` with error `e`: the error grows by the
rounding error of a value of magnitude at most `M + e`. -/
theorem rnd_approx (z z0 e M : ℚ) (h1 : |z - z0| ≤ e) (h2 : |z0| ≤ M) :
    |rnd z - z0| ≤ e + (M + e) / 2 ^ 24 + 1 / 2 ^ 150 := by
  have h3 := abs_rnd_sub_le z
  have h4 : |z| ≤ M + e := by
    have := abs_sub_abs_le_abs_sub z z0
    linarith
  have h5 : |z| / 2 ^ 24 ≤ (M + e) / 2 ^ 24 := div_le_div_of_nonneg_right h4 (by positivity)
  have h6 : |rnd z - z0| ≤ |rnd z - z| + |z - z0| := by
    have := abs_add (rnd z - z) (z - z0)
    simpa using this
  linarith

/-- Error of a product of two approximations. -/
theorem mul_approx (x x0 ex X y y0 ey Y : ℚ) (hx : |x - x0| ≤ ex) (hX : |x0| ≤ X)
    (hy : |y - y0| ≤ ey) (hY : |y0| ≤ Y) :
    |x * y - x0 * y0| ≤ ex * (Y + ey) + X * ey ∧ |x0 * y0| ≤ X * Y := by
  have hex : 0 ≤ ex := le_trans (abs_nonneg _) hx
  have hey : 0 ≤ ey := le_trans (abs_nonneg _) hy
  have hX0 : 0 ≤ X := le_trans (abs_nonneg _) hX
  have hyb : |y| ≤ Y + ey := by
    have := abs_sub_abs_le_abs_sub y y0
    linarith
  constructor
  · have e : x * y - x0 * y0 = (x - x0) * y + x0 * (y - y0) := by ring
    rw [e]
    calc |(x - x0) * y + x0 * (y - y0)| ≤ |(x - x0) * y| + |x0 * (y - y0)| := abs_add _ _
      _ = |x - x0| * |y| + |x0| * |y - y0| := by rw [abs_mul, abs_mul]
      _ ≤ ex * (Y + ey) + X * ey :=
        add_le_add (mul_le_mul hx hyb (abs_nonneg _) hex) (mul_le_mul hX hy (abs_nonneg _) hX0)
  · rw [abs_mul]
    exact mul_le_mul hX hY (abs_nonneg _) hX0

/-- Error of a `float` product of two approximations. -/
theorem mul_float_approx (x x0 ex X y y0 ey Y : ℚ) (hx : |x - x0| ≤ ex) (hX : |x0| ≤ X)
    (hy : |y - y0| ≤ ey) (hY : |y0| ≤ Y) :
    |mul x y - x0 * y0| ≤
      (ex * (Y + ey) + X * ey) + (X * Y + (ex * (Y + ey) + X * ey)) / 2 ^ 24 + 1 / 2 ^ 150 ∧
    |x0 * y0| ≤ X * Y := by
  have h := mul_approx x x0 ex X y y0 ey Y hx hX hy hY
  exact ⟨rnd_approx _ _ _ _ h.1 h.2, h.2⟩

/-- Error of a `float` sum of two approximations. -/
theorem add_float_approx (x x0 ex X y y0 ey Y : ℚ) (hx : |x - x0| ≤ ex) (hX : |x0| ≤ X)
    (hy : |y - y0| ≤ ey) (hY : |y0| ≤ Y) :
    |add x y - (x0 + y0)| ≤ (ex + ey) + (X + Y + (ex + ey)) / 2 ^ 24 + 1 / 2 ^ 150 ∧
    |x0 + y0| ≤ X + Y := by
  have h1 : |x + y - (x0 + y0)| ≤ ex + ey := by
    have e : x + y - (x0 + y0) = (x - x0) + (y - y0) := by ring
    rw [e]
    exact le_trans (abs_add _ _) (add_le_add hx hy)
  have h2 : |x0 + y0| ≤ X + Y := le_trans (abs_add _ _) (add_le_add hX hY)
  exact ⟨rnd_approx _ _ _ _ h1 h2, h2⟩

/-- The fractional offset `s - (int)s` of a `float` coordinate, computed in
`float`, is at most 2 in magnitude. -/
theorem abs_frac_le (q : ℚ) : |sub (rnd q) (ofInt (toInt (rnd q)))| ≤ 2 := by
  unfold sub
  rw [ofInt_toInt_rnd]
  have h1 := (toInt_spec (rnd q)).1
  have h2 := rnd_approx (rnd q - toInt (rnd q)) (rnd q - toInt (rnd q)) 0 1 (by simp)
    (le_of_lt h1)
  have h3 := abs_sub_abs_le_abs_sub (rnd (rnd q - toInt (rnd q))) (rnd q - toInt (rnd q))
  have h4 : (0:ℚ) + (1 + 0) / 2 ^ 24 + 1 / 2 ^ 150 ≤ 1 := by norm_num
  linarith

theorem rnd_cert_lt (q : ℚ) (m e : Int) (he : -149 ≤ e) (h1 : (2:ℚ) ^ (e + 23) ≤ |q|)
    (h2 : |q| < (2:ℚ) ^ (e + 24)) (h : |q / 2 ^ e - m| < 1 / 2) : rnd q = m * 2 ^ e :=
  rnd_cert q m e he h1 h2 (rne_eq_of_abs_sub_lt _ _ h)

theorem rnd_cert_tie (q : ℚ) (m e : Int) (he : -149 ≤ e) (h1 : (2:ℚ) ^ (e + 23) ≤ |q|)
    (h2 : |q| < (2:ℚ) ^ (e + 24)) (h : |q / 2 ^ e - m| = 1 / 2) (hm : m % 2 = 0) :
    rnd q = m * 2 ^ e :=
  rnd_cert q m e he h1 h2 (rne_tie_even _ _ h hm)

/-- The `float` nearest to one third. -/
theorem rnd_third : rnd (1 / 3) = 11184811 / 33554432 := by
  rw [rnd_cert_lt (1 / 3) 11184811 (-25) (by norm_num) (by norm_num [abs_of_pos])
    (by norm_num [abs_of_pos]) (by norm_num [abs_lt])]
  norm_num

theorem rnd_third_idem : rnd (11184811 / 33554432) = 11184811 / 33554432 := by
  rw [← rnd_third, rnd_idem]

/-- `1.0f - x` for `x` the `float` nearest to one third is a tie, rounded to
the even mantissa. -/
theorem rnd_one_sub_third : rnd (1 - 11184811 / 33554432) = 5592405 / 8388608 := by
  rw [rnd_cert_tie (1 - 11184811 / 33554432) 11184810 (-24) (by norm_num)
    (by norm_num [abs_of_pos]) (by norm_num [abs_of_pos]) (by norm_num [abs_of_pos])
    (by norm_num)]
  norm_num

theorem rnd_fifteen_w : rnd (15 * (5592405 / 8388608)) = 10485759 / 1048576 := by
  rw [rnd_cert_lt (15 * (5592405 / 8388608)) 10485759 (-20) (by norm_num)
    (by norm_num [abs_of_pos]) (by norm_num [abs_of_pos]) (by norm_num [abs_lt])]
  norm_num

theorem rnd_fifteen_r : rnd (15 * (11184811 / 33554432)) = 5 := by
  rw [rnd_cert_lt (15 * (11184811 / 33554432)) 10485760 (-21) (by norm_num)
    (by norm_num [abs_of_pos]) (by norm_num [abs_of_pos]) (by norm_num [abs_lt])]
  norm_num

theorem rnd_t1 : rnd (10485759 / 1048576) = 10485759 / 1048576 := by
  rw [← rnd_fifteen_w, rnd_idem]

theorem rnd_sum : rnd (10485759 / 1048576 + 5) = 15728639 / 1048576 := by
  apply (rnd_eq_self (10485759 / 1048576 + 5) 15728639 (-20) (by norm_num)
    (by norm_num [abs_of_pos]) (by norm_num)).trans
  norm_num

theorem rnd_sum_idem : rnd (15728639 / 1048576) = 15728639 / 1048576 := by
  have h := rnd_idem (10485759 / 1048576 + 5)
  rw [rnd_sum] at h
  exact h

/-! ### Sign and size of rounded products -/

/-- Rounding to the nearest integer is monotone. -/
theorem rne_mono (x y : ℚ) (h : x ≤ y) : rne x ≤ rne y := by
  have h1 := abs_le.mp (abs_rne_sub_le x)
  have h2 := abs_le.mp (abs_rne_sub_le y)
  by_contra hc
  have h3 : rne y + 1 ≤ rne x := by omega
  have h4 : ((rne y : ℚ) + 1) ≤ rne x := by exact_mod_cast h3
  have hxy : x = y := le_antisymm h (by linarith [h1.2, h2.1])
  rw [hxy] at hc
  exact hc (le_refl _)

theorem rne_nonneg (x : ℚ) (h : 0 ≤ x) : 0 ≤ rne x := by
  have h1 := rne_mono 0 x h
  have h2 : rne 0 = 0 := by simpa using rne_intCast 0
  rw [h2] at h1
  exact h1

/-- The rounding of a non-negative value is not negative. -/
theorem rnd_nonneg (x : ℚ) (h : 0 ≤ x) : 0 ≤ rnd x := by
  unfold rnd
  have hu : (0:ℚ) < 2 ^ ulpExp x := by positivity
  have h1 : 0 ≤ rne (x / 2 ^ ulpExp x) := rne_nonneg _ (div_nonneg h hu.le)
  have h2 : (0:ℚ) ≤ rne (x / 2 ^ ulpExp x) := by exact_mod_cast h1
  positivity

/-- Truncation of a non-negative float stays between zero and the float. -/
theorem toInt_nonneg (x : ℚ) (h : 0 ≤ x) : 0 ≤ toInt x ∧ (toInt x : ℚ) ≤ x := by
  unfold toInt
  rw [if_pos h]
  exact ⟨Int.floor_nonneg.mpr h, Int.floor_le x⟩

/-- Scaling a source extent by no more than the float ratio of a destination
extent below 2^23 to it, and truncating, gives at most the destination extent:
the two roundings together add less than one. -/
theorem toInt_mul_ratio_le (src dst : Int) (s : ℚ) (h0 : 0 < src) (h1 : src ≤ 2147483647)
    (h2 : 0 < dst) (h3 : dst ≤ 8388607) (hs0 : 0 ≤ s)
    (hs : s ≤ div (ofInt dst) (ofInt src)) :
    0 ≤ toInt (mul (ofInt src) s) ∧ toInt (mul (ofInt src) s) ≤ dst := by
  have ha := ofInt_pos src h0
  have hb : ofInt dst = dst := ofInt_eq dst h2.le (by omega)
  have hsrc0 : (0:ℚ) < src := by exact_mod_cast h0
  have hsrc1 : (src:ℚ) ≤ 2147483647 := by exact_mod_cast h1
  have hdst0 : (0:ℚ) < dst := by exact_mod_cast h2
  have hdst1 : (dst:ℚ) ≤ 8388607 := by exact_mod_cast h3
  have hale : ofInt src ≤ 4294967296 := by
    have h := (abs_le.mp (abs_rnd_sub_le (src:ℚ))).2
    rw [abs_of_pos hsrc0] at h
    unfold ofInt
    have e : (src:ℚ) / 2 ^ 24 ≤ 2147483647 / 2 ^ 24 := by
      apply div_le_div_of_nonneg_right hsrc1; positivity
    have e2 : (1:ℚ) / 2 ^ 150 ≤ 1 := by norm_num
    norm_num at e
    linarith
  rw [hb] at hs
  have hq := (abs_le.mp (abs_rnd_sub_le ((dst:ℚ) / ofInt src))).2
  rw [abs_of_pos (div_pos hdst0 ha)] at hq
  have hq2 : div (dst:ℚ) (ofInt src)
      ≤ (dst:ℚ) / ofInt src + (dst:ℚ) / ofInt src / 2 ^ 24 + 1 / 2 ^ 150 := by
    unfold div; linarith
  have hmul : ofInt src * s
      ≤ ofInt src * ((dst:ℚ) / ofInt src + (dst:ℚ) / ofInt src / 2 ^ 24 + 1 / 2 ^ 150) :=
    mul_le_mul_of_nonneg_left (le_trans hs hq2) ha.le
  have e : ofInt src * ((dst:ℚ) / ofInt src + (dst:ℚ) / ofInt src / 2 ^ 24 + 1 / 2 ^ 150)
      = dst + dst / 2 ^ 24 + ofInt src / 2 ^ 150 := by
    field_simp
    ring
  rw [e] at hmul
  have hz0 : 0 ≤ ofInt src * s := mul_nonneg ha.le hs0
  have hr := (abs_le.mp (abs_rnd_sub_le (ofInt src * s))).2
  rw [abs_of_nonneg hz0] at hr
  have e3 : ofInt src / 2 ^ 150 ≤ 4294967296 / 2 ^ 150 := by
    apply div_le_div_of_nonneg_right hale; positivity
  have e4 : (dst:ℚ) / 2 ^ 24 ≤ 8388607 / 2 ^ 24 := by
    apply div_le_div_of_nonneg_right hdst1; positivity
  have e5 : ofInt src * s / 2 ^ 24
      ≤ ((dst:ℚ) + dst / 2 ^ 24 + ofInt src / 2 ^ 150) / 2 ^ 24 := by
    apply div_le_div_of_nonneg_right hmul; positivity
  have e6 : ((dst:ℚ) + dst / 2 ^ 24 + ofInt src / 2 ^ 150) / 2 ^ 24
      ≤ (8388607 + 8388607 / 2 ^ 24 + 4294967296 / 2 ^ 150) / 2 ^ 24 := by
    apply div_le_div_of_nonneg_right _ (by positivity)
    linarith
  have hlt : rnd (ofInt src * s) < dst + 1 := by
    norm_num at e3 e4 e6 hr
    linarith
  have hnn := rnd_nonneg _ hz0
  obtain ⟨t0, t1⟩ := toInt_nonneg _ hnn
  unfold mul
  refine ⟨t0, ?_⟩
  have : (toInt (rnd (ofInt src * s)) : ℚ) < dst + 1 := lt_of_le_of_lt t1 hlt
  have h5 : toInt (rnd (ofInt src * s)) < dst + 1 := by exact_mod_cast this
  omega

end F32

/-!
## Properties of the conversion routines
-/

namespace ImageUtils

open image_format_t

theorem foldl_range_frame (n : Nat) (lo : Int) (body : Int → Mem → Mem) (k : Int)
    (h : ∀ j : Nat, j < n → ∀ m : Mem, body (lo + j) m k = m k) (m : Mem) :
    (List.range n).foldl (fun (acc : Mem) (j : Nat) => body (lo + (j : Int)) acc) m k = m k := by
  induction n with
  | zero => simp
  | succ n ih =>
    rw [List.range_succ, List.foldl_append]
    simp only [List.foldl_cons, List.foldl_nil]
    rw [h n (Nat.lt_succ_self n)]
    exact ih (fun j hj => h j (Nat.lt_succ_of_lt hj))

theorem foldl_range_val (n : Nat) (lo : Int) (body : Int → Mem → Mem) (k : Int) (a : Byte)
    (hstep : ∀ j : Nat, j < n → ∀ m : Mem, body (lo + j) m k = a ∨ body (lo + j) m k = m k)
    (hset : ∃ j : Nat, j < n ∧ ∀ m : Mem, body (lo + j) m k = a) (m : Mem) :
    (List.range n).foldl (fun (acc : Mem) (j : Nat) => body (lo + (j : Int)) acc) m k = a := by
  induction n with
  | zero => obtain ⟨j, hj, _⟩ := hset; omega
  | succ n ih =>
    rw [List.range_succ, List.foldl_append]
    simp only [List.foldl_cons, List.foldl_nil]
    obtain ⟨j, hj, hs⟩ := hset
    rcases Nat.lt_succ_iff_lt_or_eq.mp hj with h | h
    · have ih1 := ih (fun i hi => hstep i (Nat.lt_succ_of_lt hi)) ⟨j, h, hs⟩
      rcases hstep n (Nat.lt_succ_self n)
        ((List.range n).foldl (fun (acc : Mem) (j : Nat) => body (lo + (j : Int)) acc) m) with h1 | h1
      · exact h1
      · rw [h1]; exact ih1
    · subst h; exact hs _

/-- A loop leaves byte `k` alone when every iteration does. -/
theorem forLoop_frame (lo hi : Int) (body : Int → Mem → Mem) (k : Int)
    (h : ∀ i, lo ≤ i → i < hi → ∀ m : Mem, body i m k = m k) (m : Mem) :
    forLoop lo hi body m k = m k :=
  foldl_range_frame (hi - lo).toNat lo body k (fun j hj => h (lo + j) (by omega) (by omega)) m

/-- A loop leaves the value `a` in byte `k` when one iteration stores it and
every other iteration stores `a` or nothing there. -/
theorem forLoop_val (lo hi : Int) (body : Int → Mem → Mem) (k : Int) (a : Byte)
    (hstep : ∀ i, lo ≤ i → i < hi → ∀ m : Mem, body i m k = a ∨ body i m k = m k)
    (hset : ∃ i, lo ≤ i ∧ i < hi ∧ ∀ m : Mem, body i m k = a) (m : Mem) :
    forLoop lo hi body m k = a := by
  obtain ⟨i, h1, h2, hs⟩ := hset
  apply foldl_range_val (hi - lo).toNat lo body k a
    (fun j hj => hstep (lo + j) (by omega) (by omega))
  refine ⟨(i - lo).toNat, by omega, ?_⟩
  have : lo + ((i - lo).toNat : Int) = i := by omega
  rw [this]; exact hs

theorem decode_div (q r b : Int) (h0 : 0 ≤ r) (h1 : r < b) : (q * b + r) / b = q := by
  have hb : b ≠ 0 := by omega
  rw [add_comm, Int.add_mul_ediv_right _ _ hb, Int.ediv_eq_zero_of_lt h0 h1, zero_add]

theorem decode_mod (q r b : Int) (h0 : 0 ≤ r) (h1 : r < b) : (q * b + r) % b = r := by
  rw [add_comm, Int.add_mul_emod_self, Int.emod_eq_of_lt h0 h1]

/-- Two byte indices of the same row-major layout agree only for the same
pixel column offset and channel. -/
theorem index_inj (p p' c c' ch : Int) (hc : 0 ≤ c ∧ c < ch) (hc' : 0 ≤ c' ∧ c' < ch)
    (h : p * ch + c = p' * ch + c') : p = p' ∧ c = c' := by
  have h1 := decode_div p c ch hc.1 hc.2
  have h2 := decode_div p' c' ch hc'.1 hc'.2
  have h3 := decode_mod p c ch hc.1 hc.2
  have h4 := decode_mod p' c' ch hc'.1 hc'.2
  rw [h] at h1 h3
  exact ⟨by rw [← h1, h2], by rw [← h3, h4]⟩

/-- An `int` expression whose exact value is in the range of `int` has that
value. -/
theorem int32_eq_self (v : Int) (h0 : -2147483648 ≤ v) (h1 : v ≤ 2147483647) : int32 v = v := by
  unfold int32; omega

/-- Every `int` value lies in the range of `int`. -/
theorem int32_range (v : Int) : -2147483648 ≤ int32 v ∧ int32 v ≤ 2147483647 := by
  unfold int32; omega

/-- Wrapping a non-negative value never increases it. -/
theorem int32_le_self (v : Int) (h : 0 ≤ v) : int32 v ≤ v := by
  unfold int32; omega

/-- A value from 2147483648 to 4294967295 wraps to a negative `int`. -/
theorem int32_neg_of_mid (v : Int) (h0 : 2147483647 < v) (h1 : v < 4294967296) :
    int32 v < 0 := by
  have e : int32 v = v - 4294967296 := by unfold int32; omega
  omega

/-- The byte index of a pixel inside a `W` by `H` plane of `ch` channels is
inside the plane. -/
theorem index_in_plane (W H ch x y c : Int) (hx : 0 ≤ x ∧ x < W) (hy : 0 ≤ y ∧ y < H)
    (hc : 0 ≤ c ∧ c < ch) :
    0 ≤ (y * W + x) * ch + c ∧ (y * W + x) * ch + c < W * H * ch := by
  have hW : 0 < W := by omega
  have hch : 0 < ch := by omega
  have h1 : 0 ≤ y * W := mul_nonneg hy.1 hW.le
  have h2 : y * W + x + 1 ≤ W * H := by
    have : (y + 1) * W ≤ H * W := mul_le_mul_of_nonneg_right (by omega) hW.le
    nlinarith
  have h3 : 0 ≤ (y * W + x) * ch := mul_nonneg (by omega) hch.le
  have h4 : (y * W + x + 1) * ch ≤ W * H * ch := mul_le_mul_of_nonneg_right h2 hch.le
  constructor
  · omega
  · nlinarith

/-- The destination subscript of a pixel of a plane whose byte size is in the
range of `int` is computed without overflow. -/
theorem int32_index_in_plane (W H ch x y c : Int) (hsz : W * H * ch ≤ 2147483647)
    (hx : 0 ≤ x ∧ x < W) (hy : 0 ≤ y ∧ y < H) (hc : 0 ≤ c ∧ c < ch) :
    int32 ((y * W + x) * ch + c) = (y * W + x) * ch + c := by
  have h := index_in_plane W H ch x y c hx hy hc
  exact int32_eq_self _ (by omega) (by omega)

/-- The source subscript `index + c` of a pixel of a plane whose byte size is
in the range of `int` is computed without overflow. -/
theorem int32_read_index (W H ch x y c : Int) (hsz : W * H * ch ≤ 2147483647)
    (hx : 0 ≤ x ∧ x < W) (hy : 0 ≤ y ∧ y < H) (hc : 0 ≤ c ∧ c < ch) :
    int32 (int32 (y * W * ch + x * ch) + c) = (y * W + x) * ch + c := by
  have h := index_in_plane W H ch x y c hx hy hc
  have h0 := index_in_plane W H ch x y 0 hx hy ⟨le_refl 0, by omega⟩
  have e : y * W * ch + x * ch = (y * W + x) * ch := by ring
  rw [e, int32_eq_self ((y * W + x) * ch) (by omega) (by omega),
    int32_eq_self _ (by omega) (by omega)]

/-- A loop either leaves in byte `k` a value that does not depend on the
memory it starts from, or none of its iterations touches byte `k`, when every
iteration is of one of these two kinds. -/
theorem foldl_range_indep_or_frame (n : Nat) (lo : Int) (body : Int → Mem → Mem) (k : Int)
    (h : ∀ j : Nat, j < n → (∀ m m' : Mem, body (lo + j) m k = body (lo + j) m' k) ∨
      (∀ m : Mem, body (lo + j) m k = m k)) :
    (∀ m m' : Mem,
      (List.range n).foldl (fun (acc : Mem) (j : Nat) => body (lo + (j : Int)) acc) m k =
      (List.range n).foldl (fun (acc : Mem) (j : Nat) => body (lo + (j : Int)) acc) m' k) ∨
    (∀ j : Nat, j < n → ∀ m : Mem, body (lo + j) m k = m k) := by
  induction n with
  | zero => right; intro j hj; omega
  | succ n ih =>
    rcases h n (Nat.lt_succ_self n) with hn | hn
    · left
      intro m m'
      rw [List.range_succ, List.foldl_append, List.foldl_append]
      simp only [List.foldl_cons, List.foldl_nil]
      exact hn _ _
    · rcases ih (fun j hj => h j (Nat.lt_succ_of_lt hj)) with hi | hi
      · left
        intro m m'
        rw [List.range_succ, List.foldl_append, List.foldl_append]
        simp only [List.foldl_cons, List.foldl_nil]
        rw [hn, hn]
        exact hi m m'
      · right
        intro j hj
        rcases Nat.lt_succ_iff_lt_or_eq.mp hj with h1 | h1
        · exact hi j h1
        · subst h1; exact hn

/-- The loop form of `foldl_range_indep_or_frame`. -/
theorem forLoop_indep_or_frame (lo hi : Int) (body : Int → Mem → Mem) (k : Int)
    (h : ∀ i, lo ≤ i → i < hi → (∀ m m' : Mem, body i m k = body i m' k) ∨
      (∀ m : Mem, body i m k = m k)) :
    (∀ m m' : Mem, forLoop lo hi body m k = forLoop lo hi body m' k) ∨
    (∀ i, lo ≤ i → i < hi → ∀ m : Mem, body i m k = m k) := by
  rcases foldl_range_indep_or_frame (hi - lo).toNat lo body k
    (fun j hj => h (lo + j) (by omega) (by omega)) with h1 | h1
  · exact Or.inl h1
  · right
    intro i hi1 hi2 m
    have := h1 (i - lo).toNat (by omega) m
    have e : lo + ((i - lo).toNat : Int) = i := by omega
    rw [e] at this
    exact this

/-- A loop whose iterations each overwrite byte `k` or leave it alone is of
the same kind. -/
theorem forLoop_overwrites_or_frame (lo hi : Int) (body : Int → Mem → Mem) (k : Int)
    (h : ∀ i, lo ≤ i → i < hi → (∀ m m' : Mem, body i m k = body i m' k) ∨
      (∀ m : Mem, body i m k = m k)) :
    (∀ m m' : Mem, forLoop lo hi body m k = forLoop lo hi body m' k) ∨
    (∀ m : Mem, forLoop lo hi body m k = m k) := by
  rcases forLoop_indep_or_frame lo hi body k h with h1 | h1
  · exact Or.inl h1
  · exact Or.inr (fun m => forLoop_frame lo hi body k h1 m)

/-- A loop with an iteration that overwrites byte `k` overwrites byte `k`. -/
theorem forLoop_overwrites (lo hi : Int) (body : Int → Mem → Mem) (k : Int)
    (h : ∀ i, lo ≤ i → i < hi → (∀ m m' : Mem, body i m k = body i m' k) ∨
      (∀ m : Mem, body i m k = m k))
    (hset : ∃ i, lo ≤ i ∧ i < hi ∧ ∀ m m' : Mem, body i m k = body i m' k)
    (m m' : Mem) : forLoop lo hi body m k = forLoop lo hi body m' k := by
  rcases forLoop_indep_or_frame lo hi body k h with h1 | h1
  · exact h1 m m'
  · obtain ⟨i, hi1, hi2, hs⟩ := hset
    rw [forLoop_frame lo hi body k h1 m, forLoop_frame lo hi body k h1 m',
      ← h1 i hi1 hi2 m, ← h1 i hi1 hi2 m']
    exact hs m m'

/-- Bytes that are not the target of a store of the loops keep their value. -/
theorem crop_and_scale_loops_frame (channel : Int) (src : Mem) (src_width src_height : Int)
    (crop_x crop_y crop_width crop_height : Int) (dst : Mem) (dst_width : Int)
    (dst_box_x dst_box_y dst_box_width dst_box_height : Int) (k : Int)
    (hk : ∀ x y c : Int, dst_box_x ≤ x → x < dst_box_x + dst_box_width → dst_box_y ≤ y →
      y < dst_box_y + dst_box_height → 0 ≤ c → c < channel →
      k ≠ int32 ((y * dst_width + x) * channel + c)) :
    crop_and_scale_loops channel src src_width src_height crop_x crop_y crop_width crop_height
      dst dst_width dst_box_x dst_box_y dst_box_width dst_box_height k = dst k := by
  unfold crop_and_scale_loops
  apply forLoop_frame
  intro y hy1 hy2 m1
  apply forLoop_frame
  intro x hx1 hx2 m2
  apply forLoop_frame
  intro c hc1 hc2 m3
  exact Function.update_noteq (hk x y c hx1 hx2 hy1 hy2 hc1 (by omega)) _ _

/-- The loops store through `int` subscripts only: a byte whose offset is
outside the range of `int` keeps its value. -/
theorem crop_and_scale_loops_frame_beyond_int (channel : Int) (src : Mem)
    (src_width src_height : Int) (crop_x crop_y crop_width crop_height : Int) (dst : Mem)
    (dst_width : Int) (dst_box_x dst_box_y dst_box_width dst_box_height : Int) (k : Int)
    (hk : k < -2147483648 ∨ 2147483647 < k) :
    crop_and_scale_loops channel src src_width src_height crop_x crop_y crop_width crop_height
      dst dst_width dst_box_x dst_box_y dst_box_width dst_box_height k = dst k := by
  apply crop_and_scale_loops_frame
  intro x y c _ _ _ _ _ _ h
  have := int32_range ((y * dst_width + x) * channel + c)
  omega

/-- The store of channel `c` of pixel `(x, y)` of the paste rectangle is the
last one to its byte, and the byte keeps the value computed for that channel,
when no other channel of a pixel of the rectangle has the same subscript. -/
theorem crop_and_scale_loops_pixel_of_inj (channel : Int) (src : Mem)
    (src_width src_height : Int)
    (crop_x crop_y crop_width crop_height : Int) (dst : Mem) (dst_width : Int)
    (dst_box_x dst_box_y dst_box_width dst_box_height : Int)
    (x y c : Int) (hx : dst_box_x ≤ x ∧ x < dst_box_x + dst_box_width)
    (hy : dst_box_y ≤ y ∧ y < dst_box_y + dst_box_height) (hc : 0 ≤ c ∧ c < channel)
    (hinj : ∀ x2 y2 c2 : Int, dst_box_x ≤ x2 → x2 < dst_box_x + dst_box_width →
      dst_box_y ≤ y2 → y2 < dst_box_y + dst_box_height → 0 ≤ c2 → c2 < channel →
      int32 ((y2 * dst_width + x2) * channel + c2) = int32 ((y * dst_width + x) * channel + c) →
      x2 = x ∧ y2 = y ∧ c2 = c) :
    crop_and_scale_loops channel src src_width src_height crop_x crop_y crop_width crop_height
      dst dst_width dst_box_x dst_box_y dst_box_width dst_box_height
      (int32 ((y * dst_width + x) * channel + c)) =
    pixel_value channel src src_width src_height crop_x crop_y crop_width crop_height
      dst_box_width dst_box_height (x - dst_box_x) (y - dst_box_y) c := by
  unfold crop_and_scale_loops
  -- the value stored by the channel loop of pixel (x, y)
  have lvl3 : ∀ m : Mem,
      forLoop 0 channel (fun c3 m3 =>
        Function.update m3 (int32 ((y * dst_width + x) * channel + c3))
          (pixel_value channel src src_width src_height crop_x crop_y crop_width crop_height
            dst_box_width dst_box_height (x - dst_box_x) (y - dst_box_y) c3)) m
        (int32 ((y * dst_width + x) * channel + c)) =
      pixel_value channel src src_width src_height crop_x crop_y crop_width crop_height
        dst_box_width dst_box_height (x - dst_box_x) (y - dst_box_y) c := by
    intro m
    apply forLoop_val
    · intro c3 hc3 hc3' m3
      by_cases e : c3 = c
      · left; subst e; simp
      · right
        apply Function.update_noteq
        intro h
        exact e (hinj x y c3 hx.1 hx.2 hy.1 hy.2 hc3 (by omega) h.symm).2.2
    · exact ⟨c, hc.1, by omega, fun m3 => by simp⟩
  have lvl2 : ∀ m : Mem,
      forLoop dst_box_x (dst_box_x + dst_box_width) (fun dst_x m2 =>
        forLoop 0 channel (fun c3 m3 =>
          Function.update m3 (int32 ((y * dst_width + dst_x) * channel + c3))
            (pixel_value channel src src_width src_height crop_x crop_y crop_width crop_height
              dst_box_width dst_box_height (dst_x - dst_box_x) (y - dst_box_y) c3)) m2) m
        (int32 ((y * dst_width + x) * channel + c)) =
      pixel_value channel src src_width src_height crop_x crop_y crop_width crop_height
        dst_box_width dst_box_height (x - dst_box_x) (y - dst_box_y) c := by
    intro m
    apply forLoop_val
    · intro x2 hx2 hx2' m2
      by_cases e : x2 = x
      · left; subst e; exact lvl3 m2
      · right
        apply forLoop_frame
        intro c3 hc3 hc3' m3
        apply Function.update_noteq
        intro h
        exact e (hinj x2 y c3 hx2 hx2' hy.1 hy.2 hc3 (by omega) h.symm).1
    · exact ⟨x, hx.1, hx.2, lvl3⟩
  apply forLoop_val
  · intro y2 hy2 hy2' m1
    by_cases e : y2 = y
    · left; subst e; exact lvl2 m1
    · right
      apply forLoop_frame
      intro x2 hx2 hx2' m2
      apply forLoop_frame
      intro c3 hc3 hc3' m3
      apply Function.update_noteq
      intro h
      exact e (hinj x2 y2 c3 hx2 hx2' hy2 hy2' hc3 (by omega) h.symm).2.1
  · exact ⟨y, hy.1, hy.2, lvl2⟩

/-- Every channel of every pixel of the paste rectangle receives the value
computed for it, provided the rectangle lies inside a destination of
`dst_width` by `dst_height` pixels whose byte size is at most 2147483647 (no
subscript overflows). -/
theorem crop_and_scale_loops_pixel (channel : Int) (src : Mem) (src_width src_height : Int)
    (crop_x crop_y crop_width crop_height : Int) (dst : Mem) (dst_width dst_height : Int)
    (dst_box_x dst_box_y dst_box_width dst_box_height : Int)
    (hx0 : 0 ≤ dst_box_x) (hx1 : dst_box_x + dst_box_width ≤ dst_width)
    (hy0 : 0 ≤ dst_box_y) (hy1 : dst_box_y + dst_box_height ≤ dst_height)
    (hsz : dst_width * dst_height * channel ≤ 2147483647)
    (x y c : Int) (hx : dst_box_x ≤ x ∧ x < dst_box_x + dst_box_width)
    (hy : dst_box_y ≤ y ∧ y < dst_box_y + dst_box_height) (hc : 0 ≤ c ∧ c < channel) :
    crop_and_scale_loops channel src src_width src_height crop_x crop_y crop_width crop_height
      dst dst_width dst_box_x dst_box_y dst_box_width dst_box_height
      ((y * dst_width + x) * channel + c) =
    pixel_value channel src src_width src_height crop_x crop_y crop_width crop_height
      dst_box_width dst_box_height (x - dst_box_x) (y - dst_box_y) c := by
  have e := int32_index_in_plane dst_width dst_height channel x y c hsz
    (by omega) (by omega) hc
  have key := crop_and_scale_loops_pixel_of_inj channel src src_width src_height crop_x crop_y
    crop_width crop_height dst dst_width dst_box_x dst_box_y dst_box_width dst_box_height
    x y c hx hy hc (by
      intro x2 y2 c2 hx2 hx2' hy2 hy2' hc2 hc2' h
      rw [e, int32_index_in_plane dst_width dst_height channel x2 y2 c2 hsz
        (by omega) (by omega) ⟨hc2, hc2'⟩] at h
      have h1 := index_inj _ _ _ _ channel ⟨hc2, hc2'⟩ hc h
      have h2 := index_inj y2 y x2 x dst_width ⟨by omega, by omega⟩ ⟨by omega, by omega⟩ h1.1
      exact ⟨h2.2, h2.1, h1.2⟩)
  rw [e] at key
  exact key

/-- A byte that is the target of a store of the loops is overwritten: its
final value does not depend on the destination before the loops. -/
theorem crop_and_scale_loops_overwrites (channel : Int) (src : Mem)
    (src_width src_height : Int) (crop_x crop_y crop_width crop_height : Int) (d d' : Mem)
    (dst_width : Int) (dst_box_x dst_box_y dst_box_width dst_box_height : Int)
    (x y c : Int) (hx : dst_box_x ≤ x ∧ x < dst_box_x + dst_box_width)
    (hy : dst_box_y ≤ y ∧ y < dst_box_y + dst_box_height) (hc : 0 ≤ c ∧ c < channel) :
    crop_and_scale_loops channel src src_width src_height crop_x crop_y crop_width crop_height
      d dst_width dst_box_x dst_box_y dst_box_width dst_box_height
      (int32 ((y * dst_width + x) * channel + c)) =
    crop_and_scale_loops channel src src_width src_height crop_x crop_y crop_width crop_height
      d' dst_width dst_box_x dst_box_y dst_box_width dst_box_height
      (int32 ((y * dst_width + x) * channel + c)) := by
  unfold crop_and_scale_loops
  -- a single store overwrites the byte or leaves it alone
  have l4 : ∀ (k v : Int) (b : Byte),
      (∀ m m' : Mem, Function.update m v b k = Function.update m' v b k) ∨
      (∀ m : Mem, Function.update m v b k = m k) := by
    intro k v b
    by_cases e : k = v
    · left; intro m m'; subst e; simp
    · right; intro m; exact Function.update_noteq e _ _
  have l3 := fun (k x2 y2 : Int) =>
    forLoop_overwrites_or_frame 0 channel (fun c3 m3 =>
      Function.update m3 (int32 ((y2 * dst_width + x2) * channel + c3))
        (pixel_value channel src src_width src_height crop_x crop_y crop_width crop_height
          dst_box_width dst_box_height (x2 - dst_box_x) (y2 - dst_box_y) c3)) k
      (fun c3 _ _ => l4 k _ _)
  have l2 := fun (k y2 : Int) =>
    forLoop_overwrites_or_frame dst_box_x (dst_box_x + dst_box_width) (fun dst_x m2 =>
      forLoop 0 channel (fun c3 m3 =>
        Function.update m3 (int32 ((y2 * dst_width + dst_x) * channel + c3))
          (pixel_value channel src src_width src_height crop_x crop_y crop_width crop_height
            dst_box_width dst_box_height (dst_x - dst_box_x) (y2 - dst_box_y) c3)) m2) k
      (fun x2 _ _ => l3 k x2 y2)
  apply forLoop_overwrites _ _ _ _ (fun y2 _ _ => l2 _ y2) ⟨y, hy.1, hy.2, ?_⟩
  apply forLoop_overwrites _ _ _ _ (fun x2 _ _ => l3 _ x2 y) ⟨x, hx.1, hx.2, ?_⟩
  apply forLoop_overwrites _ _ _ _ (fun c3 _ _ => l4 _ _ _) ⟨c, hc.1, hc.2, ?_⟩
  intro m m'
  simp

/-- On present buffers `crop_and_scale_image_c` returns 0 and the memory
written by the loops. -/
theorem crop_and_scale_image_c_some (channel : Int) (s d : Mem)
    (src_width src_height crop_x crop_y crop_width crop_height : Int)
    (dst_width dst_height dst_box_x dst_box_y dst_box_width dst_box_height : Int) :
    crop_and_scale_image_c channel (some s) src_width src_height crop_x crop_y crop_width
        crop_height (some d) dst_width dst_height dst_box_x dst_box_y dst_box_width
        dst_box_height
      = (0, some (crop_and_scale_loops channel s src_width src_height crop_x crop_y crop_width
          crop_height d dst_width dst_box_x dst_box_y dst_box_width dst_box_height)) := rfl

/-- With both fractional offsets zero the bilinear expression returns its
first sample unchanged. -/
theorem bilinear_zero (A B C D : Byte) : bilinear A B C D 0 0 = A := by
  unfold bilinear
  simp only [F32.sub, F32.mul, F32.add, sub_zero, F32.rnd_one, mul_one, mul_zero, F32.rnd_zero,
    add_zero, F32.byte_ofInt]
  have h : F32.rnd (A.val : ℚ) = (A.val : ℚ) := by
    have := F32.byte_ofInt A
    unfold F32.ofInt at this
    simpa using this
  simp only [h]
  exact F32.toUChar_byte A

theorem clamp_src_of_mem (g n : Int) (h0 : 0 ≤ g) (h1 : g < n) : clamp_src g n = g := by
  unfold clamp_src
  omega

/-- At scale one (crop and paste both of the size of the image, which is at
most 16777217 wide and high) the first sample of a pixel is the pixel itself
and both fractional offsets are zero. -/
theorem src_taps_identity (W H xo yo : Int)
    (hW : W ≤ 16777217) (hH : H ≤ 16777217) (hx : 0 ≤ xo ∧ xo < W) (hy : 0 ≤ yo ∧ yo < H) :
    src_taps W H 0 0 W H (F32.div (F32.ofInt W) (F32.ofInt W))
      (F32.div (F32.ofInt H) (F32.ofInt H)) xo yo =
      { global_src_x1 := xo, global_src_y1 := yo,
        global_src_x2 := clamp_src (0 + (if xo + 1 < W then xo + 1 else xo)) W,
        global_src_y2 := clamp_src (0 + (if yo + 1 < H then yo + 1 else yo)) H,
        x_diff := 0, y_diff := 0 } := by
  have hWp : 0 < W := by omega
  have hHp : 0 < H := by omega
  simp only [F32.div_ofInt_self W hWp, F32.div_ofInt_self H hHp]
  have ex : F32.mul (F32.ofInt xo) 1 = (xo : ℚ) := by
    unfold F32.mul
    rw [mul_one, F32.ofInt_eq xo hx.1 (by omega)]
    exact F32.rnd_intCast xo (by rw [abs_of_nonneg hx.1]; norm_num; omega)
  have ey : F32.mul (F32.ofInt yo) 1 = (yo : ℚ) := by
    unfold F32.mul
    rw [mul_one, F32.ofInt_eq yo hy.1 (by omega)]
    exact F32.rnd_intCast yo (by rw [abs_of_nonneg hy.1]; norm_num; omega)
  unfold src_taps
  simp only [ex, ey, F32.toInt_intCast, F32.sub_self_intCast xo hx.1 (by omega),
    F32.sub_self_intCast yo hy.1 (by omega), zero_add,
    clamp_src_of_mem xo W hx.1 hx.2, clamp_src_of_mem yo H hy.1 hy.2]

/-- At scale one the value computed for a pixel is the source byte that the
`int` subscript `index_A + c` of that pixel selects. -/
theorem pixel_value_identity_read (channel : Int) (src : Mem) (W H xo yo c : Int)
    (hW : W ≤ 16777217) (hH : H ≤ 16777217) (hx : 0 ≤ xo ∧ xo < W) (hy : 0 ≤ yo ∧ yo < H) :
    pixel_value channel src W H 0 0 W H W H xo yo c =
      src (int32 (int32 (yo * W * channel + xo * channel) + c)) := by
  unfold pixel_value
  simp only [src_taps_identity W H xo yo hW hH hx hy, bilinear_zero, index_A]

/-- At scale one, on an image whose byte size is in the range of `int`, the
value computed for a pixel is the source byte of that pixel. -/
theorem pixel_value_identity (channel : Int) (src : Mem) (W H xo yo c : Int)
    (hW : W ≤ 16777217) (hH : H ≤ 16777217) (hsz : W * H * channel ≤ 2147483647)
    (hx : 0 ≤ xo ∧ xo < W) (hy : 0 ≤ yo ∧ yo < H) (hc : 0 ≤ c ∧ c < channel) :
    pixel_value channel src W H 0 0 W H W H xo yo c = src ((yo * W + xo) * channel + c) := by
  rw [pixel_value_identity_read channel src W H xo yo c hW hH hx hy,
    int32_read_index W H channel xo yo c hsz hx hy hc]

/-- Every byte offset below `W * H * ch` is channel `c` of a pixel `(x, y)`. -/
theorem index_decode (W H ch i : Int) (hW : 0 < W) (hch : 0 < ch) (h0 : 0 ≤ i)
    (h1 : i < W * H * ch) :
    ∃ x y c : Int, (0 ≤ x ∧ x < W) ∧ (0 ≤ y ∧ y < H) ∧ (0 ≤ c ∧ c < ch) ∧
      i = (y * W + x) * ch + c := by
  refine ⟨(i / ch) % W, (i / ch) / W, i % ch, ⟨Int.emod_nonneg _ (by omega),
    Int.emod_lt_of_pos _ hW⟩, ⟨?_, ?_⟩, ⟨Int.emod_nonneg _ (by omega),
    Int.emod_lt_of_pos _ hch⟩, ?_⟩
  · exact Int.ediv_nonneg (Int.ediv_nonneg h0 (le_of_lt hch)) (le_of_lt hW)
  · have hp : i / ch < W * H := by
      apply Int.ediv_lt_of_lt_mul hch
      linarith
    apply Int.ediv_lt_of_lt_mul hW
    linarith [mul_comm W H]
  · have e1 : i / ch / W * W + i / ch % W = i / ch := by
      rw [mul_comm]; exact Int.ediv_add_emod _ _
    rw [e1, mul_comm]
    exact (Int.ediv_add_emod _ _).symm

/-- The loops copy the source to the destination when crop and paste are the
whole image of equal size, at most 16777217 wide and high and of a byte size
in the range of `int`. -/
theorem crop_and_scale_loops_identity (channel : Int) (s d : Mem) (W H : Int)
    (hch : 0 < channel) (hWp : 0 < W) (hW : W ≤ 16777217) (hH : H ≤ 16777217)
    (hsz : W * H * channel ≤ 2147483647) (i : Int)
    (h0 : 0 ≤ i) (h1 : i < W * H * channel) :
    crop_and_scale_loops channel s W H 0 0 W H d W 0 0 W H i = s i := by
  obtain ⟨x, y, c, hx, hy, hc, rfl⟩ := index_decode W H channel i hWp hch h0 h1
  rw [crop_and_scale_loops_pixel channel s W H 0 0 W H d W H 0 0 W H (le_refl 0) (by omega)
    (le_refl 0) (by omega) hsz x y c (by omega) (by omega) hc]
  simp only [sub_zero]
  exact pixel_value_identity channel s W H x y c hW hH hsz hx hy hc

theorem box_of_full (box : Option image_rect_t) (w h : Int)
    (hb : box = none ∨ box = some ⟨0, 0, w - 1, h - 1⟩) : box_of box w h = (0, 0, w, h) := by
  rcases hb with hb | hb <;> subst hb <;> simp [box_of]

theorem Mem.offset_apply (m : Mem) (k i : Int) : Mem.offset m k i = m (i + k) := rfl

theorem tdiv_two_of_nonneg (a : Int) (h : 0 ≤ a) : a.tdiv 2 = a / 2 :=
  Int.tdiv_eq_ediv h (by norm_num)

/-- The plane adapter copies the source to the destination when crop and
paste are the whole image of equal, even size, at most 16777217 wide and high
and with a luma plane size in the range of `int`. -/
theorem crop_and_scale_image_yuv420sp_identity (s d : Mem) (W H : Int)
    (hWp : 0 < W) (hHp : 0 < H) (hWe : W % 2 = 0) (hHe : H % 2 = 0)
    (hW : W ≤ 16777217) (hH : H ≤ 16777217) (hsz : W * H ≤ 2147483647) (i : Int) (h0 : 0 ≤ i)
    (h1 : i < (W * H * 3).tdiv 2) :
    (crop_and_scale_image_yuv420sp s W H 0 0 W H d W H 0 0 W H).2 i = s i := by
  obtain ⟨a, rfl⟩ : ∃ a, W = 2 * a := ⟨W / 2, by omega⟩
  obtain ⟨b, rfl⟩ : ∃ b, H = 2 * b := ⟨H / 2, by omega⟩
  have ha : 0 < a := by omega
  have hb : 0 < b := by omega
  have hab : 0 < a * b := mul_pos ha hb
  have e1 : (2 * a).tdiv 2 = a := by rw [tdiv_two_of_nonneg _ (by omega)]; omega
  have e2 : (2 * b).tdiv 2 = b := by rw [tdiv_two_of_nonneg _ (by omega)]; omega
  have e0 : (0 : Int).tdiv 2 = 0 := by decide
  have esz : (2 * a * (2 * b) * 3).tdiv 2 = 6 * (a * b) := by
    rw [tdiv_two_of_nonneg _ (by nlinarith)]
    have : 2 * a * (2 * b) * 3 = 6 * (a * b) * 2 := by ring
    rw [this]; omega
  have ewh : 2 * a * (2 * b) = 4 * (a * b) := by ring
  have hsz4 : 4 * (a * b) ≤ 2147483647 := by rw [← ewh]; exact hsz
  have eoff : int32 (2 * a * (2 * b)) = 2 * a * (2 * b) :=
    int32_eq_self _ (by rw [ewh]; omega) hsz
  rw [esz] at h1
  simp only [crop_and_scale_image_yuv420sp, crop_and_scale_image_c, Option.getD_some, e0, e1, e2,
    eoff]
  rw [Mem.offset_apply]
  rcases lt_or_le i (4 * (a * b)) with hi | hi
  · rw [crop_and_scale_loops_frame, Mem.offset_apply]
    · have : i + -(2 * a * (2 * b)) + 2 * a * (2 * b) = i := by ring
      rw [this]
      exact crop_and_scale_loops_identity 1 s d (2 * a) (2 * b) (by norm_num) hWp hW hH
        (by rw [mul_one]; exact hsz) i h0 (by rw [ewh]; omega)
    · intro x y c hx hx' hy hy' hc hc'
      rw [int32_index_in_plane a b 2 x y c (by omega) ⟨by omega, by omega⟩ ⟨by omega, by omega⟩
        ⟨hc, hc'⟩]
      have := index_in_plane a b 2 x y c ⟨by omega, by omega⟩ ⟨by omega, by omega⟩ ⟨hc, hc'⟩
      rw [ewh]
      omega
  · rw [crop_and_scale_loops_identity 2 _ _ a b (by norm_num) ha (by omega) (by omega)
      (by omega) (i + -(2 * a * (2 * b))) (by rw [ewh]; omega) (by rw [ewh]; omega),
      Mem.offset_apply]
    congr 1
    ring

theorem get_image_size_gray8 (img : image_buffer_t) (h : img.format = IMAGE_FORMAT_GRAY8) :
    get_image_size (some img) = int32 (img.width * img.height) := by
  simp [get_image_size, h]

theorem get_image_size_rgb888 (img : image_buffer_t) (h : img.format = IMAGE_FORMAT_RGB888) :
    get_image_size (some img) = int32 (img.width * img.height * 3) := by
  simp [get_image_size, h]

theorem get_image_size_rgba8888 (img : image_buffer_t)
    (h : img.format = IMAGE_FORMAT_RGBA8888) :
    get_image_size (some img) = int32 (img.width * img.height * 4) := by
  simp [get_image_size, h]

theorem get_image_size_nv12 (img : image_buffer_t)
    (h : img.format = IMAGE_FORMAT_YUV420SP_NV12) :
    get_image_size (some img) = (int32 (img.width * img.height * 3)).tdiv 2 := by
  simp [get_image_size, h]

theorem get_image_size_nv21 (img : image_buffer_t)
    (h : img.format = IMAGE_FORMAT_YUV420SP_NV21) :
    get_image_size (some img) = (int32 (img.width * img.height * 3)).tdiv 2 := by
  simp [get_image_size, h]

theorem get_image_size_unknown (img : image_buffer_t) (tag : Int)
    (h : img.format = UNKNOWN tag) : get_image_size (some img) = 0 := by
  simp [get_image_size, h]

/-- The result of `convert_image_cpu` once both buffers are present and the
formats agree. -/
theorem convert_image_cpu_run (src dst : image_buffer_t) (s d : Mem)
    (src_box dst_box : Option image_rect_t) (color : Int)
    (hs : src.virt_addr = some s) (hd : dst.virt_addr = some d)
    (hf : src.format = dst.format) :
    convert_image_cpu src dst src_box dst_box color =
      (if (cpu_dispatch src.format s src.width src.height
            (box_of src_box src.width src.height).1 (box_of src_box src.width src.height).2.1
            (box_of src_box src.width src.height).2.2.1 (box_of src_box src.width src.height).2.2.2
            (pad_fill dst d color (box_of dst_box dst.width dst.height).1
              (box_of dst_box dst.width dst.height).2.1 (box_of dst_box dst.width dst.height).2.2.1
              (box_of dst_box dst.width dst.height).2.2.2)
            dst.width dst.height (box_of dst_box dst.width dst.height).1
            (box_of dst_box dst.width dst.height).2.1 (box_of dst_box dst.width dst.height).2.2.1
            (box_of dst_box dst.width dst.height).2.2.2).1 ≠ 0 then -1 else 0,
       { dst with virt_addr :=
          (cpu_dispatch src.format s src.width src.height
            (box_of src_box src.width src.height).1 (box_of src_box src.width src.height).2.1
            (box_of src_box src.width src.height).2.2.1 (box_of src_box src.width src.height).2.2.2
            (pad_fill dst d color (box_of dst_box dst.width dst.height).1
              (box_of dst_box dst.width dst.height).2.1 (box_of dst_box dst.width dst.height).2.2.1
              (box_of dst_box dst.width dst.height).2.2.2)
            dst.width dst.height (box_of dst_box dst.width dst.height).1
            (box_of dst_box dst.width dst.height).2.1 (box_of dst_box dst.width dst.height).2.2.1
            (box_of dst_box dst.width dst.height).2.2.2).2 }) := by
  simp only [convert_image_cpu, hs, hd, hf, ne_eq, not_true_eq_false, if_false]
  split_ifs <;> rfl

/-- On a packed format the dispatch runs the loops with the channel count of
the format and reports success. -/
theorem cpu_dispatch_packed (format : image_format_t) (s : Mem) (src_width src_height : Int)
    (src_box_x src_box_y src_box_w src_box_h : Int) (d1 : Mem) (dst_width dst_height : Int)
    (dst_box_x dst_box_y dst_box_w dst_box_h : Int) (ch : Int)
    (h : (format = IMAGE_FORMAT_GRAY8 ∧ ch = 1) ∨ (format = IMAGE_FORMAT_RGB888 ∧ ch = 3) ∨
      (format = IMAGE_FORMAT_RGBA8888 ∧ ch = 4)) :
    cpu_dispatch format s src_width src_height src_box_x src_box_y src_box_w src_box_h d1
      dst_width dst_height dst_box_x dst_box_y dst_box_w dst_box_h =
    (0, some (crop_and_scale_loops ch s src_width src_height src_box_x src_box_y src_box_w
      src_box_h d1 dst_width dst_box_x dst_box_y dst_box_w dst_box_h)) := by
  rcases h with ⟨h, rfl⟩ | ⟨h, rfl⟩ | ⟨h, rfl⟩ <;> subst h <;> rfl

/-- On a semi-planar format the dispatch runs the plane adapter and reports
success. -/
theorem cpu_dispatch_yuv (format : image_format_t) (s : Mem) (src_width src_height : Int)
    (src_box_x src_box_y src_box_w src_box_h : Int) (d1 : Mem) (dst_width dst_height : Int)
    (dst_box_x dst_box_y dst_box_w dst_box_h : Int)
    (h : format = IMAGE_FORMAT_YUV420SP_NV12 ∨ format = IMAGE_FORMAT_YUV420SP_NV21) :
    cpu_dispatch format s src_width src_height src_box_x src_box_y src_box_w src_box_h d1
      dst_width dst_height dst_box_x dst_box_y dst_box_w dst_box_h =
    (0, some (crop_and_scale_image_yuv420sp s src_width src_height src_box_x src_box_y src_box_w
      src_box_h d1 dst_width dst_height dst_box_x dst_box_y dst_box_w dst_box_h).2) := by
  rcases h with h | h <;> subst h <;> rfl

/-- C1 (amended): identity at scale 1.  For Gray8, RGB888 and RGBA8888 with
positive width and height, and for NV12/NV21 with even positive width and
height, in each case with width and height at most 16777217 and a byte size
`sizeFor(format, width, height)` of at most 2147483647: if source and
destination have the same format, width and height, both buffers are present
and the crop and paste rectangles are each omitted or the full rectangle, then
`convert_image_cpu` returns 0 and every one of the `sizeFor` bytes of the
destination equals the corresponding source byte. -/
theorem convert_image_cpu_identity (src dst : image_buffer_t) (s d : Mem)
    (src_box dst_box : Option image_rect_t) (color sz : Int)
    (hs : src.virt_addr = some s) (hd : dst.virt_addr = some d)
    (hf : dst.format = src.format) (hw : dst.width = src.width) (hh : dst.height = src.height)
    (hWp : 0 < src.width) (hHp : 0 < src.height)
    (hW : src.width ≤ 16777217) (hH : src.height ≤ 16777217)
    (hfmt : src.format = IMAGE_FORMAT_GRAY8 ∨ src.format = IMAGE_FORMAT_RGB888 ∨
      src.format = IMAGE_FORMAT_RGBA8888 ∨
      ((src.format = IMAGE_FORMAT_YUV420SP_NV12 ∨ src.format = IMAGE_FORMAT_YUV420SP_NV21) ∧
        src.width % 2 = 0 ∧ src.height % 2 = 0))
    (hsize : sizeFor src.format src.width src.height = some sz) (hbound : sz ≤ 2147483647)
    (hsb : src_box = none ∨ src_box = some ⟨0, 0, src.width - 1, src.height - 1⟩)
    (hdb : dst_box = none ∨ dst_box = some ⟨0, 0, dst.width - 1, dst.height - 1⟩) :
    (convert_image_cpu src dst src_box dst_box color).1 = 0 ∧
    ∃ d', (convert_image_cpu src dst src_box dst_box color).2.virt_addr = some d' ∧
      ∀ i, 0 ≤ i → i < sz → d' i = s i := by
  have b1 := box_of_full src_box src.width src.height hsb
  have b2 := box_of_full dst_box dst.width dst.height hdb
  have hP : 0 < src.width * src.height := mul_pos hWp hHp
  rw [convert_image_cpu_run src dst s d src_box dst_box color hs hd hf.symm, b1, b2]
  simp only [hw, hh]
  rcases hfmt with h | h | h | ⟨h, hWe, hHe⟩
  · rw [cpu_dispatch_packed _ _ _ _ _ _ _ _ _ _ _ _ _ _ _ 1 (Or.inl ⟨h, rfl⟩)]
    rw [h] at hsize
    have e : sz = src.width * src.height := (Option.some.inj hsize).symm
    subst e
    refine ⟨by simp, _, rfl, fun i h0 h1 => ?_⟩
    exact crop_and_scale_loops_identity 1 s _ _ _ (by norm_num) hWp hW hH
      (by rw [mul_one]; exact hbound) i h0 (by linarith)
  · rw [cpu_dispatch_packed _ _ _ _ _ _ _ _ _ _ _ _ _ _ _ 3 (Or.inr (Or.inl ⟨h, rfl⟩))]
    rw [h] at hsize
    have e : sz = src.width * src.height * 3 := (Option.some.inj hsize).symm
    subst e
    refine ⟨by simp, _, rfl, fun i h0 h1 => ?_⟩
    exact crop_and_scale_loops_identity 3 s _ _ _ (by norm_num) hWp hW hH hbound i h0 h1
  · rw [cpu_dispatch_packed _ _ _ _ _ _ _ _ _ _ _ _ _ _ _ 4 (Or.inr (Or.inr ⟨h, rfl⟩))]
    rw [h] at hsize
    have e : sz = src.width * src.height * 4 := (Option.some.inj hsize).symm
    subst e
    refine ⟨by simp, _, rfl, fun i h0 h1 => ?_⟩
    exact crop_and_scale_loops_identity 4 s _ _ _ (by norm_num) hWp hW hH hbound i h0 h1
  · rw [cpu_dispatch_yuv _ _ _ _ _ _ _ _ _ _ _ _ _ _ _ h]
    have e : sz = (src.width * src.height * 3).tdiv 2 := by
      rcases h with h | h <;> rw [h] at hsize <;> exact (Option.some.inj hsize).symm
    subst e
    rw [tdiv_two_of_nonneg _ (by omega)] at hbound
    refine ⟨by simp, _, rfl, fun i h0 h1 => ?_⟩
    exact crop_and_scale_image_yuv420sp_identity s _ _ _ hWp hHp hWe hHe hW hH (by omega)
      i h0 h1

/-- Witness for `convert_image_cpu_identity`: a 4 x 2 NV12 image (12 bytes)
copied onto a destination of the same shape. -/
theorem convert_image_cpu_identity_witness :
    (convert_image_cpu (image_of 4 2 IMAGE_FORMAT_YUV420SP_NV12 ramp_bytes)
      (image_of 4 2 IMAGE_FORMAT_YUV420SP_NV12 (fun _ => 0)) none
      (some ⟨0, 0, 3, 1⟩) 0).1 = 0 ∧
    ∃ d', (convert_image_cpu (image_of 4 2 IMAGE_FORMAT_YUV420SP_NV12 ramp_bytes)
      (image_of 4 2 IMAGE_FORMAT_YUV420SP_NV12 (fun _ => 0)) none
      (some ⟨0, 0, 3, 1⟩) 0).2.virt_addr = some d' ∧
      ∀ i, 0 ≤ i → i < 12 → d' i = ramp_bytes i :=
  convert_image_cpu_identity (image_of 4 2 IMAGE_FORMAT_YUV420SP_NV12 ramp_bytes)
    (image_of 4 2 IMAGE_FORMAT_YUV420SP_NV12 (fun _ => 0)) ramp_bytes (fun _ => 0) none
    (some ⟨0, 0, 3, 1⟩) 0 12 rfl rfl rfl rfl rfl (by decide) (by decide) (by decide) (by decide)
    (Or.inr (Or.inr (Or.inr ⟨Or.inl rfl, by decide, by decide⟩))) (by decide) (by decide)
    (Or.inl rfl) (Or.inr rfl)

theorem rnd_16777217 : F32.rnd 16777217 = 16777216 := by
  have := F32.rnd_cert 16777217 (2 ^ 23) 1 (by norm_num) (by norm_num) (by norm_num)
    (by apply F32.rne_tie_even <;> norm_num)
  rw [this]; norm_num

/-- The sampling coordinate of offset 16777217 at scale one is 16777216, with
fractional part zero: `(float)16777217` is `16777216.0f`. -/
theorem float_offset_16777217 :
    F32.mul (F32.ofInt 16777217) 1 = ((16777216 : Int) : ℚ) := by
  unfold F32.mul F32.ofInt
  have h1 : F32.rnd ((16777217 : Int) : ℚ) = 16777216 := by
    have := rnd_16777217
    simpa using this
  rw [h1, mul_one]
  have := F32.rnd_intCast 16777216 (by norm_num)
  simpa using this

theorem float_offset_zero : F32.mul (F32.ofInt 0) 1 = ((0 : Int) : ℚ) := by
  unfold F32.mul F32.ofInt
  simp [F32.rnd_zero]

/-- The value computed for the last pixel of a row of 16777218 pixels at scale
one is the byte of the pixel before it. -/
theorem pixel_value_wide (src : Mem) :
    pixel_value 1 src 16777218 1 0 0 16777218 1 16777218 1 16777217 0 0 = src 16777216 := by
  unfold pixel_value
  simp only [F32.div_ofInt_self 16777218 (by norm_num), F32.div_ofInt_self 1 (by norm_num)]
  have t : src_taps 16777218 1 0 0 16777218 1 1 1 16777217 0 =
      { global_src_x1 := 16777216, global_src_y1 := 0,
        global_src_x2 := 16777217, global_src_y2 := 0, x_diff := 0, y_diff := 0 } := by
    unfold src_taps
    simp only [float_offset_16777217, float_offset_zero, F32.toInt_intCast,
      F32.sub_self_intCast 16777216 (by norm_num) (by norm_num),
      F32.sub_self_intCast 0 (by norm_num) (by norm_num)]
    simp [clamp_src]
  rw [t]
  have e : int32 16777216 = 16777216 := by decide
  simp [bilinear_zero, index_A, e]

/-- The value computed for the last pixel of a column of 16777218 pixels at
scale one is the byte of the pixel above it. -/
theorem pixel_value_tall (src : Mem) :
    pixel_value 1 src 1 16777218 0 0 1 16777218 1 16777218 0 16777217 0 = src 16777216 := by
  unfold pixel_value
  simp only [F32.div_ofInt_self 16777218 (by norm_num), F32.div_ofInt_self 1 (by norm_num)]
  have t : src_taps 1 16777218 0 0 1 16777218 1 1 0 16777217 =
      { global_src_x1 := 0, global_src_y1 := 16777216,
        global_src_x2 := 0, global_src_y2 := 16777217, x_diff := 0, y_diff := 0 } := by
    unfold src_taps
    simp only [float_offset_16777217, float_offset_zero, F32.toInt_intCast,
      F32.sub_self_intCast 16777216 (by norm_num) (by norm_num),
      F32.sub_self_intCast 0 (by norm_num) (by norm_num)]
    simp [clamp_src]
  rw [t]
  have e : int32 16777216 = 16777216 := by decide
  simp [bilinear_zero, index_A, e]

/-- The loops on a Gray8 image with the whole image as crop and paste
rectangle, as run by `convert_image_cpu` when the rectangles are omitted. -/
theorem convert_image_cpu_gray8_whole (src dst : image_buffer_t) (s d : Mem)
    (hs : src.virt_addr = some s) (hd : dst.virt_addr = some d)
    (hsf : src.format = IMAGE_FORMAT_GRAY8) (hdf : dst.format = IMAGE_FORMAT_GRAY8) :
    convert_image_cpu src dst none none 0 =
      (0, { dst with virt_addr := some (crop_and_scale_loops 1 s src.width src.height 0 0
        src.width src.height d dst.width 0 0 dst.width dst.height) }) := by
  rw [convert_image_cpu_run src dst s d none none 0 hs hd (by rw [hsf, hdf])]
  have hp : pad_fill dst d 0 0 0 dst.width dst.height = d := by simp [pad_fill]
  simp only [box_of, hp]
  rw [cpu_dispatch_packed _ _ _ _ _ _ _ _ _ _ _ _ _ _ _ 1 (Or.inl ⟨hsf, rfl⟩)]
  simp

/-- C1 (counterexample): on a Gray8 image 16777218 pixels wide and one pixel
high, with equal source and destination shapes and no rectangles,
`convert_image_cpu` returns 0 but the last destination byte differs from the
last source byte; likewise for the image one pixel wide and 16777218 pixels
high (the sampling coordinate is a `float`); and likewise for the image 65536
pixels wide and 32769 pixels high, of 2147549184 bytes (the subscript of the
last byte, 2147549183, is not an `int`, and the byte is never stored). -/
theorem convert_image_cpu_identity_fails_wide :
    ((convert_image_cpu wide_src wide_dst none none 0).1 = 0 ∧
      ∃ d', (convert_image_cpu wide_src wide_dst none none 0).2.virt_addr = some d' ∧
        (0 : Int) ≤ 16777217 ∧ 16777217 < get_image_size (some wide_src) ∧
        d' 16777217 ≠ wide_src_bytes 16777217) ∧
    ((convert_image_cpu tall_src tall_dst none none 0).1 = 0 ∧
      ∃ d', (convert_image_cpu tall_src tall_dst none none 0).2.virt_addr = some d' ∧
        (0 : Int) ≤ 16777217 ∧ 16777217 < get_image_size (some tall_src) ∧
        d' 16777217 ≠ wide_src_bytes 16777217) ∧
    ((convert_image_cpu (image_of 65536 32769 IMAGE_FORMAT_GRAY8 (marked_bytes 2147549183))
        (image_of 65536 32769 IMAGE_FORMAT_GRAY8 (fun _ => 0)) none none 0).1 = 0 ∧
      ∃ d', (convert_image_cpu (image_of 65536 32769 IMAGE_FORMAT_GRAY8 (marked_bytes 2147549183))
          (image_of 65536 32769 IMAGE_FORMAT_GRAY8 (fun _ => 0)) none none 0).2.virt_addr =
          some d' ∧
        sizeFor IMAGE_FORMAT_GRAY8 65536 32769 = some 2147549184 ∧
        d' 2147549183 ≠ marked_bytes 2147549183 2147549183) := by
  refine ⟨?_, ?_, ?_⟩
  · rw [convert_image_cpu_gray8_whole wide_src wide_dst wide_src_bytes (fun _ => 0) rfl rfl rfl rfl]
    refine ⟨rfl, _, rfl, by norm_num, by decide, ?_⟩
    have hp := crop_and_scale_loops_pixel 1 wide_src_bytes 16777218 1 0 0 16777218 1
      (fun _ => 0) 16777218 1 0 0 16777218 1 (by norm_num)
      (by norm_num) (by norm_num) (by norm_num) (by norm_num) 16777217 0 0 (by norm_num)
      (by norm_num) (by norm_num)
    have e : ((0 : Int) * 16777218 + 16777217) * 1 + 0 = 16777217 := by norm_num
    have e2 : (16777217 : Int) - 0 = 16777217 := by norm_num
    have e3 : (0 : Int) - 0 = 0 := by norm_num
    rw [e, e2, e3, pixel_value_wide] at hp
    show crop_and_scale_loops 1 wide_src_bytes 16777218 1 0 0 16777218 1 (fun _ => 0) 16777218
      0 0 16777218 1 16777217 ≠ wide_src_bytes 16777217
    rw [hp]
    decide
  · rw [convert_image_cpu_gray8_whole tall_src tall_dst wide_src_bytes (fun _ => 0) rfl rfl rfl rfl]
    refine ⟨rfl, _, rfl, by norm_num, by decide, ?_⟩
    have hp := crop_and_scale_loops_pixel 1 wide_src_bytes 1 16777218 0 0 1 16777218
      (fun _ => 0) 1 16777218 0 0 1 16777218 (by norm_num)
      (by norm_num) (by norm_num) (by norm_num) (by norm_num) 0 16777217 0 (by norm_num)
      (by norm_num) (by norm_num)
    have e : ((16777217 : Int) * 1 + 0) * 1 + 0 = 16777217 := by norm_num
    have e2 : (16777217 : Int) - 0 = 16777217 := by norm_num
    have e3 : (0 : Int) - 0 = 0 := by norm_num
    rw [e, e2, e3, pixel_value_tall] at hp
    show crop_and_scale_loops 1 wide_src_bytes 1 16777218 0 0 1 16777218 (fun _ => 0) 1
      0 0 1 16777218 16777217 ≠ wide_src_bytes 16777217
    rw [hp]
    decide
  · rw [convert_image_cpu_gray8_whole _ _ (marked_bytes 2147549183) (fun _ => 0) rfl rfl rfl rfl]
    refine ⟨rfl, _, rfl, by decide, ?_⟩
    rw [crop_and_scale_loops_frame_beyond_int _ _ _ _ _ _ _ _ _ _ _ _ _ _ 2147549183
      (Or.inr (by norm_num))]
    decide

/-- C5 (amended): `get_image_size` equals the reference size function
`sizeFor` (with 0 standing for an unsupported format) whenever the product it
forms for the format is in the range of `int` (from -2147483648 to
2147483647): it then returns `w * h` for Gray8, `w * h * 3` for RGB888,
`w * h * 4` for RGBA8888 and `(w * h * 3) / 2` with truncating division for
NV12 and NV21 (so 48 for a 4 x 4 RGB888 image and 24 for a 4 x 4 NV12 image);
it returns 0 for every other format tag and for an absent descriptor,
whatever the width and height. -/
theorem get_image_size_eq_sizeFor :
    (∀ img : image_buffer_t,
      ((img.format = IMAGE_FORMAT_GRAY8 ∧ -2147483648 ≤ img.width * img.height ∧
          img.width * img.height ≤ 2147483647) ∨
        ((img.format = IMAGE_FORMAT_RGB888 ∨ img.format = IMAGE_FORMAT_YUV420SP_NV12 ∨
            img.format = IMAGE_FORMAT_YUV420SP_NV21) ∧
          -2147483648 ≤ img.width * img.height * 3 ∧
          img.width * img.height * 3 ≤ 2147483647) ∨
        (img.format = IMAGE_FORMAT_RGBA8888 ∧ -2147483648 ≤ img.width * img.height * 4 ∧
          img.width * img.height * 4 ≤ 2147483647) ∨
        (∃ tag : Int, img.format = UNKNOWN tag)) →
      get_image_size (some img) = (sizeFor img.format img.width img.height).getD 0) ∧
    (∀ (w h : Int) (p : Option Mem) (sz fd : Int),
      (-2147483648 ≤ w * h → w * h ≤ 2147483647 →
        get_image_size (some ⟨w, h, IMAGE_FORMAT_GRAY8, p, sz, fd⟩) = w * h) ∧
      (-2147483648 ≤ w * h * 3 → w * h * 3 ≤ 2147483647 →
        get_image_size (some ⟨w, h, IMAGE_FORMAT_RGB888, p, sz, fd⟩) = w * h * 3 ∧
        get_image_size (some ⟨w, h, IMAGE_FORMAT_YUV420SP_NV12, p, sz, fd⟩) =
          (w * h * 3).tdiv 2 ∧
        get_image_size (some ⟨w, h, IMAGE_FORMAT_YUV420SP_NV21, p, sz, fd⟩) =
          (w * h * 3).tdiv 2) ∧
      (-2147483648 ≤ w * h * 4 → w * h * 4 ≤ 2147483647 →
        get_image_size (some ⟨w, h, IMAGE_FORMAT_RGBA8888, p, sz, fd⟩) = w * h * 4) ∧
      ∀ tag : Int, get_image_size (some ⟨w, h, UNKNOWN tag, p, sz, fd⟩) = 0) ∧
    get_image_size none = 0 ∧
    (∀ (p : Option Mem) (sz fd : Int),
      get_image_size (some ⟨4, 4, IMAGE_FORMAT_RGB888, p, sz, fd⟩) = 48 ∧
      get_image_size (some ⟨4, 4, IMAGE_FORMAT_YUV420SP_NV12, p, sz, fd⟩) = 24) ∧
    sizeFor IMAGE_FORMAT_RGB888 4 4 = some 48 ∧
    sizeFor IMAGE_FORMAT_YUV420SP_NV12 4 4 = some 24 := by
  refine ⟨?_, ?_, rfl, ?_, by decide, by decide⟩
  · intro img hr
    rcases hr with ⟨h, h0, h1⟩ | ⟨h | h | h, h0, h1⟩ | ⟨h, h0, h1⟩ | ⟨tag, h⟩
    · rw [get_image_size_gray8 img h, int32_eq_self _ h0 h1, h]; rfl
    · rw [get_image_size_rgb888 img h, int32_eq_self _ h0 h1, h]; rfl
    · rw [get_image_size_nv12 img h, int32_eq_self _ h0 h1, h]; rfl
    · rw [get_image_size_nv21 img h, int32_eq_self _ h0 h1, h]; rfl
    · rw [get_image_size_rgba8888 img h, int32_eq_self _ h0 h1, h]; rfl
    · rw [get_image_size_unknown img tag h, h]; rfl
  · intro w h p sz fd
    refine ⟨fun h0 h1 => ?_, fun h0 h1 => ⟨?_, ?_, ?_⟩, fun h0 h1 => ?_, fun _ => rfl⟩
    · rw [get_image_size_gray8 _ rfl]; exact int32_eq_self _ h0 h1
    · rw [get_image_size_rgb888 _ rfl]; exact int32_eq_self _ h0 h1
    · rw [get_image_size_nv12 _ rfl]
      show (int32 (w * h * 3)).tdiv 2 = (w * h * 3).tdiv 2
      rw [int32_eq_self _ h0 h1]
    · rw [get_image_size_nv21 _ rfl]
      show (int32 (w * h * 3)).tdiv 2 = (w * h * 3).tdiv 2
      rw [int32_eq_self _ h0 h1]
    · rw [get_image_size_rgba8888 _ rfl]; exact int32_eq_self _ h0 h1
  · intro p sz fd
    have e1 : int32 (4 * 4 * 3) = 48 := by decide
    have e2 : (int32 (4 * 4 * 3)).tdiv 2 = 24 := by decide
    exact ⟨by rw [get_image_size_rgb888 _ rfl]; exact e1,
      by rw [get_image_size_nv12 _ rfl]; exact e2⟩

/-- Witness for `get_image_size_eq_sizeFor`: a 4 x 4 RGB888 image, whose
product 48 is in the range of `int`. -/
theorem get_image_size_eq_sizeFor_witness :
    get_image_size (some (image_of 4 4 IMAGE_FORMAT_RGB888 ramp_bytes)) =
      (sizeFor IMAGE_FORMAT_RGB888 4 4).getD 0 :=
  get_image_size_eq_sizeFor.1 (image_of 4 4 IMAGE_FORMAT_RGB888 ramp_bytes)
    (Or.inr (Or.inl ⟨Or.inl rfl, by decide, by decide⟩))

/-- C5 (counterexample): for a 30000 x 30000 RGB888 image the product
30000 * 30000 * 3 = 2700000000 is not an `int`; `get_image_size` returns
-1594967296 where `sizeFor` is 2700000000.  For a 40000 x 20000 NV12 image the
size 1200000000 is an `int` but the product 40000 * 20000 * 3 formed before
the division is not; `get_image_size` returns -947483648. -/
theorem get_image_size_ne_sizeFor_large :
    (get_image_size (some (image_of 30000 30000 IMAGE_FORMAT_RGB888 (fun _ => 0))) =
        -1594967296 ∧
      sizeFor IMAGE_FORMAT_RGB888 30000 30000 = some 2700000000) ∧
    (get_image_size (some (image_of 40000 20000 IMAGE_FORMAT_YUV420SP_NV12 (fun _ => 0))) =
        -947483648 ∧
      sizeFor IMAGE_FORMAT_YUV420SP_NV12 40000 20000 = some 1200000000) := by
  refine ⟨⟨?_, by decide⟩, ⟨?_, by decide⟩⟩
  · rw [get_image_size_rgb888 _ rfl]; decide
  · rw [get_image_size_nv12 _ rfl]; decide

theorem clamp_src_bounds (g n : Int) (hn : 1 ≤ n) :
    0 ≤ clamp_src g n ∧ clamp_src g n ≤ n - 1 := by
  unfold clamp_src
  omega

/-- A byte index built from in-range coordinates lies inside the buffer. -/
theorem index_in_bounds (x y c W H ch : Int) (hx : 0 ≤ x ∧ x ≤ W - 1) (hy : 0 ≤ y ∧ y ≤ H - 1)
    (hc : 0 ≤ c ∧ c < ch) :
    0 ≤ y * W * ch + x * ch + c ∧ y * W * ch + x * ch + c < W * H * ch := by
  have hW : 0 ≤ W := by omega
  have hch : 0 ≤ ch := by omega
  have h1 : 0 ≤ y * W * ch := mul_nonneg (mul_nonneg hy.1 hW) hch
  have h2 : 0 ≤ x * ch := mul_nonneg hx.1 hch
  have h3 : x * ch ≤ (W - 1) * ch := mul_le_mul_of_nonneg_right hx.2 hch
  have h4 : y * (W * ch) ≤ (H - 1) * (W * ch) :=
    mul_le_mul_of_nonneg_right hy.2 (mul_nonneg hW hch)
  constructor
  · linarith
  · nlinarith

/-- The `int` subscript `index + c` built from in-range coordinates of a
source whose byte size is in the range of `int` is computed without overflow
and lies inside the buffer. -/
theorem int32_index_read (x y c W H ch : Int) (hx : 0 ≤ x ∧ x ≤ W - 1) (hy : 0 ≤ y ∧ y ≤ H - 1)
    (hc : 0 ≤ c ∧ c < ch) (hsz : W * H * ch ≤ 2147483647) :
    0 ≤ int32 (int32 (y * W * ch + x * ch) + c) ∧
      int32 (int32 (y * W * ch + x * ch) + c) < W * H * ch := by
  have h := index_in_bounds x y c W H ch hx hy hc
  have h0 := index_in_bounds x y 0 W H ch hx hy ⟨le_refl 0, by omega⟩
  rw [int32_eq_self (y * W * ch + x * ch) (by omega) (by omega),
    int32_eq_self _ (by omega) (by omega)]
  exact h

/-- C3 (amended): source reads are in bounds when the byte size of the source
is in the range of `int`.  For every channel count >= 1 (a channel `c` with
`0 <= c < channel` exists), every source size with width and height >= 1,
every crop rectangle, also one partially or fully outside the source, and
every paste rectangle, the four neighbour coordinates that
`crop_and_scale_image_c` uses for a destination pixel lie in
`[0, src_width - 1]` and `[0, src_height - 1]`; and if
`src_width * src_height * channel <= 2147483647`, every subscript read
(`index_A .. index_D + c`, as the `int` the code computes) lies in
`[0, src_width * src_height * channel)`. -/
theorem crop_and_scale_reads_in_bounds (channel src_width src_height : Int)
    (crop_x crop_y crop_width crop_height dst_box_x dst_box_y dst_box_width dst_box_height : Int)
    (dst_x dst_y c : Int) (hw : 1 ≤ src_width) (hh : 1 ≤ src_height)
    (hc : 0 ≤ c ∧ c < channel) :
    (0 ≤ (src_taps src_width src_height crop_x crop_y crop_width crop_height
        (F32.div (F32.ofInt crop_width) (F32.ofInt dst_box_width))
        (F32.div (F32.ofInt crop_height) (F32.ofInt dst_box_height))
        (dst_x - dst_box_x) (dst_y - dst_box_y)).global_src_x1 ∧
      (src_taps src_width src_height crop_x crop_y crop_width crop_height
        (F32.div (F32.ofInt crop_width) (F32.ofInt dst_box_width))
        (F32.div (F32.ofInt crop_height) (F32.ofInt dst_box_height))
        (dst_x - dst_box_x) (dst_y - dst_box_y)).global_src_x1 ≤ src_width - 1) ∧
    (0 ≤ (src_taps src_width src_height crop_x crop_y crop_width crop_height
        (F32.div (F32.ofInt crop_width) (F32.ofInt dst_box_width))
        (F32.div (F32.ofInt crop_height) (F32.ofInt dst_box_height))
        (dst_x - dst_box_x) (dst_y - dst_box_y)).global_src_x2 ∧
      (src_taps src_width src_height crop_x crop_y crop_width crop_height
        (F32.div (F32.ofInt crop_width) (F32.ofInt dst_box_width))
        (F32.div (F32.ofInt crop_height) (F32.ofInt dst_box_height))
        (dst_x - dst_box_x) (dst_y - dst_box_y)).global_src_x2 ≤ src_width - 1) ∧
    (0 ≤ (src_taps src_width src_height crop_x crop_y crop_width crop_height
        (F32.div (F32.ofInt crop_width) (F32.ofInt dst_box_width))
        (F32.div (F32.ofInt crop_height) (F32.ofInt dst_box_height))
        (dst_x - dst_box_x) (dst_y - dst_box_y)).global_src_y1 ∧
      (src_taps src_width src_height crop_x crop_y crop_width crop_height
        (F32.div (F32.ofInt crop_width) (F32.ofInt dst_box_width))
        (F32.div (F32.ofInt crop_height) (F32.ofInt dst_box_height))
        (dst_x - dst_box_x) (dst_y - dst_box_y)).global_src_y1 ≤ src_height - 1) ∧
    (0 ≤ (src_taps src_width src_height crop_x crop_y crop_width crop_height
        (F32.div (F32.ofInt crop_width) (F32.ofInt dst_box_width))
        (F32.div (F32.ofInt crop_height) (F32.ofInt dst_box_height))
        (dst_x - dst_box_x) (dst_y - dst_box_y)).global_src_y2 ∧
      (src_taps src_width src_height crop_x crop_y crop_width crop_height
        (F32.div (F32.ofInt crop_width) (F32.ofInt dst_box_width))
        (F32.div (F32.ofInt crop_height) (F32.ofInt dst_box_height))
        (dst_x - dst_box_x) (dst_y - dst_box_y)).global_src_y2 ≤ src_height - 1) ∧
    (src_width * src_height * channel ≤ 2147483647 →
      (0 ≤ int32 (index_A (src_taps src_width src_height crop_x crop_y crop_width crop_height
        (F32.div (F32.ofInt crop_width) (F32.ofInt dst_box_width))
        (F32.div (F32.ofInt crop_height) (F32.ofInt dst_box_height))
        (dst_x - dst_box_x) (dst_y - dst_box_y)) src_width channel + c) ∧
        int32 (index_A (src_taps src_width src_height crop_x crop_y crop_width crop_height
        (F32.div (F32.ofInt crop_width) (F32.ofInt dst_box_width))
        (F32.div (F32.ofInt crop_height) (F32.ofInt dst_box_height))
        (dst_x - dst_box_x) (dst_y - dst_box_y)) src_width channel + c) <
          src_width * src_height * channel) ∧
      (0 ≤ int32 (index_B (src_taps src_width src_height crop_x crop_y crop_width crop_height
        (F32.div (F32.ofInt crop_width) (F32.ofInt dst_box_width))
        (F32.div (F32.ofInt crop_height) (F32.ofInt dst_box_height))
        (dst_x - dst_box_x) (dst_y - dst_box_y)) src_width channel + c) ∧
        int32 (index_B (src_taps src_width src_height crop_x crop_y crop_width crop_height
        (F32.div (F32.ofInt crop_width) (F32.ofInt dst_box_width))
        (F32.div (F32.ofInt crop_height) (F32.ofInt dst_box_height))
        (dst_x - dst_box_x) (dst_y - dst_box_y)) src_width channel + c) <
          src_width * src_height * channel) ∧
      (0 ≤ int32 (index_C (src_taps src_width src_height crop_x crop_y crop_width crop_height
        (F32.div (F32.ofInt crop_width) (F32.ofInt dst_box_width))
        (F32.div (F32.ofInt crop_height) (F32.ofInt dst_box_height))
        (dst_x - dst_box_x) (dst_y - dst_box_y)) src_width channel + c) ∧
        int32 (index_C (src_taps src_width src_height crop_x crop_y crop_width crop_height
        (F32.div (F32.ofInt crop_width) (F32.ofInt dst_box_width))
        (F32.div (F32.ofInt crop_height) (F32.ofInt dst_box_height))
        (dst_x - dst_box_x) (dst_y - dst_box_y)) src_width channel + c) <
          src_width * src_height * channel) ∧
      (0 ≤ int32 (index_D (src_taps src_width src_height crop_x crop_y crop_width crop_height
        (F32.div (F32.ofInt crop_width) (F32.ofInt dst_box_width))
        (F32.div (F32.ofInt crop_height) (F32.ofInt dst_box_height))
        (dst_x - dst_box_x) (dst_y - dst_box_y)) src_width channel + c) ∧
        int32 (index_D (src_taps src_width src_height crop_x crop_y crop_width crop_height
        (F32.div (F32.ofInt crop_width) (F32.ofInt dst_box_width))
        (F32.div (F32.ofInt crop_height) (F32.ofInt dst_box_height))
        (dst_x - dst_box_x) (dst_y - dst_box_y)) src_width channel + c) <
          src_width * src_height * channel)) := by
  generalize F32.div (F32.ofInt crop_width) (F32.ofInt dst_box_width) = xr
  generalize F32.div (F32.ofInt crop_height) (F32.ofInt dst_box_height) = yr
  have x1 := clamp_src_bounds (crop_x + F32.toInt (F32.mul (F32.ofInt (dst_x - dst_box_x)) xr))
    src_width hw
  have y1 := clamp_src_bounds (crop_y + F32.toInt (F32.mul (F32.ofInt (dst_y - dst_box_y)) yr))
    src_height hh
  have x2 := clamp_src_bounds (crop_x +
    (if F32.toInt (F32.mul (F32.ofInt (dst_x - dst_box_x)) xr) + 1 < crop_width then
      F32.toInt (F32.mul (F32.ofInt (dst_x - dst_box_x)) xr) + 1
    else F32.toInt (F32.mul (F32.ofInt (dst_x - dst_box_x)) xr))) src_width hw
  have y2 := clamp_src_bounds (crop_y +
    (if F32.toInt (F32.mul (F32.ofInt (dst_y - dst_box_y)) yr) + 1 < crop_height then
      F32.toInt (F32.mul (F32.ofInt (dst_y - dst_box_y)) yr) + 1
    else F32.toInt (F32.mul (F32.ofInt (dst_y - dst_box_y)) yr))) src_height hh
  simp only [src_taps, index_A, index_B, index_C, index_D]
  exact ⟨x1, x2, y1, y2, fun hsz => ⟨int32_index_read _ _ c _ _ channel x1 y1 hc hsz,
    int32_index_read _ _ c _ _ channel x2 y1 hc hsz,
    int32_index_read _ _ c _ _ channel x1 y2 hc hsz,
    int32_index_read _ _ c _ _ channel x2 y2 hc hsz⟩⟩

/-- Witness for `crop_and_scale_reads_in_bounds`: a 3-channel 4 x 3 source
(36 bytes) with a crop rectangle that sticks out of it. -/
theorem crop_and_scale_reads_in_bounds_witness :
    (0 ≤ (src_taps 4 3 2 (-5) 9 9
        (F32.div (F32.ofInt 9) (F32.ofInt 5)) (F32.div (F32.ofInt 9) (F32.ofInt 5))
        (3 - 0) (4 - 0)).global_src_x2 ∧
      (src_taps 4 3 2 (-5) 9 9
        (F32.div (F32.ofInt 9) (F32.ofInt 5)) (F32.div (F32.ofInt 9) (F32.ofInt 5))
        (3 - 0) (4 - 0)).global_src_x2 ≤ 4 - 1) ∧
    (0 ≤ int32 (index_D (src_taps 4 3 2 (-5) 9 9
        (F32.div (F32.ofInt 9) (F32.ofInt 5)) (F32.div (F32.ofInt 9) (F32.ofInt 5))
        (3 - 0) (4 - 0)) 4 3 + 1) ∧
      int32 (index_D (src_taps 4 3 2 (-5) 9 9
        (F32.div (F32.ofInt 9) (F32.ofInt 5)) (F32.div (F32.ofInt 9) (F32.ofInt 5))
        (3 - 0) (4 - 0)) 4 3 + 1) < 4 * 3 * 3) :=
  ⟨(crop_and_scale_reads_in_bounds 3 4 3 2 (-5) 9 9 0 0 5 5 3 4 1 (by decide) (by decide)
    (by decide)).2.1,
   ((crop_and_scale_reads_in_bounds 3 4 3 2 (-5) 9 9 0 0 5 5 3 4 1 (by decide) (by decide)
    (by decide)).2.2.2.2 (by decide)).2.2.2⟩

/-- C3 (counterexample): a one-channel source 46342 pixels wide and high
(2147580964 bytes), crop and paste both 46342 x 46342.  For the destination
pixel (46341, 46341) the first neighbour is the source pixel (46341, 46341),
inside the source, but the subscript 46341 * 46342 + 46341 = 2147580963 is
not an `int`: the subscript read, `index_A + 0`, is -2147386333, below 0. -/
theorem crop_and_scale_reads_out_of_bounds_large :
    (src_taps 46342 46342 0 0 46342 46342
        (F32.div (F32.ofInt 46342) (F32.ofInt 46342))
        (F32.div (F32.ofInt 46342) (F32.ofInt 46342)) 46341 46341).global_src_x1 = 46341 ∧
    (src_taps 46342 46342 0 0 46342 46342
        (F32.div (F32.ofInt 46342) (F32.ofInt 46342))
        (F32.div (F32.ofInt 46342) (F32.ofInt 46342)) 46341 46341).global_src_y1 = 46341 ∧
    int32 (index_A (src_taps 46342 46342 0 0 46342 46342
        (F32.div (F32.ofInt 46342) (F32.ofInt 46342))
        (F32.div (F32.ofInt 46342) (F32.ofInt 46342)) 46341 46341) 46342 1 + 0) =
      -2147386333 ∧
    ¬ (0 ≤ int32 (index_A (src_taps 46342 46342 0 0 46342 46342
        (F32.div (F32.ofInt 46342) (F32.ofInt 46342))
        (F32.div (F32.ofInt 46342) (F32.ofInt 46342)) 46341 46341) 46342 1 + 0)) := by
  rw [src_taps_identity 46342 46342 46341 46341 (by norm_num) (by norm_num) (by norm_num)
    (by norm_num)]
  refine ⟨rfl, rfl, by decide, by decide⟩

/-- The dispatch fails exactly on a format outside the five supported ones. -/
theorem cpu_dispatch_ret (format : image_format_t) (s : Mem) (src_width src_height : Int)
    (src_box_x src_box_y src_box_w src_box_h : Int) (d1 : Mem) (dst_width dst_height : Int)
    (dst_box_x dst_box_y dst_box_w dst_box_h : Int) :
    (cpu_dispatch format s src_width src_height src_box_x src_box_y src_box_w src_box_h d1
      dst_width dst_height dst_box_x dst_box_y dst_box_w dst_box_h).1 =
    (match format with
      | UNKNOWN _ => -1
      | _ => 0) := by
  cases format <;> rfl

/-- C8: software-path failure condition.  `convert_image_cpu` returns either 0
or -1, and it returns -1 if and only if the destination buffer is absent, or
the source buffer is absent, or the source and destination formats differ, or
the common format is not one of Gray8, RGB888, RGBA8888, NV12, NV21; in
particular a format mismatch is always an error. -/
theorem convert_image_cpu_fails_iff (src dst : image_buffer_t)
    (src_box dst_box : Option image_rect_t) (color : Int) :
    ((convert_image_cpu src dst src_box dst_box color).1 = -1 ↔
      (dst.virt_addr = none ∨ src.virt_addr = none ∨ src.format ≠ dst.format ∨
        ¬ (src.format = IMAGE_FORMAT_GRAY8 ∨ src.format = IMAGE_FORMAT_RGB888 ∨
          src.format = IMAGE_FORMAT_RGBA8888 ∨ src.format = IMAGE_FORMAT_YUV420SP_NV12 ∨
          src.format = IMAGE_FORMAT_YUV420SP_NV21))) ∧
    ((convert_image_cpu src dst src_box dst_box color).1 = -1 ∨
      (convert_image_cpu src dst src_box dst_box color).1 = 0) ∧
    (src.format ≠ dst.format → (convert_image_cpu src dst src_box dst_box color).1 = -1) := by
  cases hd : dst.virt_addr with
  | none => simp [convert_image_cpu, hd]
  | some d =>
    cases hs : src.virt_addr with
    | none => simp [convert_image_cpu, hd, hs]
    | some s =>
      by_cases hf : src.format = dst.format
      · rw [convert_image_cpu_run src dst s d src_box dst_box color hs hd hf, cpu_dispatch_ret]
        cases h : src.format <;> simp [hf ▸ h]
      · simp [convert_image_cpu, hd, hs, hf]

/-- `memset` over zero bytes changes nothing. -/
theorem memset_zero (m : Mem) (color : Int) : memset m color 0 = m := by
  funext i
  unfold memset
  have : ¬ (0 ≤ i ∧ i < 0) := by omega
  simp [this]

/-- C9: no partial writes on validation errors.  On every input on which
`convert_image_cpu` returns failure (absent buffer, format mismatch or
unsupported format), whatever the paste rectangle, the destination descriptor
and the bytes of its buffer after the call are those before the call. -/
theorem convert_image_cpu_failure_no_write (src dst : image_buffer_t)
    (src_box dst_box : Option image_rect_t) (color : Int)
    (hfail : (convert_image_cpu src dst src_box dst_box color).1 ≠ 0) :
    (convert_image_cpu src dst src_box dst_box color).2 = dst := by
  cases hd : dst.virt_addr with
  | none => simp [convert_image_cpu, hd]
  | some d =>
    cases hs : src.virt_addr with
    | none => simp [convert_image_cpu, hd, hs]
    | some s =>
      by_cases hf : src.format = dst.format
      · rw [convert_image_cpu_run src dst s d src_box dst_box color hs hd hf] at hfail ⊢
        rw [cpu_dispatch_ret] at hfail
        cases h : src.format with
        | UNKNOWN tag =>
          have hsz : get_image_size (some dst) = 0 :=
            get_image_size_unknown dst tag (hf ▸ h)
          have hp : ∀ a b c e : Int, pad_fill dst d color a b c e = d := by
            intro a b c e
            unfold pad_fill
            split_ifs
            · rw [hsz, memset_zero]
            · rfl
          simp only [cpu_dispatch, hp]
          cases dst
          simp only at hd
          simp [hd]
        | _ => simp [h] at hfail
      · simp [convert_image_cpu, hd, hs, hf]

/-- Witness for `convert_image_cpu_failure_no_write`: an unsupported format
with a paste rectangle smaller than the destination. -/
theorem convert_image_cpu_failure_no_write_witness :
    (convert_image_cpu (image_of 2 2 (UNKNOWN 9) ramp_bytes)
      (image_of 4 4 (UNKNOWN 9) (fun _ => 0)) none (some ⟨1, 1, 2, 2⟩) 255).2 =
      image_of 4 4 (UNKNOWN 9) (fun _ => 0) :=
  convert_image_cpu_failure_no_write (image_of 2 2 (UNKNOWN 9) ramp_bytes)
    (image_of 4 4 (UNKNOWN 9) (fun _ => 0)) none (some ⟨1, 1, 2, 2⟩) 255 (by decide)

/-- A successful `convert_image_cpu` had both buffers and equal formats. -/
theorem convert_image_cpu_success (src dst : image_buffer_t)
    (src_box dst_box : Option image_rect_t) (color : Int)
    (hret : (convert_image_cpu src dst src_box dst_box color).1 = 0) :
    ∃ s d, src.virt_addr = some s ∧ dst.virt_addr = some d ∧ src.format = dst.format := by
  cases hd : dst.virt_addr with
  | none => simp [convert_image_cpu, hd] at hret
  | some d =>
    cases hs : src.virt_addr with
    | none => simp [convert_image_cpu, hd, hs] at hret
    | some s =>
      by_cases hf : src.format = dst.format
      · exact ⟨s, d, rfl, rfl, hf⟩
      · simp [convert_image_cpu, hd, hs, hf] at hret

/-- The software path on a packed format with a paste rectangle that is not
the whole destination: the pad fill, of `get_image_size` bytes, followed by
the loops. -/
theorem convert_image_cpu_packed_pad (src dst : image_buffer_t) (s d : Mem)
    (src_box : Option image_rect_t) (b : image_rect_t) (color ch : Int)
    (hs : src.virt_addr = some s) (hd : dst.virt_addr = some d)
    (hf : src.format = dst.format)
    (hpacked : (dst.format = IMAGE_FORMAT_GRAY8 ∧ ch = 1) ∨
      (dst.format = IMAGE_FORMAT_RGB888 ∧ ch = 3) ∨ (dst.format = IMAGE_FORMAT_RGBA8888 ∧ ch = 4))
    (hnf : b ≠ ⟨0, 0, dst.width - 1, dst.height - 1⟩) :
    convert_image_cpu src dst src_box (some b) color =
      (0, { dst with virt_addr := some (crop_and_scale_loops ch s src.width src.height
        (box_of src_box src.width src.height).1 (box_of src_box src.width src.height).2.1
        (box_of src_box src.width src.height).2.2.1 (box_of src_box src.width src.height).2.2.2
        (memset d color (get_image_size (some dst))) dst.width b.left b.top
        (b.right - b.left + 1) (b.bottom - b.top + 1)) }) := by
  rw [convert_image_cpu_run src dst s d src_box (some b) color hs hd hf]
  have hb : box_of (some b) dst.width dst.height =
      (b.left, b.top, b.right - b.left + 1, b.bottom - b.top + 1) := rfl
  have hpad : pad_fill dst d color b.left b.top (b.right - b.left + 1) (b.bottom - b.top + 1) =
      memset d color (get_image_size (some dst)) := by
    unfold pad_fill
    rw [if_pos]
    by_contra hc
    push_neg at hc
    apply hnf
    cases b
    simp only [image_rect_t.mk.injEq] at hc ⊢
    omega
  rw [hb]
  simp only [hpad]
  rw [cpu_dispatch_packed _ _ _ _ _ _ _ _ _ _ _ _ _ _ _ ch (hf ▸ hpacked)]
  simp

/-- C2 (amended): pad fill on the software path, for destinations whose byte
size is in the range of `int`.  For every packed format (Gray8, RGB888,
RGBA8888, with 1, 3, 4 channels) and destination with
`width * height * channels <= 2147483647`, every pad colour and every paste
rectangle that lies inside the destination but is not the full destination
extent, after a successful `convert_image_cpu` every byte of every destination
pixel lying outside the paste rectangle equals the pad colour byte. -/
theorem convert_image_cpu_pad_fill (src dst : image_buffer_t)
    (src_box : Option image_rect_t) (b : image_rect_t) (color ch : Int)
    (hret : (convert_image_cpu src dst src_box (some b) color).1 = 0)
    (hpacked : (dst.format = IMAGE_FORMAT_GRAY8 ∧ ch = 1) ∨
      (dst.format = IMAGE_FORMAT_RGB888 ∧ ch = 3) ∨ (dst.format = IMAGE_FORMAT_RGBA8888 ∧ ch = 4))
    (hsize : dst.width * dst.height * ch ≤ 2147483647)
    (hin : 0 ≤ b.left ∧ b.left ≤ b.right ∧ b.right ≤ dst.width - 1 ∧
      0 ≤ b.top ∧ b.top ≤ b.bottom ∧ b.bottom ≤ dst.height - 1)
    (hnf : b ≠ ⟨0, 0, dst.width - 1, dst.height - 1⟩) :
    ∃ d', (convert_image_cpu src dst src_box (some b) color).2.virt_addr = some d' ∧
      ∀ x y c : Int, 0 ≤ x → x < dst.width → 0 ≤ y → y < dst.height → 0 ≤ c → c < ch →
        ¬ (b.left ≤ x ∧ x ≤ b.right ∧ b.top ≤ y ∧ y ≤ b.bottom) →
        d' ((y * dst.width + x) * ch + c) = byte_of_int color := by
  obtain ⟨s, d, hs, hd, hf⟩ := convert_image_cpu_success src dst src_box (some b) color hret
  rw [convert_image_cpu_packed_pad src dst s d src_box b color ch hs hd hf hpacked hnf]
  have hch : 0 < ch := by
    rcases hpacked with ⟨_, rfl⟩ | ⟨_, rfl⟩ | ⟨_, rfl⟩ <;> norm_num
  have hP : 0 ≤ dst.width * dst.height * ch :=
    mul_nonneg (mul_nonneg (by omega) (by omega)) hch.le
  have hsz : get_image_size (some dst) = dst.width * dst.height * ch := by
    rcases hpacked with ⟨h, rfl⟩ | ⟨h, rfl⟩ | ⟨h, rfl⟩
    · rw [get_image_size_gray8 dst h]
      rw [mul_one] at hsize hP ⊢
      exact int32_eq_self _ (by omega) hsize
    · rw [get_image_size_rgb888 dst h]; exact int32_eq_self _ (by omega) hsize
    · rw [get_image_size_rgba8888 dst h]; exact int32_eq_self _ (by omega) hsize
  refine ⟨_, rfl, ?_⟩
  intro x y c hx0 hx1 hy0 hy1 hc0 hc1 hout
  rw [crop_and_scale_loops_frame]
  · unfold memset
    have hidx := index_in_plane dst.width dst.height ch x y c ⟨hx0, hx1⟩ ⟨hy0, hy1⟩ ⟨hc0, hc1⟩
    rw [hsz, if_pos hidx]
  · intro x' y' c' hx' hx'' hy' hy'' hc' hc'' heq
    rw [int32_index_in_plane dst.width dst.height ch x' y' c' hsize ⟨by omega, by omega⟩
      ⟨by omega, by omega⟩ ⟨hc', hc''⟩] at heq
    have h1 := index_inj _ _ _ _ ch ⟨hc0, hc1⟩ ⟨hc', hc''⟩ heq
    have h2 := index_inj y y' x x' dst.width ⟨hx0, hx1⟩ ⟨by omega, by omega⟩ h1.1
    apply hout
    omega

/-- Witness for `convert_image_cpu_pad_fill`: a 2 x 2 RGB888 image pasted into
the middle of a 4 x 4 destination (48 bytes) with pad colour 114. -/
theorem convert_image_cpu_pad_fill_witness :
    ∃ d', (convert_image_cpu (image_of 2 2 IMAGE_FORMAT_RGB888 ramp_bytes)
        (image_of 4 4 IMAGE_FORMAT_RGB888 (fun _ => 0)) none (some ⟨1, 1, 2, 2⟩) 114).2.virt_addr =
        some d' ∧
      ∀ x y c : Int, 0 ≤ x → x < (image_of 4 4 IMAGE_FORMAT_RGB888 (fun _ => 0)).width →
        0 ≤ y → y < (image_of 4 4 IMAGE_FORMAT_RGB888 (fun _ => 0)).height → 0 ≤ c → c < 3 →
        ¬ ((⟨1, 1, 2, 2⟩ : image_rect_t).left ≤ x ∧ x ≤ (⟨1, 1, 2, 2⟩ : image_rect_t).right ∧
          (⟨1, 1, 2, 2⟩ : image_rect_t).top ≤ y ∧ y ≤ (⟨1, 1, 2, 2⟩ : image_rect_t).bottom) →
        d' ((y * (image_of 4 4 IMAGE_FORMAT_RGB888 (fun _ => 0)).width + x) * 3 + c) =
          byte_of_int 114 :=
  convert_image_cpu_pad_fill (image_of 2 2 IMAGE_FORMAT_RGB888 ramp_bytes)
    (image_of 4 4 IMAGE_FORMAT_RGB888 (fun _ => 0)) none ⟨1, 1, 2, 2⟩ 114 3
    (by decide)
    (Or.inr (Or.inl ⟨rfl, rfl⟩)) (by decide) (by decide) (by decide)

/-- C2 (counterexample): a Gray8 destination 65536 pixels wide and 65537
pixels high, of 4295032832 bytes, with pad colour 114 and the paste rectangle
`{0, 0, 0, 0}` (one pixel, inside the destination, not the full extent).  The
product 65536 * 65537 is not an `int`: `get_image_size` returns 65536 and only
the first 65536 bytes are filled.  The call returns 0 and the byte of pixel
(4464, 1), which lies outside the paste rectangle, is not the pad colour. -/
theorem convert_image_cpu_pad_fill_fails_large :
    (convert_image_cpu (image_of 1 1 IMAGE_FORMAT_GRAY8 ramp_bytes)
      (image_of 65536 65537 IMAGE_FORMAT_GRAY8 (fun _ => 0)) none (some ⟨0, 0, 0, 0⟩) 114).1 = 0 ∧
    get_image_size (some (image_of 65536 65537 IMAGE_FORMAT_GRAY8 (fun _ => 0))) = 65536 ∧
    ∃ d', (convert_image_cpu (image_of 1 1 IMAGE_FORMAT_GRAY8 ramp_bytes)
        (image_of 65536 65537 IMAGE_FORMAT_GRAY8 (fun _ => 0)) none (some ⟨0, 0, 0, 0⟩)
        114).2.virt_addr = some d' ∧
      d' ((1 * 65536 + 4464) * 1 + 0) ≠ byte_of_int 114 := by
  have hsz : get_image_size (some (image_of 65536 65537 IMAGE_FORMAT_GRAY8 (fun _ => 0))) =
      65536 := by
    rw [get_image_size_gray8 _ rfl]; decide
  rw [convert_image_cpu_packed_pad (image_of 1 1 IMAGE_FORMAT_GRAY8 ramp_bytes)
    (image_of 65536 65537 IMAGE_FORMAT_GRAY8 (fun _ => 0)) ramp_bytes (fun _ => 0) none
    ⟨0, 0, 0, 0⟩ 114 1 rfl rfl rfl (Or.inl ⟨rfl, rfl⟩) (by decide), hsz]
  refine ⟨rfl, rfl, _, rfl, ?_⟩
  rw [crop_and_scale_loops_frame]
  · decide
  · intro x y c h1 h2 h3 h4 h5 h6
    simp only at h1 h2 h3 h4
    obtain rfl : x = 0 := by omega
    obtain rfl : y = 0 := by omega
    obtain rfl : c = 0 := by omega
    decide

/-- The cleanup at `err:` only appends to the call log and keeps return code
and destination. -/
theorem rga_cleanup_spec {σ : Type} (hw : rga_backend σ) (ret : Int) (dst : image_buffer_t)
    (st : σ) (log : List rga_call) (hs hd : Int) :
    (rga_cleanup hw ret dst st log hs hd).ret = ret ∧
    (rga_cleanup hw ret dst st log hs hd).dst = dst ∧
    ∃ l, (rga_cleanup hw ret dst st log hs hd).log = log ++ l := by
  unfold rga_cleanup
  by_cases h1 : hs > 0 <;> by_cases h2 : hd > 0 <;> simp [h1, h2]

/-- The hardware accepts exactly the four formats that `get_rga_fmt` maps to a
format code, provided no format code of the library is -1. -/
theorem get_rga_fmt_ne_iff {σ : Type} (hw : rga_backend σ) (fmt : image_format_t)
    (hcodes : hw.RK_FORMAT_RGB_888 ≠ -1 ∧ hw.RK_FORMAT_RGBA_8888 ≠ -1 ∧
      hw.RK_FORMAT_YCbCr_420_SP ≠ -1 ∧ hw.RK_FORMAT_YCrCb_420_SP ≠ -1) :
    get_rga_fmt hw fmt ≠ -1 ↔
      (fmt = IMAGE_FORMAT_RGB888 ∨ fmt = IMAGE_FORMAT_RGBA8888 ∨
        fmt = IMAGE_FORMAT_YUV420SP_NV12 ∨ fmt = IMAGE_FORMAT_YUV420SP_NV21) := by
  obtain ⟨h1, h2, h3, h4⟩ := hcodes
  cases fmt <;> simp [get_rga_fmt, h1, h2, h3, h4]

/-- Once both formats are accepted, `convert_image_rga` calls the library at
least once. -/
theorem convert_image_rga_log_ne_nil {σ : Type} (cfg : build_config) (hw : rga_backend σ)
    (st : σ) (u1 u2 : Int) (src dst : image_buffer_t) (sb db : Option image_rect_t)
    (color : Int) (h1 : get_rga_fmt hw src.format ≠ -1) (h2 : get_rga_fmt hw dst.format ≠ -1) :
    (convert_image_rga cfg hw st u1 u2 src dst sb db color).log ≠ [] := by
  unfold convert_image_rga
  rw [if_neg h1, if_neg h2]
  have key : ∀ (ret : Int) (d : image_buffer_t) (s : σ) (log : List rga_call) (a b : Int),
      log ≠ [] → (rga_cleanup hw ret d s log a b).log ≠ [] := by
    intro ret d s log a b hl
    obtain ⟨l, e⟩ := (rga_cleanup_spec hw ret d s log a b).2.2
    rw [e]
    simp [hl]
  have fp : ∀ (s : σ) (log : List rga_call) (sr dr : Int × Int × Int × Int) (a b : Int),
      (rga_fill_and_process hw s log src dst sr dr color a b).log ≠ [] := by
    intro s log sr dr a b
    unfold rga_fill_and_process
    apply key
    simp
  simp only
  split_ifs
  · exact key _ _ _ _ _ _ (by simp)
  · exact key _ _ _ _ _ _ (by simp)
  · exact fp _ _ _ _ _ _
  · exact fp _ _ _ _ _ _

/-- C6: backend selection.  With the hardware path not statically disabled
and alignment quantum Q (16, or 4 on RV1106/1103), `convert_image` calls the
hardware library if and only if the source width and the destination width are
multiples of Q and both formats are among RGB888, RGBA8888, NV12, NV21; in
every other case (in particular for a source width that is not a multiple of
Q, and for Gray8) the library is never called and the result is exactly that of
`convert_image_cpu` on the same arguments. -/
theorem convert_image_backend_selection {σ : Type} (cfg : build_config) (hw : rga_backend σ)
    (st : σ) (u1 u2 : Int) (src dst : image_buffer_t) (sb db : Option image_rect_t)
    (color : Int) (hen : cfg.DISABLE_RGA = false)
    (hcodes : hw.RK_FORMAT_RGB_888 ≠ -1 ∧ hw.RK_FORMAT_RGBA_8888 ≠ -1 ∧
      hw.RK_FORMAT_YCbCr_420_SP ≠ -1 ∧ hw.RK_FORMAT_YCrCb_420_SP ≠ -1) :
    rga_align cfg = (if cfg.RV1106_1103 then 4 else 16) ∧
    ((convert_image cfg hw st u1 u2 src dst sb db color).log ≠ [] ↔
      (src.width.tmod (rga_align cfg) = 0 ∧ dst.width.tmod (rga_align cfg) = 0 ∧
        (src.format = IMAGE_FORMAT_RGB888 ∨ src.format = IMAGE_FORMAT_RGBA8888 ∨
          src.format = IMAGE_FORMAT_YUV420SP_NV12 ∨ src.format = IMAGE_FORMAT_YUV420SP_NV21) ∧
        (dst.format = IMAGE_FORMAT_RGB888 ∨ dst.format = IMAGE_FORMAT_RGBA8888 ∨
          dst.format = IMAGE_FORMAT_YUV420SP_NV12 ∨ dst.format = IMAGE_FORMAT_YUV420SP_NV21))) ∧
    ((convert_image cfg hw st u1 u2 src dst sb db color).log = [] →
      (convert_image cfg hw st u1 u2 src dst sb db color).ret =
        (convert_image_cpu src dst sb db color).1 ∧
      (convert_image cfg hw st u1 u2 src dst sb db color).dst =
        (convert_image_cpu src dst sb db color).2 ∧
      (convert_image cfg hw st u1 u2 src dst sb db color).state = st) ∧
    (src.width.tmod (rga_align cfg) ≠ 0 ∨ src.format = IMAGE_FORMAT_GRAY8 ∨
        dst.format = IMAGE_FORMAT_GRAY8 →
      (convert_image cfg hw st u1 u2 src dst sb db color).log = []) := by
  have hsel : rga_selected cfg hw src dst = true ↔
      (src.width.tmod (rga_align cfg) = 0 ∧ dst.width.tmod (rga_align cfg) = 0 ∧
        (src.format = IMAGE_FORMAT_RGB888 ∨ src.format = IMAGE_FORMAT_RGBA8888 ∨
          src.format = IMAGE_FORMAT_YUV420SP_NV12 ∨ src.format = IMAGE_FORMAT_YUV420SP_NV21) ∧
        (dst.format = IMAGE_FORMAT_RGB888 ∨ dst.format = IMAGE_FORMAT_RGBA8888 ∨
          dst.format = IMAGE_FORMAT_YUV420SP_NV12 ∨ dst.format = IMAGE_FORMAT_YUV420SP_NV21)) := by
    unfold rga_selected
    simp only [Bool.and_eq_true, decide_eq_true_eq, and_assoc]
    rw [get_rga_fmt_ne_iff hw src.format hcodes, get_rga_fmt_ne_iff hw dst.format hcodes]
  have hlog : (convert_image cfg hw st u1 u2 src dst sb db color).log ≠ [] ↔
      rga_selected cfg hw src dst = true := by
    unfold convert_image
    rw [hen]
    by_cases hs : rga_selected cfg hw src dst = true
    · have h12 := hsel.mp hs
      have hne := convert_image_rga_log_ne_nil cfg hw st u1 u2 src dst sb db color
        ((get_rga_fmt_ne_iff hw src.format hcodes).mpr h12.2.2.1)
        ((get_rga_fmt_ne_iff hw dst.format hcodes).mpr h12.2.2.2)
      simp only [Bool.false_eq_true, if_false, hs, if_true]
      split_ifs <;> simp [hne]
    · simp [hs]
  refine ⟨rfl, hlog.trans hsel, ?_, ?_⟩
  · intro hnil
    have hns : ¬ rga_selected cfg hw src dst = true := fun h => (hlog.mpr h) hnil
    unfold convert_image
    rw [hen]
    simp [hns]
  · intro h
    by_contra hne
    have h12 := (hlog.trans hsel).mp hne
    rcases h with h | h | h
    · exact h h12.1
    · rw [h] at h12; simp at h12
    · rw [h] at h12; simp at h12

/-- Witness for `convert_image_backend_selection`: the 16-pixel build with a
library using the librga format codes, on a 16 x 2 RGB888 conversion. -/
theorem convert_image_backend_selection_witness :
    (convert_image rga_build failing_backend () 0 0
        (image_of 16 2 IMAGE_FORMAT_RGB888 ramp_bytes)
        (image_of 16 2 IMAGE_FORMAT_RGB888 (fun _ => 0)) none none 0).log ≠ [] ↔
      ((image_of 16 2 IMAGE_FORMAT_RGB888 ramp_bytes).width.tmod (rga_align rga_build) = 0 ∧
        (image_of 16 2 IMAGE_FORMAT_RGB888 (fun _ => 0)).width.tmod (rga_align rga_build) = 0 ∧
        ((image_of 16 2 IMAGE_FORMAT_RGB888 ramp_bytes).format = IMAGE_FORMAT_RGB888 ∨
          (image_of 16 2 IMAGE_FORMAT_RGB888 ramp_bytes).format = IMAGE_FORMAT_RGBA8888 ∨
          (image_of 16 2 IMAGE_FORMAT_RGB888 ramp_bytes).format = IMAGE_FORMAT_YUV420SP_NV12 ∨
          (image_of 16 2 IMAGE_FORMAT_RGB888 ramp_bytes).format = IMAGE_FORMAT_YUV420SP_NV21) ∧
        ((image_of 16 2 IMAGE_FORMAT_RGB888 (fun _ => 0)).format = IMAGE_FORMAT_RGB888 ∨
          (image_of 16 2 IMAGE_FORMAT_RGB888 (fun _ => 0)).format = IMAGE_FORMAT_RGBA8888 ∨
          (image_of 16 2 IMAGE_FORMAT_RGB888 (fun _ => 0)).format = IMAGE_FORMAT_YUV420SP_NV12 ∨
          (image_of 16 2 IMAGE_FORMAT_RGB888 (fun _ => 0)).format =
            IMAGE_FORMAT_YUV420SP_NV21)) :=
  (convert_image_backend_selection rga_build failing_backend () 0 0
    (image_of 16 2 IMAGE_FORMAT_RGB888 ramp_bytes) (image_of 16 2 IMAGE_FORMAT_RGB888 (fun _ => 0))
    none none 0 rfl (by decide)).2.1

theorem foldl_congr_at (l : List Nat) (f : Mem → Nat → Mem) (k : Int)
    (hf : ∀ (j : Nat) (m m' : Mem), m k = m' k → f m j k = f m' j k) :
    ∀ m m' : Mem, m k = m' k → l.foldl f m k = l.foldl f m' k := by
  induction l with
  | nil => intro m m' h; exact h
  | cons a l ih => intro m m' h; exact ih _ _ (hf a m m' h)

/-- The value a loop leaves in byte `k` depends on the initial memory only
through byte `k`, when this is so for every iteration. -/
theorem forLoop_congr_at (lo hi : Int) (body : Int → Mem → Mem) (k : Int)
    (hb : ∀ (i : Int) (m m' : Mem), m k = m' k → body i m k = body i m' k)
    (m m' : Mem) (h : m k = m' k) : forLoop lo hi body m k = forLoop lo hi body m' k :=
  foldl_congr_at _ _ k (fun j a b hab => hb (lo + j) a b hab) m m' h

/-- Byte `k` after the loops depends on the destination before the loops only
through byte `k`. -/
theorem crop_and_scale_loops_congr (channel : Int) (src : Mem) (src_width src_height : Int)
    (crop_x crop_y crop_width crop_height : Int) (d d' : Mem) (dst_width : Int)
    (dst_box_x dst_box_y dst_box_width dst_box_height : Int) (k : Int) (h : d k = d' k) :
    crop_and_scale_loops channel src src_width src_height crop_x crop_y crop_width crop_height
      d dst_width dst_box_x dst_box_y dst_box_width dst_box_height k =
    crop_and_scale_loops channel src src_width src_height crop_x crop_y crop_width crop_height
      d' dst_width dst_box_x dst_box_y dst_box_width dst_box_height k := by
  unfold crop_and_scale_loops
  apply forLoop_congr_at _ _ _ _ _ _ _ h
  intro y m1 m1' h1
  apply forLoop_congr_at _ _ _ _ _ _ _ h1
  intro x m2 m2' h2
  apply forLoop_congr_at _ _ _ _ _ _ _ h2
  intro c m3 m3' h3
  by_cases e : k = int32 ((y * dst_width + x) * channel + c)
  · subst e; simp
  · rw [Function.update_noteq e, Function.update_noteq e]; exact h3

/-- With the whole destination as paste rectangle every byte below
`W * H * channel` whose offset is an `int` is overwritten: its final value
does not depend on the destination before the loops. -/
theorem crop_and_scale_loops_full_indep (channel : Int) (src : Mem)
    (src_width src_height : Int) (crop_x crop_y crop_width crop_height : Int) (d d' : Mem)
    (W H : Int) (hch : 0 < channel) (hW : 0 < W) (i : Int) (h0 : 0 ≤ i)
    (h1 : i < W * H * channel) (h2 : i ≤ 2147483647) :
    crop_and_scale_loops channel src src_width src_height crop_x crop_y crop_width crop_height
      d W 0 0 W H i =
    crop_and_scale_loops channel src src_width src_height crop_x crop_y crop_width crop_height
      d' W 0 0 W H i := by
  obtain ⟨x, y, c, hx, hy, hc, e⟩ := index_decode W H channel i hW hch h0 h1
  have e2 : i = int32 ((y * W + x) * channel + c) := by
    rw [← e, int32_eq_self i (by omega) h2]
  rw [e2]
  exact crop_and_scale_loops_overwrites channel src src_width src_height crop_x crop_y
    crop_width crop_height d d' W 0 0 W H x y c (by omega) (by omega) hc

/-- The plane adapter: byte `i` of its result depends on the destination before
the call only through byte `i`. -/
theorem crop_and_scale_image_yuv420sp_congr (src : Mem) (src_width src_height : Int)
    (crop_x crop_y crop_width crop_height : Int) (d d' : Mem) (dst_width dst_height : Int)
    (dst_box_x dst_box_y dst_box_width dst_box_height : Int) (i : Int) (h : d i = d' i) :
    (crop_and_scale_image_yuv420sp src src_width src_height crop_x crop_y crop_width
      crop_height d dst_width dst_height dst_box_x dst_box_y dst_box_width dst_box_height).2 i =
    (crop_and_scale_image_yuv420sp src src_width src_height crop_x crop_y crop_width
      crop_height d' dst_width dst_height dst_box_x dst_box_y dst_box_width dst_box_height).2 i := by
  simp only [crop_and_scale_image_yuv420sp, crop_and_scale_image_c, Option.getD_some]
  rw [Mem.offset_apply, Mem.offset_apply]
  apply crop_and_scale_loops_congr
  rw [Mem.offset_apply, Mem.offset_apply]
  have e : i + -(int32 (dst_width * dst_height)) + int32 (dst_width * dst_height) = i := by ring
  rw [e]
  exact crop_and_scale_loops_congr _ _ _ _ _ _ _ _ _ _ _ _ _ _ _ _ h

/-- The plane adapter with the whole destination of even positive size as
paste rectangle overwrites every byte below the size that `get_image_size`
computes. -/
theorem crop_and_scale_image_yuv420sp_full_indep (src : Mem) (src_width src_height : Int)
    (crop_x crop_y crop_width crop_height : Int) (d d' : Mem) (W H : Int)
    (hWp : 0 < W) (hHp : 0 < H) (hWe : W % 2 = 0) (hHe : H % 2 = 0) (i : Int) (h0 : 0 ≤ i)
    (h1 : i < (int32 (W * H * 3)).tdiv 2) :
    (crop_and_scale_image_yuv420sp src src_width src_height crop_x crop_y crop_width
      crop_height d W H 0 0 W H).2 i =
    (crop_and_scale_image_yuv420sp src src_width src_height crop_x crop_y crop_width
      crop_height d' W H 0 0 W H).2 i := by
  obtain ⟨a, rfl⟩ : ∃ a, W = 2 * a := ⟨W / 2, by omega⟩
  obtain ⟨b, rfl⟩ : ∃ b, H = 2 * b := ⟨H / 2, by omega⟩
  have ha : 0 < a := by omega
  have hb : 0 < b := by omega
  have hab : 0 < a * b := mul_pos ha hb
  have e1 : (2 * a).tdiv 2 = a := by rw [tdiv_two_of_nonneg _ (by omega)]; omega
  have e2 : (2 * b).tdiv 2 = b := by rw [tdiv_two_of_nonneg _ (by omega)]; omega
  have e0 : (0 : Int).tdiv 2 = 0 := by decide
  have ewh : 2 * a * (2 * b) = 4 * (a * b) := by ring
  have ewh3 : 2 * a * (2 * b) * 3 = 12 * (a * b) := by ring
  rw [ewh3] at h1
  -- the size is positive, and the byte offset is below 2^30
  have hr := int32_range (12 * (a * b))
  have hpos : 0 ≤ int32 (12 * (a * b)) := by
    by_contra hneg
    have h3 := Int.neg_tdiv (-(int32 (12 * (a * b)))) 2
    rw [neg_neg, tdiv_two_of_nonneg (-(int32 (12 * (a * b)))) (by omega)] at h3
    omega
  rw [tdiv_two_of_nonneg _ hpos] at h1
  have hi30 : i ≤ 2147483647 := by omega
  simp only [crop_and_scale_image_yuv420sp, crop_and_scale_image_c, Option.getD_some, e0, e1, e2]
  rw [Mem.offset_apply, Mem.offset_apply]
  rcases lt_or_le i (4 * (a * b)) with hi | hi
  · apply crop_and_scale_loops_congr
    rw [Mem.offset_apply, Mem.offset_apply]
    have e : i + -(int32 (2 * a * (2 * b))) + int32 (2 * a * (2 * b)) = i := by ring
    rw [e]
    exact crop_and_scale_loops_full_indep 1 _ _ _ _ _ _ _ d d' (2 * a) (2 * b) (by norm_num) hWp
      i h0 (by rw [ewh]; omega) hi30
  · -- the byte lies beyond the luma plane: no product has overflowed
    have hle := int32_le_self (12 * (a * b)) (by omega)
    have h12 : 12 * (a * b) ≤ 2147483647 := by
      by_contra hbig
      have := int32_neg_of_mid (12 * (a * b)) (by omega) (by omega)
      omega
    have e12 : int32 (12 * (a * b)) = 12 * (a * b) := int32_eq_self _ (by omega) h12
    rw [e12] at h1
    have eoff : int32 (2 * a * (2 * b)) = 4 * (a * b) := by
      rw [ewh]; exact int32_eq_self _ (by omega) (by omega)
    rw [eoff]
    exact crop_and_scale_loops_full_indep 2 _ _ _ _ _ _ _ _ _ a b (by norm_num) ha _
      (by omega) (by omega) (by omega)

/-- The software path started on two destinations that differ only in their
bytes produces the same return code and the same image bytes, provided the
paste rectangle is not the whole destination (the pad fill then overwrites the
image) or the destination has positive, for NV12/NV21 even, dimensions (the
loops then overwrite the image). -/
theorem convert_image_cpu_indep (src dst : image_buffer_t) (s d d' : Mem)
    (sb db : Option image_rect_t) (color : Int)
    (hs : src.virt_addr = some s) (hd : dst.virt_addr = some d)
    (hf : src.format = dst.format)
    (hcover : box_of db dst.width dst.height ≠ (0, 0, dst.width, dst.height) ∨
      (0 < dst.width ∧ 0 < dst.height ∧
        ((dst.format = IMAGE_FORMAT_YUV420SP_NV12 ∨ dst.format = IMAGE_FORMAT_YUV420SP_NV21) →
          dst.width % 2 = 0 ∧ dst.height % 2 = 0))) :
    (convert_image_cpu src { dst with virt_addr := some d' } sb db color).1 =
      (convert_image_cpu src dst sb db color).1 ∧
    ∃ r c, (convert_image_cpu src { dst with virt_addr := some d' } sb db color).2.virt_addr =
        some r ∧
      (convert_image_cpu src dst sb db color).2.virt_addr = some c ∧
      ∀ i, 0 ≤ i → i < get_image_size (some dst) → r i = c i := by
  rw [convert_image_cpu_run src dst s d sb db color hs hd hf,
    convert_image_cpu_run src { dst with virt_addr := some d' } s d' sb db color hs rfl hf]
  simp only [cpu_dispatch_ret]
  refine ⟨trivial, ?_⟩
  rcases hbox : box_of db dst.width dst.height with ⟨bx, by_, bw, bh⟩
  simp only
  have hsz' : get_image_size (some { dst with virt_addr := some d' }) =
      get_image_size (some dst) := rfl
  -- the two destinations after the pad fill agree on the image bytes when a fill happens
  have hfill : (bx, by_, bw, bh) ≠ (0, 0, dst.width, dst.height) →
      ∀ i, 0 ≤ i → i < get_image_size (some dst) →
        pad_fill { dst with virt_addr := some d' } d' color bx by_ bw bh i =
          pad_fill dst d color bx by_ bw bh i := by
    intro hne i h0 h1
    have hc : bw ≠ dst.width ∨ bh ≠ dst.height ∨ bx ≠ 0 ∨ by_ ≠ 0 := by
      by_contra hcon
      push_neg at hcon
      apply hne
      rw [hcon.1, hcon.2.1, hcon.2.2.1, hcon.2.2.2]
    unfold pad_fill
    rw [if_pos hc, if_pos hc, hsz']
    unfold memset
    rw [if_pos ⟨h0, h1⟩, if_pos ⟨h0, h1⟩]
  rw [hbox] at hcover
  have hfmt : (∃ ch, 0 < ch ∧ get_image_size (some dst) = int32 (dst.width * dst.height * ch) ∧
      ((src.format = IMAGE_FORMAT_GRAY8 ∧ ch = 1) ∨ (src.format = IMAGE_FORMAT_RGB888 ∧ ch = 3) ∨
        (src.format = IMAGE_FORMAT_RGBA8888 ∧ ch = 4))) ∨
      ((src.format = IMAGE_FORMAT_YUV420SP_NV12 ∨ src.format = IMAGE_FORMAT_YUV420SP_NV21) ∧
        get_image_size (some dst) = (int32 (dst.width * dst.height * 3)).tdiv 2) ∨
      (∃ tag, src.format = UNKNOWN tag ∧ get_image_size (some dst) = 0) := by
    cases h : src.format with
    | IMAGE_FORMAT_GRAY8 =>
      exact Or.inl ⟨1, by norm_num, by rw [get_image_size_gray8 dst (hf ▸ h), mul_one],
        Or.inl ⟨rfl, rfl⟩⟩
    | IMAGE_FORMAT_RGB888 =>
      exact Or.inl ⟨3, by norm_num, get_image_size_rgb888 dst (hf ▸ h),
        Or.inr (Or.inl ⟨rfl, rfl⟩)⟩
    | IMAGE_FORMAT_RGBA8888 =>
      exact Or.inl ⟨4, by norm_num, get_image_size_rgba8888 dst (hf ▸ h),
        Or.inr (Or.inr ⟨rfl, rfl⟩)⟩
    | IMAGE_FORMAT_YUV420SP_NV21 =>
      exact Or.inr (Or.inl ⟨Or.inr rfl, get_image_size_nv21 dst (hf ▸ h)⟩)
    | IMAGE_FORMAT_YUV420SP_NV12 =>
      exact Or.inr (Or.inl ⟨Or.inl rfl, get_image_size_nv12 dst (hf ▸ h)⟩)
    | UNKNOWN tag => exact Or.inr (Or.inr ⟨tag, rfl, get_image_size_unknown dst tag (hf ▸ h)⟩)
  rcases hfmt with ⟨ch, hch, hsz, hp⟩ | ⟨hyuv, hsz⟩ | ⟨tag, htag, hsz⟩
  · rw [cpu_dispatch_packed _ _ _ _ _ _ _ _ _ _ _ _ _ _ _ ch hp,
      cpu_dispatch_packed _ _ _ _ _ _ _ _ _ _ _ _ _ _ _ ch hp]
    refine ⟨_, _, rfl, rfl, fun i h0 h1 => ?_⟩
    by_cases hne : (bx, by_, bw, bh) = (0, 0, dst.width, dst.height)
    · have hpos : 0 < dst.width ∧ 0 < dst.height := by
        rcases hcover with hc | hc
        · exact absurd hne hc
        · exact ⟨hc.1, hc.2.1⟩
      simp only [Prod.mk.injEq] at hne
      obtain ⟨rfl, rfl, rfl, rfl⟩ := hne
      rw [hsz] at h1
      have hP : 0 ≤ dst.width * dst.height * ch :=
        mul_nonneg (mul_nonneg hpos.1.le hpos.2.le) hch.le
      have hle := int32_le_self _ hP
      have hr := int32_range (dst.width * dst.height * ch)
      exact crop_and_scale_loops_full_indep ch _ _ _ _ _ _ _ _ _ dst.width dst.height hch hpos.1
        i h0 (by omega) (by omega)
    · exact crop_and_scale_loops_congr _ _ _ _ _ _ _ _ _ _ _ _ _ _ _ i (hfill hne i h0 h1)
  · rw [cpu_dispatch_yuv _ _ _ _ _ _ _ _ _ _ _ _ _ _ _ hyuv,
      cpu_dispatch_yuv _ _ _ _ _ _ _ _ _ _ _ _ _ _ _ hyuv]
    refine ⟨_, _, rfl, rfl, fun i h0 h1 => ?_⟩
    by_cases hne : (bx, by_, bw, bh) = (0, 0, dst.width, dst.height)
    · have hpos : 0 < dst.width ∧ 0 < dst.height ∧ dst.width % 2 = 0 ∧ dst.height % 2 = 0 := by
        rcases hcover with hc | hc
        · exact absurd hne hc
        · exact ⟨hc.1, hc.2.1, hc.2.2 (hf ▸ hyuv)⟩
      simp only [Prod.mk.injEq] at hne
      obtain ⟨rfl, rfl, rfl, rfl⟩ := hne
      exact crop_and_scale_image_yuv420sp_full_indep _ _ _ _ _ _ _ _ _ dst.width dst.height
        hpos.1 hpos.2.1 hpos.2.2.1 hpos.2.2.2 i h0 (by rw [← hsz]; exact h1)
    · exact crop_and_scale_image_yuv420sp_congr _ _ _ _ _ _ _ _ _ _ _ _ _ _ _ i
        (hfill hne i h0 h1)
  · rw [htag]
    refine ⟨_, _, rfl, rfl, fun i h0 h1 => ?_⟩
    rw [hsz] at h1
    omega

/-- The hardware path changes nothing of the destination descriptor but the
bytes of a present buffer. -/
theorem convert_image_rga_dst {σ : Type} (cfg : build_config) (hw : rga_backend σ)
    (st : σ) (u1 u2 : Int) (src dst : image_buffer_t) (sb db : Option image_rect_t)
    (color : Int) :
    ∃ f : Mem → Mem, (convert_image_rga cfg hw st u1 u2 src dst sb db color).dst =
      { dst with virt_addr := dst.virt_addr.map f } := by
  have hid : dst = { dst with virt_addr := dst.virt_addr.map id } := by
    cases dst; simp
  have fp : ∀ (s : σ) (log : List rga_call) (sr dr : Int × Int × Int × Int) (a b : Int),
      ∃ f : Mem → Mem, (rga_fill_and_process hw s log src dst sr dr color a b).dst =
        { dst with virt_addr := dst.virt_addr.map f } := by
    intro s log sr dr a b
    unfold rga_fill_and_process
    simp only [(rga_cleanup_spec hw _ _ _ _ _ _).2.1]
    split_ifs
    · exact ⟨_, by simp [Option.map_map]; rfl⟩
    · exact ⟨_, by simp [Option.map_map]; rfl⟩
    · exact ⟨_, rfl⟩
  simp only [convert_image_rga]
  split_ifs
  · exact ⟨id, by rw [(rga_cleanup_spec hw _ _ _ _ _ _).2.1]; exact hid⟩
  · exact ⟨id, by rw [(rga_cleanup_spec hw _ _ _ _ _ _).2.1]; exact hid⟩
  · exact ⟨id, by rw [(rga_cleanup_spec hw _ _ _ _ _ _).2.1]; exact hid⟩
  · exact ⟨id, by rw [(rga_cleanup_spec hw _ _ _ _ _ _).2.1]; exact hid⟩
  · exact fp _ _ _ _ _ _
  · exact fp _ _ _ _ _ _

/-- C7 (amended): hardware-failure fallback.  For every input on which the
hardware path is selected and the hardware library reports failure, whatever
it has written into the destination, if both buffers are present, source and
destination have the same format, and either the paste rectangle is not the
whole destination or the destination has positive (for NV12/NV21 even) width
and height, then the return code of `convert_image` and every image byte of the
destination after it equal those produced by `convert_image_cpu` alone on the
original inputs. -/
theorem convert_image_rga_failure_fallback {σ : Type} (cfg : build_config)
    (hw : rga_backend σ) (st : σ) (u1 u2 : Int) (src dst : image_buffer_t)
    (sb db : Option image_rect_t) (color : Int) (s d : Mem)
    (hen : cfg.DISABLE_RGA = false) (hsel : rga_selected cfg hw src dst = true)
    (hfail : (convert_image_rga cfg hw st u1 u2 src dst sb db color).ret ≠ 0)
    (hs : src.virt_addr = some s) (hd : dst.virt_addr = some d)
    (hf : src.format = dst.format)
    (hcover : box_of db dst.width dst.height ≠ (0, 0, dst.width, dst.height) ∨
      (0 < dst.width ∧ 0 < dst.height ∧
        ((dst.format = IMAGE_FORMAT_YUV420SP_NV12 ∨ dst.format = IMAGE_FORMAT_YUV420SP_NV21) →
          dst.width % 2 = 0 ∧ dst.height % 2 = 0))) :
    (convert_image cfg hw st u1 u2 src dst sb db color).ret =
      (convert_image_cpu src dst sb db color).1 ∧
    ∃ r c, (convert_image cfg hw st u1 u2 src dst sb db color).dst.virt_addr = some r ∧
      (convert_image_cpu src dst sb db color).2.virt_addr = some c ∧
      ∀ i, 0 ≤ i → i < get_image_size (some dst) → r i = c i := by
  obtain ⟨f, hfd⟩ := convert_image_rga_dst cfg hw st u1 u2 src dst sb db color
  rw [hd, Option.map_some'] at hfd
  have key := convert_image_cpu_indep src dst s d (f d) sb db color hs hd hf hcover
  unfold convert_image
  rw [hen]
  simp only [Bool.false_eq_true, if_false, hsel, if_true, hfail, ne_eq, not_false_eq_true, hfd]
  exact key

/-- Witness for `convert_image_rga_failure_fallback`: a 16 x 2 RGB888
conversion on which every hardware call fails. -/
theorem convert_image_rga_failure_fallback_witness :
    (convert_image rga_build failing_backend () 0 0
        (image_of 16 2 IMAGE_FORMAT_RGB888 ramp_bytes)
        (image_of 16 2 IMAGE_FORMAT_RGB888 (fun _ => 0)) none none 114).ret =
      (convert_image_cpu (image_of 16 2 IMAGE_FORMAT_RGB888 ramp_bytes)
        (image_of 16 2 IMAGE_FORMAT_RGB888 (fun _ => 0)) none none 114).1 :=
  (convert_image_rga_failure_fallback rga_build failing_backend () 0 0
    (image_of 16 2 IMAGE_FORMAT_RGB888 ramp_bytes)
    (image_of 16 2 IMAGE_FORMAT_RGB888 (fun _ => 0)) none none 114 ramp_bytes (fun _ => 0)
    rfl (by decide) (by decide) rfl rfl rfl
    (Or.inr ⟨by decide, by decide, fun h => by rcases h with h | h <;> cases h⟩)).1

/-- C7 (counterexample): three inputs on which the hardware path is selected,
the library reports failure, and the destination after `convert_image` differs
from the one `convert_image_cpu` alone produces.  (1) RGB888 to RGBA8888 with a
paste rectangle smaller than the destination: `convert_image_rga` has filled
the destination with the pad colour by its own `memset`, the software path
then rejects the format mismatch.  (2) NV12 of odd height 1 with the whole
destination as paste rectangle: the software path does not write the bytes
after the luma plane, which keep what the library wrote.  (3) A source without
data pointer: the software path fails and the destination keeps what the
library wrote. -/
theorem convert_image_rga_failure_fallback_fails :
    (rga_selected rga_build failing_backend (image_of 16 1 IMAGE_FORMAT_RGB888 ramp_bytes)
        (image_of 16 1 IMAGE_FORMAT_RGBA8888 (fun _ => 0)) = true ∧
      (convert_image_rga rga_build failing_backend () 0 0
        (image_of 16 1 IMAGE_FORMAT_RGB888 ramp_bytes)
        (image_of 16 1 IMAGE_FORMAT_RGBA8888 (fun _ => 0)) none (some ⟨0, 0, 7, 0⟩) 114).ret ≠ 0 ∧
      ∃ r c, (convert_image rga_build failing_backend () 0 0
          (image_of 16 1 IMAGE_FORMAT_RGB888 ramp_bytes)
          (image_of 16 1 IMAGE_FORMAT_RGBA8888 (fun _ => 0)) none (some ⟨0, 0, 7, 0⟩)
          114).dst.virt_addr = some r ∧
        (convert_image_cpu (image_of 16 1 IMAGE_FORMAT_RGB888 ramp_bytes)
          (image_of 16 1 IMAGE_FORMAT_RGBA8888 (fun _ => 0)) none (some ⟨0, 0, 7, 0⟩)
          114).2.virt_addr = some c ∧
        (0 : Int) < get_image_size (some (image_of 16 1 IMAGE_FORMAT_RGBA8888 (fun _ => 0))) ∧
        r 0 ≠ c 0) ∧
    (rga_selected rga_build scribbling_backend
        (image_of 16 1 IMAGE_FORMAT_YUV420SP_NV12 ramp_bytes)
        (image_of 16 1 IMAGE_FORMAT_YUV420SP_NV12 (fun _ => 0)) = true ∧
      (convert_image_rga rga_build scribbling_backend () 0 0
        (image_of 16 1 IMAGE_FORMAT_YUV420SP_NV12 ramp_bytes)
        (image_of 16 1 IMAGE_FORMAT_YUV420SP_NV12 (fun _ => 0)) none none 114).ret ≠ 0 ∧
      ∃ r c, (convert_image rga_build scribbling_backend () 0 0
          (image_of 16 1 IMAGE_FORMAT_YUV420SP_NV12 ramp_bytes)
          (image_of 16 1 IMAGE_FORMAT_YUV420SP_NV12 (fun _ => 0)) none none
          114).dst.virt_addr = some r ∧
        (convert_image_cpu (image_of 16 1 IMAGE_FORMAT_YUV420SP_NV12 ramp_bytes)
          (image_of 16 1 IMAGE_FORMAT_YUV420SP_NV12 (fun _ => 0)) none none
          114).2.virt_addr = some c ∧
        (16 : Int) <
          get_image_size (some (image_of 16 1 IMAGE_FORMAT_YUV420SP_NV12 (fun _ => 0))) ∧
        r 16 ≠ c 16) ∧
    (rga_selected rga_build scribbling_backend fd_only_src
        (image_of 16 2 IMAGE_FORMAT_RGB888 (fun _ => 0)) = true ∧
      (convert_image_rga rga_build scribbling_backend () 0 0 fd_only_src
        (image_of 16 2 IMAGE_FORMAT_RGB888 (fun _ => 0)) none none 114).ret ≠ 0 ∧
      ∃ r c, (convert_image rga_build scribbling_backend () 0 0 fd_only_src
          (image_of 16 2 IMAGE_FORMAT_RGB888 (fun _ => 0)) none none 114).dst.virt_addr = some r ∧
        (convert_image_cpu fd_only_src
          (image_of 16 2 IMAGE_FORMAT_RGB888 (fun _ => 0)) none none 114).2.virt_addr = some c ∧
        (0 : Int) < get_image_size (some (image_of 16 2 IMAGE_FORMAT_RGB888 (fun _ => 0))) ∧
        r 0 ≠ c 0) := by
  refine ⟨⟨by decide, by decide, _, _, rfl, rfl, by decide, by decide⟩,
    ⟨by decide, by decide, _, _, rfl, rfl, by decide, by decide⟩,
    ⟨by decide, by decide, _, _, rfl, rfl, by decide, by decide⟩⟩

/-- C10 (amended): BufferTooSmall.  The size check lives in
`convert_image_with_letterbox`: for every call of it whose destination
descriptor has a caller-supplied buffer (data pointer present or file
descriptor positive) with declared size smaller than `get_image_size` of the
destination, the call returns failure (-1), without calling the hardware
library and leaving the destination descriptor as it was. -/
theorem convert_image_with_letterbox_buffer_too_small {σ : Type} (cfg : build_config)
    (hw : rga_backend σ) (st : σ) (u1 u2 : Int) (malloc : Int → Option Mem)
    (src dst : image_buffer_t) (letterbox : Option letterbox_t) (color : Int)
    (hcaller : dst.virt_addr ≠ none ∨ 0 < dst.fd)
    (hsmall : dst.size < get_image_size (some dst)) :
    (convert_image_with_letterbox cfg hw st u1 u2 malloc src dst letterbox color).ret = -1 ∧
    (convert_image_with_letterbox cfg hw st u1 u2 malloc src dst letterbox color).dst = dst ∧
    (convert_image_with_letterbox cfg hw st u1 u2 malloc src dst letterbox color).log = [] := by
  have hc : ¬ (dst.virt_addr.isNone = true ∧ dst.fd ≤ 0) := by
    rintro ⟨h1, h2⟩
    rcases hcaller with h | h
    · exact h (Option.isNone_iff_eq_none.mp h1)
    · omega
  unfold convert_image_with_letterbox
  simp only [hc, if_false, hsmall, if_true, and_self]

/-- Witness for `convert_image_with_letterbox_buffer_too_small`: a present
2 x 2 Gray8 destination declared with size 0. -/
theorem convert_image_with_letterbox_buffer_too_small_witness :
    (convert_image_with_letterbox rga_build failing_backend () 0 0 failing_malloc
      (image_of 4 4 IMAGE_FORMAT_GRAY8 ramp_bytes) undersized_dst none 0).ret = -1 :=
  (convert_image_with_letterbox_buffer_too_small rga_build failing_backend () 0 0 failing_malloc
    (image_of 4 4 IMAGE_FORMAT_GRAY8 ramp_bytes) undersized_dst none 0
    (Or.inl (by simp [undersized_dst])) (by decide)).1

/-- C10 (counterexample): `convert_image` itself does not look at the declared
size: called with a present 2 x 2 Gray8 destination declared with size 0, less
than the 4 bytes of its layout, it returns 0. -/
theorem convert_image_ignores_declared_size :
    undersized_dst.virt_addr.isSome = true ∧
    undersized_dst.size < get_image_size (some undersized_dst) ∧
    (sizeFor undersized_dst.format undersized_dst.width undersized_dst.height) = some 4 ∧
    (convert_image rga_build failing_backend () 0 0 (image_of 2 2 IMAGE_FORMAT_GRAY8 ramp_bytes)
      undersized_dst none none 0).ret = 0 := by
  refine ⟨rfl, by decide, by decide, by decide⟩

/-- With four equal samples `P` the `float` value of the bilinear sum is
within `2 ^ -7` of `P`. -/
theorem bilinear_sum_const (P : Byte) (xd yd : ℚ) (hx : |xd| ≤ 2) (hy : |yd| ≤ 2) :
    |F32.add
      (F32.add
        (F32.add
          (F32.mul (F32.mul (F32.ofInt (P.val : Int)) (F32.sub 1 xd)) (F32.sub 1 yd))
          (F32.mul (F32.mul (F32.ofInt (P.val : Int)) xd) (F32.sub 1 yd)))
        (F32.mul (F32.mul (F32.ofInt (P.val : Int)) (F32.sub 1 xd)) yd))
      (F32.mul (F32.mul (F32.ofInt (P.val : Int)) xd) yd) - (P.val : ℚ)| ≤ 1 / 2 ^ 7 := by
  have hP : F32.ofInt (P.val : Int) = (P.val : ℚ) := F32.byte_ofInt P
  have hPb : |(P.val : ℚ)| ≤ 255 := by
    have h := P.isLt
    rw [abs_of_nonneg (by positivity)]
    have : (P.val : ℚ) ≤ (255 : ℕ) := by exact_mod_cast (by omega : P.val ≤ 255)
    simpa using this
  have hP0 : |(P.val : ℚ) - (P.val : ℚ)| ≤ 0 := by simp
  have hxd0 : |xd - xd| ≤ 0 := by simp
  have hyd0 : |yd - yd| ≤ 0 := by simp
  have ha0 : |1 - xd| ≤ 3 := by
    have := abs_sub (1 : ℚ) xd
    simp only [abs_one] at this
    linarith
  have hb0 : |1 - yd| ≤ 3 := by
    have := abs_sub (1 : ℚ) yd
    simp only [abs_one] at this
    linarith
  rw [hP]
  -- the two rounded weights
  have ha : |F32.sub 1 xd - (1 - xd)| ≤ 1 / 2 ^ 22 :=
    le_trans (F32.rnd_approx (1 - xd) (1 - xd) 0 3 (by simp) ha0) (by norm_num)
  have hb : |F32.sub 1 yd - (1 - yd)| ≤ 1 / 2 ^ 22 :=
    le_trans (F32.rnd_approx (1 - yd) (1 - yd) 0 3 (by simp) hb0) (by norm_num)
  -- the inner products
  have p1 := F32.mul_float_approx (P.val : ℚ) (P.val : ℚ) 0 255 (F32.sub 1 xd) (1 - xd)
    (1 / 2 ^ 22) 3 hP0 hPb ha ha0
  have p1e : |F32.mul (P.val : ℚ) (F32.sub 1 xd) - (P.val : ℚ) * (1 - xd)| ≤ 1 / 2 ^ 13 :=
    le_trans p1.1 (by norm_num)
  have p1b : |(P.val : ℚ) * (1 - xd)| ≤ 765 := le_trans p1.2 (by norm_num)
  have p2 := F32.mul_float_approx (P.val : ℚ) (P.val : ℚ) 0 255 xd xd 0 2 hP0 hPb hxd0 hx
  have p2e : |F32.mul (P.val : ℚ) xd - (P.val : ℚ) * xd| ≤ 1 / 2 ^ 15 :=
    le_trans p2.1 (by norm_num)
  have p2b : |(P.val : ℚ) * xd| ≤ 510 := le_trans p2.2 (by norm_num)
  -- the four terms
  have t1 := F32.mul_float_approx _ _ _ _ _ _ _ _ p1e p1b hb hb0
  have t1e := le_trans t1.1 (by norm_num : _ ≤ (1 : ℚ) / 2 ^ 10)
  have t1b := le_trans t1.2 (by norm_num : _ ≤ (2295 : ℚ))
  have t2 := F32.mul_float_approx _ _ _ _ _ _ _ _ p2e p2b hb hb0
  have t2e := le_trans t2.1 (by norm_num : _ ≤ (1 : ℚ) / 2 ^ 11)
  have t2b := le_trans t2.2 (by norm_num : _ ≤ (1530 : ℚ))
  have t3 := F32.mul_float_approx _ _ _ _ _ _ _ _ p1e p1b hyd0 hy
  have t3e := le_trans t3.1 (by norm_num : _ ≤ (1 : ℚ) / 2 ^ 11)
  have t3b := le_trans t3.2 (by norm_num : _ ≤ (1530 : ℚ))
  have t4 := F32.mul_float_approx _ _ _ _ _ _ _ _ p2e p2b hyd0 hy
  have t4e := le_trans t4.1 (by norm_num : _ ≤ (1 : ℚ) / 2 ^ 12)
  have t4b := le_trans t4.2 (by norm_num : _ ≤ (1020 : ℚ))
  -- the three sums
  have s1 := F32.add_float_approx _ _ _ _ _ _ _ _ t1e t1b t2e t2b
  have s1e := le_trans s1.1 (by norm_num : _ ≤ (1 : ℚ) / 2 ^ 9)
  have s1b := le_trans s1.2 (by norm_num : _ ≤ (3825 : ℚ))
  have s2 := F32.add_float_approx _ _ _ _ _ _ _ _ s1e s1b t3e t3b
  have s2e := le_trans s2.1 (by norm_num : _ ≤ (1 : ℚ) / 2 ^ 8)
  have s2b := le_trans s2.2 (by norm_num : _ ≤ (5355 : ℚ))
  have s3 := F32.add_float_approx _ _ _ _ _ _ _ _ s2e s2b t4e t4b
  have s3e := le_trans s3.1 (by norm_num : _ ≤ (1 : ℚ) / 2 ^ 7)
  have e : (P.val : ℚ) * (1 - xd) * (1 - yd) + (P.val : ℚ) * xd * (1 - yd) +
      (P.val : ℚ) * (1 - xd) * yd + (P.val : ℚ) * xd * yd = (P.val : ℚ) := by ring
  rw [e] at s3e
  exact s3e

/-- Truncating a `float` within `2 ^ -7` of the byte `P` gives `P` or `P - 1`. -/
theorem toUChar_near (S : ℚ) (P : Byte) (h : |S - (P.val : ℚ)| ≤ 1 / 2 ^ 7) :
    F32.toUChar S = P ∨ (F32.toUChar S).val + 1 = P.val := by
  have hP := P.isLt
  obtain ⟨h1, h2⟩ := abs_le.mp h
  have key : F32.toInt S = (P.val : Int) ∨ F32.toInt S + 1 = (P.val : Int) := by
    unfold F32.toInt
    split_ifs with h0
    · have f1 := Int.floor_le S
      have f2 := Int.lt_floor_add_one S
      have a1 : ((⌊S⌋ : Int) : ℚ) < ((P.val : Int) : ℚ) + 1 := by
        push_cast; norm_num at h2 ⊢; linarith
      have a2 : (((P.val : Int) : ℚ)) - 2 < ((⌊S⌋ : Int) : ℚ) := by
        push_cast; norm_num at h1 ⊢; linarith
      have b1 : ⌊S⌋ < (P.val : Int) + 1 := by exact_mod_cast a1
      have b2 : (P.val : Int) - 2 < ⌊S⌋ := by exact_mod_cast a2
      omega
    · push_neg at h0
      have c1 := Int.le_ceil S
      have c2 := Int.ceil_lt_add_one S
      have hP0 : (P.val : ℚ) < 1 := by norm_num at h1; linarith
      have hP1 : P.val < 1 := by exact_mod_cast hP0
      have hP2 : P.val = 0 := by omega
      rw [hP2] at h1 ⊢
      have a1 : ((⌈S⌉ : Int) : ℚ) < 1 := by linarith
      have a2 : (-1 : ℚ) < ((⌈S⌉ : Int) : ℚ) := by norm_num at h1; linarith
      have b1 : ⌈S⌉ < 1 := by exact_mod_cast a1
      have b2 : -1 < ⌈S⌉ := by exact_mod_cast a2
      left
      simp only [CharP.cast_eq_zero]
      omega
  have hnn : 0 ≤ F32.toInt S := by
    unfold F32.toInt
    split_ifs with h0
    · exact Int.floor_nonneg.mpr h0
    · push_neg at h0
      have c1 := Int.le_ceil S
      have a2 : (-1 : ℚ) < ((⌈S⌉ : Int) : ℚ) := by norm_num at h1; linarith
      have b2 : -1 < ⌈S⌉ := by exact_mod_cast a2
      omega
  unfold F32.toUChar byte_of_int
  rcases key with k | k
  · left
    apply Fin.ext
    simp only
    omega
  · right
    simp only
    omega

/-- With four equal samples `P` the bilinear expression yields `P` or `P - 1`. -/
theorem bilinear_const (P : Byte) (xd yd : ℚ) (hx : |xd| ≤ 2) (hy : |yd| ≤ 2) :
    bilinear P P P P xd yd = P ∨ (bilinear P P P P xd yd).val + 1 = P.val :=
  toUChar_near _ P (bilinear_sum_const P xd yd hx hy)

/-- The fractional offsets computed for a destination pixel are at most 2 in
magnitude. -/
theorem src_taps_diff_le (src_width src_height crop_x crop_y crop_width crop_height : Int)
    (x_ratio y_ratio : ℚ) (dst_x_offset dst_y_offset : Int) :
    |(src_taps src_width src_height crop_x crop_y crop_width crop_height x_ratio y_ratio
      dst_x_offset dst_y_offset).x_diff| ≤ 2 ∧
    |(src_taps src_width src_height crop_x crop_y crop_width crop_height x_ratio y_ratio
      dst_x_offset dst_y_offset).y_diff| ≤ 2 := by
  unfold src_taps
  exact ⟨F32.abs_frac_le _, F32.abs_frac_le _⟩

/-- C4 (amended): clamp-to-edge.  On present buffers `crop_and_scale_image_c`
returns 0 whatever the crop rectangle, also when it extends beyond the source;
and for every destination pixel of a paste rectangle whose columns lie inside
the destination row, if its four neighbour samples are one and the same source
pixel P, the value computed for every output channel of that pixel equals the
corresponding channel of P (the byte read through the subscript `index_A + c`)
or is one less than it (the `float` sum is truncated), and equals it when both
fractional offsets are zero.  That value is the byte of the destination at
offset `(y * dst_width + x) * channel + c` after the call when the paste
rectangle also lies inside the destination rows and the byte size
`dst_width * dst_height * channel` of the destination is at most 2147483647
(the destination subscript is an `int`). -/
theorem crop_and_scale_clamp_to_edge (channel : Int) (s d : Mem)
    (src_width src_height crop_x crop_y crop_width crop_height : Int)
    (dst_width dst_height dst_box_x dst_box_y dst_box_width dst_box_height : Int)
    (x y c : Int) (hx0 : 0 ≤ dst_box_x) (hx1 : dst_box_x + dst_box_width ≤ dst_width)
    (hx : dst_box_x ≤ x ∧ x < dst_box_x + dst_box_width)
    (hy : dst_box_y ≤ y ∧ y < dst_box_y + dst_box_height) (hc : 0 ≤ c ∧ c < channel)
    (hsame : (src_taps src_width src_height crop_x crop_y crop_width crop_height
          (F32.div (F32.ofInt crop_width) (F32.ofInt dst_box_width))
          (F32.div (F32.ofInt crop_height) (F32.ofInt dst_box_height))
          (x - dst_box_x) (y - dst_box_y)).global_src_x2 =
        (src_taps src_width src_height crop_x crop_y crop_width crop_height
          (F32.div (F32.ofInt crop_width) (F32.ofInt dst_box_width))
          (F32.div (F32.ofInt crop_height) (F32.ofInt dst_box_height))
          (x - dst_box_x) (y - dst_box_y)).global_src_x1 ∧
      (src_taps src_width src_height crop_x crop_y crop_width crop_height
          (F32.div (F32.ofInt crop_width) (F32.ofInt dst_box_width))
          (F32.div (F32.ofInt crop_height) (F32.ofInt dst_box_height))
          (x - dst_box_x) (y - dst_box_y)).global_src_y2 =
        (src_taps src_width src_height crop_x crop_y crop_width crop_height
          (F32.div (F32.ofInt crop_width) (F32.ofInt dst_box_width))
          (F32.div (F32.ofInt crop_height) (F32.ofInt dst_box_height))
          (x - dst_box_x) (y - dst_box_y)).global_src_y1) :
    (crop_and_scale_image_c channel (some s) src_width src_height crop_x crop_y crop_width
      crop_height (some d) dst_width dst_height dst_box_x dst_box_y dst_box_width
      dst_box_height).1 = 0 ∧
    (pixel_value channel s src_width src_height crop_x crop_y crop_width crop_height
          dst_box_width dst_box_height (x - dst_box_x) (y - dst_box_y) c =
          s (int32 (index_A (src_taps src_width src_height crop_x crop_y crop_width crop_height
          (F32.div (F32.ofInt crop_width) (F32.ofInt dst_box_width))
          (F32.div (F32.ofInt crop_height) (F32.ofInt dst_box_height))
          (x - dst_box_x) (y - dst_box_y)) src_width channel + c)) ∨
        (pixel_value channel s src_width src_height crop_x crop_y crop_width crop_height
          dst_box_width dst_box_height (x - dst_box_x) (y - dst_box_y) c).val + 1 =
          (s (int32 (index_A (src_taps src_width src_height crop_x crop_y crop_width crop_height
          (F32.div (F32.ofInt crop_width) (F32.ofInt dst_box_width))
          (F32.div (F32.ofInt crop_height) (F32.ofInt dst_box_height))
          (x - dst_box_x) (y - dst_box_y)) src_width channel + c))).val) ∧
    ((src_taps src_width src_height crop_x crop_y crop_width crop_height
          (F32.div (F32.ofInt crop_width) (F32.ofInt dst_box_width))
          (F32.div (F32.ofInt crop_height) (F32.ofInt dst_box_height))
          (x - dst_box_x) (y - dst_box_y)).x_diff = 0 →
      (src_taps src_width src_height crop_x crop_y crop_width crop_height
          (F32.div (F32.ofInt crop_width) (F32.ofInt dst_box_width))
          (F32.div (F32.ofInt crop_height) (F32.ofInt dst_box_height))
          (x - dst_box_x) (y - dst_box_y)).y_diff = 0 →
      pixel_value channel s src_width src_height crop_x crop_y crop_width crop_height
          dst_box_width dst_box_height (x - dst_box_x) (y - dst_box_y) c =
          s (int32 (index_A (src_taps src_width src_height crop_x crop_y crop_width crop_height
          (F32.div (F32.ofInt crop_width) (F32.ofInt dst_box_width))
          (F32.div (F32.ofInt crop_height) (F32.ofInt dst_box_height))
          (x - dst_box_x) (y - dst_box_y)) src_width channel + c))) ∧
    ∃ d', (crop_and_scale_image_c channel (some s) src_width src_height crop_x crop_y crop_width
        crop_height (some d) dst_width dst_height dst_box_x dst_box_y dst_box_width
        dst_box_height).2 = some d' ∧
      (0 ≤ dst_box_y → dst_box_y + dst_box_height ≤ dst_height →
        dst_width * dst_height * channel ≤ 2147483647 →
        d' ((y * dst_width + x) * channel + c) =
          pixel_value channel s src_width src_height crop_x crop_y crop_width crop_height
          dst_box_width dst_box_height (x - dst_box_x) (y - dst_box_y) c) := by
  refine ⟨rfl, ?_, ?_, _, rfl, fun hy0 hy1 hsz => ?_⟩
  · unfold pixel_value
    simp only
    have hd := src_taps_diff_le src_width src_height crop_x crop_y crop_width crop_height
      (F32.div (F32.ofInt crop_width) (F32.ofInt dst_box_width))
      (F32.div (F32.ofInt crop_height) (F32.ofInt dst_box_height)) (x - dst_box_x)
      (y - dst_box_y)
    generalize src_taps src_width src_height crop_x crop_y crop_width crop_height
      (F32.div (F32.ofInt crop_width) (F32.ofInt dst_box_width))
      (F32.div (F32.ofInt crop_height) (F32.ofInt dst_box_height)) (x - dst_box_x)
      (y - dst_box_y) = t at hsame hd ⊢
    have eB : index_B t src_width channel = index_A t src_width channel := by
      unfold index_B index_A; rw [hsame.1]
    have eC : index_C t src_width channel = index_A t src_width channel := by
      unfold index_C index_A; rw [hsame.2]
    have eD : index_D t src_width channel = index_A t src_width channel := by
      unfold index_D index_A; rw [hsame.1, hsame.2]
    rw [eB, eC, eD]
    exact bilinear_const _ _ _ hd.1 hd.2
  · intro h1 h2
    unfold pixel_value
    simp only
    generalize src_taps src_width src_height crop_x crop_y crop_width crop_height
      (F32.div (F32.ofInt crop_width) (F32.ofInt dst_box_width))
      (F32.div (F32.ofInt crop_height) (F32.ofInt dst_box_height)) (x - dst_box_x)
      (y - dst_box_y) = t at hsame h1 h2 ⊢
    rw [h1, h2, bilinear_zero]
  · exact crop_and_scale_loops_pixel channel s src_width src_height crop_x crop_y crop_width
      crop_height d dst_width dst_height dst_box_x dst_box_y dst_box_width dst_box_height hx0 hx1
      hy0 hy1 hsz x y c hx hy hc

/-- The bilinear expression on four samples 15 with offsets 0 and the `float`
nearest to one third yields 14. -/
theorem bilinear_fifteen : bilinear 15 15 15 15 0 (11184811 / 33554432) = 14 := by
  have h15 : F32.ofInt (((15 : Byte).val : ℕ) : Int) = 15 := by
    have := F32.byte_ofInt 15
    rw [this]
    rfl
  unfold bilinear
  rw [h15]
  simp only [F32.sub, F32.mul, F32.add, sub_zero, F32.rnd_one, mul_one, mul_zero, F32.rnd_zero,
    zero_mul, add_zero, F32.rnd_one_sub_third]
  have e15 : F32.rnd 15 = 15 := by
    have := F32.rnd_intCast 15 (by norm_num)
    simpa using this
  simp only [e15, F32.rnd_fifteen_w, F32.rnd_fifteen_r, F32.rnd_t1, F32.rnd_sum,
    F32.rnd_sum_idem]
  unfold F32.toUChar F32.toInt
  rw [if_pos (by norm_num)]
  have hf : ⌊(15728639 / 1048576 : ℚ)⌋ = 14 := by
    rw [Int.floor_eq_iff]
    constructor <;> norm_num
  rw [hf]
  rfl

/-- The sampling data of the second pixel of a 1 x 9 paste column fed from a
crop rectangle three rows high over a 1 x 1 source. -/
theorem src_taps_edge_example :
    src_taps 1 1 0 0 1 3 (F32.div (F32.ofInt 1) (F32.ofInt 1))
      (F32.div (F32.ofInt 3) (F32.ofInt 9)) (0 - 0) (1 - 0) =
    { global_src_x1 := 0, global_src_y1 := 0, global_src_x2 := 0, global_src_y2 := 0,
      x_diff := 0, y_diff := 11184811 / 33554432 } := by
  have hxr : F32.div (F32.ofInt 1) (F32.ofInt 1) = 1 := F32.div_ofInt_self 1 (by norm_num)
  have hyr : F32.div (F32.ofInt 3) (F32.ofInt 9) = 11184811 / 33554432 := by
    unfold F32.div
    rw [F32.ofInt_eq 3 (by norm_num) (by norm_num), F32.ofInt_eq 9 (by norm_num) (by norm_num)]
    have : ((3 : Int) : ℚ) / ((9 : Int) : ℚ) = 1 / 3 := by norm_num
    rw [this, F32.rnd_third]
  rw [hxr, hyr]
  have e0 : F32.ofInt 0 = 0 := by
    have := F32.ofInt_eq 0 (by norm_num) (by norm_num)
    simpa using this
  have e1 : F32.ofInt 1 = 1 := by
    have := F32.ofInt_eq 1 (by norm_num) (by norm_num)
    simpa using this
  have t0 : F32.toInt 0 = 0 := by
    have := F32.toInt_intCast 0
    simpa using this
  have tr : F32.toInt (11184811 / 33554432) = 0 := by
    unfold F32.toInt
    rw [if_pos (by norm_num), Int.floor_eq_iff]
    constructor <;> norm_num
  have s0 : (0 : Int) - 0 = 0 := by norm_num
  have s1 : (1 : Int) - 0 = 1 := by norm_num
  unfold src_taps
  simp only [s0, s1, e0, e1, F32.mul, mul_one, one_mul, F32.rnd_zero, F32.rnd_third_idem, t0, tr,
    F32.sub, sub_zero, sub_self]
  simp [clamp_src]

/-- C4 (counterexample): a 1 x 1 source holding 15, a crop rectangle three rows
high (it extends beyond the source) scaled onto a 1 x 9 destination.  The four
neighbours of destination pixel (0, 1) all clamp to the source pixel (0, 0),
the call returns 0, yet the byte written is 14, not 15. -/
theorem crop_and_scale_clamp_to_edge_fails :
    (src_taps 1 1 0 0 1 3 (F32.div (F32.ofInt 1) (F32.ofInt 1))
        (F32.div (F32.ofInt 3) (F32.ofInt 9)) (0 - 0) (1 - 0)).global_src_x1 = 0 ∧
    (src_taps 1 1 0 0 1 3 (F32.div (F32.ofInt 1) (F32.ofInt 1))
        (F32.div (F32.ofInt 3) (F32.ofInt 9)) (0 - 0) (1 - 0)).global_src_x2 = 0 ∧
    (src_taps 1 1 0 0 1 3 (F32.div (F32.ofInt 1) (F32.ofInt 1))
        (F32.div (F32.ofInt 3) (F32.ofInt 9)) (0 - 0) (1 - 0)).global_src_y1 = 0 ∧
    (src_taps 1 1 0 0 1 3 (F32.div (F32.ofInt 1) (F32.ofInt 1))
        (F32.div (F32.ofInt 3) (F32.ofInt 9)) (0 - 0) (1 - 0)).global_src_y2 = 0 ∧
    (crop_and_scale_image_c 1 (some (fun _ => 15)) 1 1 0 0 1 3 (some (fun _ => 0)) 1 9
      0 0 1 9).1 = 0 ∧
    ∃ d', (crop_and_scale_image_c 1 (some (fun _ => 15)) 1 1 0 0 1 3 (some (fun _ => 0)) 1 9
        0 0 1 9).2 = some d' ∧
      d' ((1 * 1 + 0) * 1 + 0) = 14 ∧ d' ((1 * 1 + 0) * 1 + 0) ≠ (15 : Byte) := by
  rw [src_taps_edge_example]
  refine ⟨rfl, rfl, rfl, rfl, rfl, _, rfl, ?_⟩
  rw [crop_and_scale_loops_pixel 1 (fun _ => 15) 1 1 0 0 1 3 (fun _ => 0) 1 9 0 0 1 9
    (by norm_num) (by norm_num) (by norm_num) (by norm_num) (by norm_num) 0 1 0 (by norm_num)
    (by norm_num) (by norm_num)]
  unfold pixel_value
  simp only [src_taps_edge_example, bilinear_fifteen]
  exact ⟨trivial, by decide⟩

/-- Witness for `crop_and_scale_clamp_to_edge`: the same 1 x 1 source, where
every neighbour of every destination pixel is the one source pixel; the
destination has 9 bytes and the value computed for pixel (0, 1) is its byte
after the call. -/
theorem crop_and_scale_clamp_to_edge_witness :
    (crop_and_scale_image_c 1 (some (fun _ => 15)) 1 1 0 0 1 3 (some (fun _ => 0)) 1 9
      0 0 1 9).1 = 0 ∧
    ∃ d', (crop_and_scale_image_c 1 (some (fun _ => 15)) 1 1 0 0 1 3 (some (fun _ => 0)) 1 9
        0 0 1 9).2 = some d' ∧
      d' ((1 * 1 + 0) * 1 + 0) = pixel_value 1 (fun _ => 15) 1 1 0 0 1 3 1 9 (0 - 0) (1 - 0) 0 :=
  ⟨(crop_and_scale_clamp_to_edge 1 (fun _ => 15) (fun _ => 0) 1 1 0 0 1 3 1 9 0 0 1 9 0 1 0
      (by decide) (by decide) (by decide) (by decide) (by decide)
      (by rw [src_taps_edge_example]; exact ⟨rfl, rfl⟩)).1,
    (crop_and_scale_clamp_to_edge 1 (fun _ => 15) (fun _ => 0) 1 1 0 0 1 3 1 9 0 0 1 9 0 1 0
      (by decide) (by decide) (by decide) (by decide) (by decide)
      (by rw [src_taps_edge_example]; exact ⟨rfl, rfl⟩)).2.2.2.imp
      (fun _ h => ⟨h.1, h.2 (by decide) (by decide) (by decide)⟩)⟩

/-! ### The letterbox rectangle -/

/-- The record written through a non-null `letterbox` pointer holds the left
and top offsets and the scale of the geometry, on every return path. -/
theorem convert_image_with_letterbox_record {σ : Type} (cfg : build_config) (hw : rga_backend σ)
    (st : σ) (uninit_src uninit_dst : Int) (malloc : Int → Option Mem)
    (src_image dst_image : image_buffer_t) (letterbox : Option letterbox_t) (color : Int) :
    (convert_image_with_letterbox cfg hw st uninit_src uninit_dst malloc src_image dst_image
        letterbox color).letterbox
      = letterbox.map (fun _ =>
          { x_pad := (letterbox_geometry src_image.width src_image.height dst_image.width
                        dst_image.height).left_offset,
            y_pad := (letterbox_geometry src_image.width src_image.height dst_image.width
                        dst_image.height).top_offset,
            scale := (letterbox_geometry src_image.width src_image.height dst_image.width
                        dst_image.height).scale }) := by
  unfold convert_image_with_letterbox
  simp only
  split_ifs
  · rfl
  · split <;> rfl
  · rfl
  · rfl

/-- The scale is the smaller of the two float ratios. -/
theorem letterbox_geometry_scale (src_w src_h dst_w dst_h : Int) :
    (letterbox_geometry src_w src_h dst_w dst_h).scale
      = if F32.div (F32.ofInt dst_w) (F32.ofInt src_w) < F32.div (F32.ofInt dst_h) (F32.ofInt src_h)
        then F32.div (F32.ofInt dst_w) (F32.ofInt src_w)
        else F32.div (F32.ofInt dst_h) (F32.ofInt src_h) := rfl

/-- The resized width before alignment. -/
theorem letterbox_geometry_resize_w0 (src_w src_h dst_w dst_h : Int) :
    (letterbox_geometry src_w src_h dst_w dst_h).resize_w0
      = if F32.div (F32.ofInt dst_w) (F32.ofInt src_w) < F32.div (F32.ofInt dst_h) (F32.ofInt src_h)
        then dst_w
        else F32.toInt (F32.mul (F32.ofInt src_w)
          (letterbox_geometry src_w src_h dst_w dst_h).scale) := by
  unfold letterbox_geometry
  simp only

/-- The resized height before alignment. -/
theorem letterbox_geometry_resize_h0 (src_w src_h dst_w dst_h : Int) :
    (letterbox_geometry src_w src_h dst_w dst_h).resize_h0
      = if F32.div (F32.ofInt dst_w) (F32.ofInt src_w) < F32.div (F32.ofInt dst_h) (F32.ofInt src_h)
        then F32.toInt (F32.mul (F32.ofInt src_h)
          (letterbox_geometry src_w src_h dst_w dst_h).scale)
        else dst_h := by
  unfold letterbox_geometry
  simp only

/-- The alignment block on the width. -/
theorem letterbox_geometry_resize_w (src_w src_h dst_w dst_h : Int) :
    (letterbox_geometry src_w src_h dst_w dst_h).resize_w
      = if (letterbox_geometry src_w src_h dst_w dst_h).resize_w0.tmod 4 ≠ 0 then
          (if (letterbox_geometry src_w src_h dst_w dst_h).resize_w0
                - (letterbox_geometry src_w src_h dst_w dst_h).resize_w0.tmod 4 < 4 ∧ dst_w ≥ 4
           then 4
           else (letterbox_geometry src_w src_h dst_w dst_h).resize_w0
                - (letterbox_geometry src_w src_h dst_w dst_h).resize_w0.tmod 4)
        else (letterbox_geometry src_w src_h dst_w dst_h).resize_w0 := rfl

/-- The alignment block on the height. -/
theorem letterbox_geometry_resize_h (src_w src_h dst_w dst_h : Int) :
    (letterbox_geometry src_w src_h dst_w dst_h).resize_h
      = if (letterbox_geometry src_w src_h dst_w dst_h).resize_h0.tmod 2 ≠ 0 then
          (if (letterbox_geometry src_w src_h dst_w dst_h).resize_h0
                - (letterbox_geometry src_w src_h dst_w dst_h).resize_h0.tmod 2 < 2 ∧ dst_h ≥ 2
           then 2
           else (letterbox_geometry src_w src_h dst_w dst_h).resize_h0
                - (letterbox_geometry src_w src_h dst_w dst_h).resize_h0.tmod 2)
        else (letterbox_geometry src_w src_h dst_w dst_h).resize_h0 := rfl

/-- The paddings are what the resized rectangle leaves of the destination. -/
theorem letterbox_geometry_padding (src_w src_h dst_w dst_h : Int) :
    (letterbox_geometry src_w src_h dst_w dst_h).padding_w
        = dst_w - (letterbox_geometry src_w src_h dst_w dst_h).resize_w
      ∧ (letterbox_geometry src_w src_h dst_w dst_h).padding_h
        = dst_h - (letterbox_geometry src_w src_h dst_w dst_h).resize_h := ⟨rfl, rfl⟩

/-- Both branches of the source compute the same offsets: half the padding,
made even by `even_offset`. -/
theorem letterbox_geometry_offsets (src_w src_h dst_w dst_h : Int) :
    (letterbox_geometry src_w src_h dst_w dst_h).left_offset
        = even_offset ((letterbox_geometry src_w src_h dst_w dst_h).padding_w.tdiv 2)
      ∧ (letterbox_geometry src_w src_h dst_w dst_h).top_offset
        = even_offset ((letterbox_geometry src_w src_h dst_w dst_h).padding_h.tdiv 2) := by
  unfold letterbox_geometry
  simp only
  split_ifs <;> exact ⟨rfl, rfl⟩

/-- The destination rectangle in terms of the offsets and the resized size. -/
theorem letterbox_geometry_dst_box (src_w src_h dst_w dst_h : Int) :
    (letterbox_geometry src_w src_h dst_w dst_h).dst_box
      = { left := (letterbox_geometry src_w src_h dst_w dst_h).left_offset
          top := (letterbox_geometry src_w src_h dst_w dst_h).top_offset
          right := (letterbox_geometry src_w src_h dst_w dst_h).left_offset
            + (letterbox_geometry src_w src_h dst_w dst_h).resize_w - 1
          bottom := (letterbox_geometry src_w src_h dst_w dst_h).top_offset
            + (letterbox_geometry src_w src_h dst_w dst_h).resize_h - 1 } := rfl

theorem image_of_width (width height : Int) (format : image_format_t) (bytes : Mem) :
    (image_of width height format bytes).width = width := rfl

theorem image_of_height (width height : Int) (format : image_format_t) (bytes : Mem) :
    (image_of width height format bytes).height = height := rfl

/-- The two scales of the 640x480 to 300x300 example: 300/640 is the float
15/32 and 300/480 the float 5/8; 480 times 15/32 is 225. -/
theorem scales_640_480_300 :
    F32.div (F32.ofInt 300) (F32.ofInt 640) = 15 / 32
      ∧ F32.div (F32.ofInt 300) (F32.ofInt 480) = 5 / 8
      ∧ F32.toInt (F32.mul (F32.ofInt 480) (15 / 32)) = 225 := by
  have h300 : F32.ofInt 300 = 300 := by
    rw [F32.ofInt_eq 300 (by norm_num) (by norm_num)]; norm_num
  have h640 : F32.ofInt 640 = 640 := by
    rw [F32.ofInt_eq 640 (by norm_num) (by norm_num)]; norm_num
  have h480 : F32.ofInt 480 = 480 := by
    rw [F32.ofInt_eq 480 (by norm_num) (by norm_num)]; norm_num
  refine ⟨?_, ?_, ?_⟩
  · rw [h300, h640]
    unfold F32.div
    rw [show ((300 : ℚ) / 640) = 15 / 32 by norm_num]
    exact F32.rnd_eq_self (15 / 32) 15 (-5) (by norm_num) (by norm_num [abs_of_pos])
      (by norm_num)
  · rw [h300, h480]
    unfold F32.div
    rw [show ((300 : ℚ) / 480) = 5 / 8 by norm_num]
    exact F32.rnd_eq_self (5 / 8) 5 (-3) (by norm_num) (by norm_num [abs_of_pos])
      (by norm_num)
  · rw [h480]
    unfold F32.mul
    rw [show ((480 : ℚ) * (15 / 32)) = ((225 : Int) : ℚ) by norm_num,
      F32.rnd_intCast 225 (by norm_num [abs_of_pos])]
    exact F32.toInt_intCast 225

/-- The fields of the geometry of the 640x480 to 300x300 example. -/
theorem letterbox_geometry_640_480_300_300 :
    (letterbox_geometry 640 480 300 300).scale = 15 / 32
      ∧ (letterbox_geometry 640 480 300 300).resize_w0 = 300
      ∧ (letterbox_geometry 640 480 300 300).resize_h0 = 225
      ∧ (letterbox_geometry 640 480 300 300).resize_w = 300
      ∧ (letterbox_geometry 640 480 300 300).resize_h = 224
      ∧ (letterbox_geometry 640 480 300 300).padding_w = 0
      ∧ (letterbox_geometry 640 480 300 300).padding_h = 76
      ∧ (letterbox_geometry 640 480 300 300).left_offset = 0
      ∧ (letterbox_geometry 640 480 300 300).top_offset = 38
      ∧ (letterbox_geometry 640 480 300 300).dst_box
          = { left := 0, top := 38, right := 299, bottom := 261 } := by
  obtain ⟨hw, hh, hm⟩ := scales_640_480_300
  have hlt : ((15 : ℚ) / 32 < 5 / 8) := by norm_num
  have hs : (letterbox_geometry 640 480 300 300).scale = 15 / 32 := by
    rw [letterbox_geometry_scale, hw, hh, if_pos hlt]
  have hw0 : (letterbox_geometry 640 480 300 300).resize_w0 = 300 := by
    rw [letterbox_geometry_resize_w0, hw, hh, if_pos hlt]
  have hh0 : (letterbox_geometry 640 480 300 300).resize_h0 = 225 := by
    rw [letterbox_geometry_resize_h0, hw, hh, if_pos hlt, hs, hm]
  have hrw : (letterbox_geometry 640 480 300 300).resize_w = 300 := by
    rw [letterbox_geometry_resize_w, hw0]; decide
  have hrh : (letterbox_geometry 640 480 300 300).resize_h = 224 := by
    rw [letterbox_geometry_resize_h, hh0]; decide
  have hpw : (letterbox_geometry 640 480 300 300).padding_w = 0 := by
    rw [(letterbox_geometry_padding 640 480 300 300).1, hrw]; decide
  have hph : (letterbox_geometry 640 480 300 300).padding_h = 76 := by
    rw [(letterbox_geometry_padding 640 480 300 300).2, hrh]; decide
  have hl : (letterbox_geometry 640 480 300 300).left_offset = 0 := by
    rw [(letterbox_geometry_offsets 640 480 300 300).1, hpw]; decide
  have ht : (letterbox_geometry 640 480 300 300).top_offset = 38 := by
    rw [(letterbox_geometry_offsets 640 480 300 300).2, hph]; decide
  refine ⟨hs, hw0, hh0, hrw, hrh, hpw, hph, hl, ht, ?_⟩
  rw [letterbox_geometry_dst_box, hl, ht, hrw, hrh]
  decide

/-- Claim C11: for a 640x480 source and a 300x300 destination the letterbox
computation takes the scale 300/640 = 0.46875 (the smaller of the two ratios),
the resized size before alignment is 300 by 225, the destination rectangle
spans the full width (left 0, right 299), the padding is on the vertical axis
only (none across, 76 rows down after alignment) and the x padding reported
in the letterbox record is 0. -/
theorem letterbox_example_640_480_300_300 :
    (letterbox_geometry 640 480 300 300).scale = 300 / 640
      ∧ (letterbox_geometry 640 480 300 300).scale = 46875 / 100000
      ∧ (letterbox_geometry 640 480 300 300).resize_w0 = 300
      ∧ (letterbox_geometry 640 480 300 300).resize_h0 = 225
      ∧ (letterbox_geometry 640 480 300 300).dst_box.left = 0
      ∧ (letterbox_geometry 640 480 300 300).dst_box.right = 299
      ∧ (letterbox_geometry 640 480 300 300).padding_w = 0
      ∧ 0 < (letterbox_geometry 640 480 300 300).padding_h
      ∧ (letterbox_geometry 640 480 300 300).left_offset = 0
      ∧ ((convert_image_with_letterbox rga_build failing_backend () 0 0 failing_malloc
            (image_of 640 480 IMAGE_FORMAT_RGB888 ramp_bytes)
            (image_of 300 300 IMAGE_FORMAT_RGB888 ramp_bytes)
            (some { x_pad := 7, y_pad := 7, scale := 7 }) 114).letterbox.map
              (fun r => r.x_pad)) = some 0 := by
  obtain ⟨hs, hw0, hh0, _, _, hpw, hph, hl, _, hb⟩ := letterbox_geometry_640_480_300_300
  refine ⟨by rw [hs]; norm_num, by rw [hs]; norm_num, hw0, hh0, by rw [hb], by rw [hb], hpw,
    by rw [hph]; decide, hl, ?_⟩
  rw [convert_image_with_letterbox_record, image_of_width, image_of_height, image_of_width,
    image_of_height, Option.map_some', Option.map_some', hl]

/-- Subtracting the truncated remainder leaves a multiple of the divisor,
whatever the sign of the dividend. -/
theorem sub_tmod_emod (r n : Int) : (r - r.tmod n) % n = 0 := by
  have h := Int.tdiv_add_tmod r n
  have h2 : r - r.tmod n = n * r.tdiv n := by omega
  rw [h2]
  exact Int.mul_emod_right n (r.tdiv n)

/-- A zero truncated remainder is a zero remainder. -/
theorem emod_of_tmod_eq_zero (r n : Int) (h : r.tmod n = 0) : r % n = 0 := by
  have h2 := sub_tmod_emod r n
  rw [h] at h2
  simpa using h2

/-- After the alignment block the resized width is a multiple of 4 and the
resized height a multiple of 2, for all four dimensions. -/
theorem letterbox_geometry_resize_aligned (src_w src_h dst_w dst_h : Int) :
    (letterbox_geometry src_w src_h dst_w dst_h).resize_w % 4 = 0
      ∧ (letterbox_geometry src_w src_h dst_w dst_h).resize_h % 2 = 0 := by
  constructor
  · rw [letterbox_geometry_resize_w]
    split_ifs with h1 h2
    · decide
    · exact sub_tmod_emod _ 4
    · exact emod_of_tmod_eq_zero _ 4 (not_not.mp h1)
  · rw [letterbox_geometry_resize_h]
    split_ifs with h1 h2
    · decide
    · exact sub_tmod_emod _ 2
    · exact emod_of_tmod_eq_zero _ 2 (not_not.mp h1)

/-- Claim C13: for all source and destination dimensions (the positive ones
in particular) the destination rectangle computed by
`convert_image_with_letterbox` has a width `right - left + 1` that is a
multiple of 4 and a height `bottom - top + 1` that is a multiple of 2. -/
theorem letterbox_rect_aligned (src_w src_h dst_w dst_h : Int) :
    ((letterbox_geometry src_w src_h dst_w dst_h).dst_box.right
        - (letterbox_geometry src_w src_h dst_w dst_h).dst_box.left + 1) % 4 = 0
      ∧ ((letterbox_geometry src_w src_h dst_w dst_h).dst_box.bottom
        - (letterbox_geometry src_w src_h dst_w dst_h).dst_box.top + 1) % 2 = 0 := by
  have h := letterbox_geometry_resize_aligned src_w src_h dst_w dst_h
  rw [letterbox_geometry_dst_box]
  simp only
  constructor
  · have e : (letterbox_geometry src_w src_h dst_w dst_h).left_offset
        + (letterbox_geometry src_w src_h dst_w dst_h).resize_w - 1
        - (letterbox_geometry src_w src_h dst_w dst_h).left_offset + 1
        = (letterbox_geometry src_w src_h dst_w dst_h).resize_w := by ring
    rw [e]; exact h.1
  · have e : (letterbox_geometry src_w src_h dst_w dst_h).top_offset
        + (letterbox_geometry src_w src_h dst_w dst_h).resize_h - 1
        - (letterbox_geometry src_w src_h dst_w dst_h).top_offset + 1
        = (letterbox_geometry src_w src_h dst_w dst_h).resize_h := by ring
    rw [e]; exact h.2

/-- The fields of the geometry of a 3x3 source letterboxed into a 3x3
destination: the width 3 is rounded down to 0 and, the destination being
narrower than 4, stays 0. -/
theorem letterbox_geometry_3_3_3_3 :
    (letterbox_geometry 3 3 3 3).resize_w0 = 3
      ∧ (letterbox_geometry 3 3 3 3).resize_w = 0
      ∧ (letterbox_geometry 3 3 3 3).dst_box
          = { left := 0, top := 0, right := -1, bottom := 1 } := by
  have h1 : F32.div (F32.ofInt 3) (F32.ofInt 3) = 1 := F32.div_ofInt_self 3 (by norm_num)
  have hnlt : ¬ ((1 : ℚ) < 1) := by norm_num
  have h3 : F32.ofInt 3 = 3 := by
    rw [F32.ofInt_eq 3 (by norm_num) (by norm_num)]; norm_num
  have hm : F32.toInt (F32.mul (F32.ofInt 3) 1) = 3 := by
    rw [h3]
    unfold F32.mul
    rw [show ((3 : ℚ) * 1) = ((3 : Int) : ℚ) by norm_num,
      F32.rnd_intCast 3 (by norm_num [abs_of_pos])]
    exact F32.toInt_intCast 3
  have hs : (letterbox_geometry 3 3 3 3).scale = 1 := by
    rw [letterbox_geometry_scale, h1, if_neg hnlt]
  have hw0 : (letterbox_geometry 3 3 3 3).resize_w0 = 3 := by
    rw [letterbox_geometry_resize_w0, h1, if_neg hnlt, hs, hm]
  have hh0 : (letterbox_geometry 3 3 3 3).resize_h0 = 3 := by
    rw [letterbox_geometry_resize_h0, h1, if_neg hnlt]
  have hrw : (letterbox_geometry 3 3 3 3).resize_w = 0 := by
    rw [letterbox_geometry_resize_w, hw0]; decide
  have hrh : (letterbox_geometry 3 3 3 3).resize_h = 2 := by
    rw [letterbox_geometry_resize_h, hh0]; decide
  have hl : (letterbox_geometry 3 3 3 3).left_offset = 0 := by
    rw [(letterbox_geometry_offsets 3 3 3 3).1, (letterbox_geometry_padding 3 3 3 3).1, hrw]
    decide
  have ht : (letterbox_geometry 3 3 3 3).top_offset = 0 := by
    rw [(letterbox_geometry_offsets 3 3 3 3).2, (letterbox_geometry_padding 3 3 3 3).2, hrh]
    decide
  refine ⟨hw0, hrw, ?_⟩
  rw [letterbox_geometry_dst_box, hl, ht, hrw, hrh]
  decide

/-- An 8x1 source letterboxed into a 4x4 destination: the scale is 1/2, the
resized height `(int)(1 * 0.5)` is 0, which is even, so the alignment block
and with it the minimum of 2 is skipped: the rectangle has top 2 and bottom 1
although the destination is 4 high. -/
theorem letterbox_geometry_8_1_4_4 :
    (letterbox_geometry 8 1 4 4).resize_h0 = 0
      ∧ (letterbox_geometry 8 1 4 4).resize_h = 0
      ∧ (letterbox_geometry 8 1 4 4).dst_box
          = { left := 0, top := 2, right := 3, bottom := 1 } := by
  have h4 : F32.ofInt 4 = 4 := by
    rw [F32.ofInt_eq 4 (by norm_num) (by norm_num)]; norm_num
  have h8 : F32.ofInt 8 = 8 := by
    rw [F32.ofInt_eq 8 (by norm_num) (by norm_num)]; norm_num
  have h1 : F32.ofInt 1 = 1 := by
    rw [F32.ofInt_eq 1 (by norm_num) (by norm_num)]; norm_num
  have hsw : F32.div (F32.ofInt 4) (F32.ofInt 8) = 1 / 2 := by
    rw [h4, h8]
    unfold F32.div
    rw [show ((4 : ℚ) / 8) = 1 / 2 by norm_num]
    exact F32.rnd_eq_self (1 / 2) 1 (-1) (by norm_num) (by norm_num [abs_of_pos])
      (by norm_num)
  have hsh : F32.div (F32.ofInt 4) (F32.ofInt 1) = 4 := by
    rw [h4, h1]
    unfold F32.div
    rw [show ((4 : ℚ) / 1) = ((4 : Int) : ℚ) by norm_num,
      F32.rnd_intCast 4 (by norm_num [abs_of_pos])]
    norm_num
  have hlt : ((1 : ℚ) / 2 < 4) := by norm_num
  have hm : F32.toInt (F32.mul (F32.ofInt 1) (1 / 2)) = 0 := by
    rw [h1]
    unfold F32.mul
    rw [show ((1 : ℚ) * (1 / 2)) = 1 / 2 by norm_num,
      F32.rnd_eq_self (1 / 2) 1 (-1) (by norm_num) (by norm_num [abs_of_pos]) (by norm_num)]
    unfold F32.toInt
    rw [if_pos (by norm_num)]
    rw [Int.floor_eq_iff]
    norm_num
  have hs : (letterbox_geometry 8 1 4 4).scale = 1 / 2 := by
    rw [letterbox_geometry_scale, hsw, hsh, if_pos hlt]
  have hw0 : (letterbox_geometry 8 1 4 4).resize_w0 = 4 := by
    rw [letterbox_geometry_resize_w0, hsw, hsh, if_pos hlt]
  have hh0 : (letterbox_geometry 8 1 4 4).resize_h0 = 0 := by
    rw [letterbox_geometry_resize_h0, hsw, hsh, if_pos hlt, hs, hm]
  have hrw : (letterbox_geometry 8 1 4 4).resize_w = 4 := by
    rw [letterbox_geometry_resize_w, hw0]; decide
  have hrh : (letterbox_geometry 8 1 4 4).resize_h = 0 := by
    rw [letterbox_geometry_resize_h, hh0]; decide
  have hl : (letterbox_geometry 8 1 4 4).left_offset = 0 := by
    rw [(letterbox_geometry_offsets 8 1 4 4).1, (letterbox_geometry_padding 8 1 4 4).1, hrw]
    decide
  have ht : (letterbox_geometry 8 1 4 4).top_offset = 2 := by
    rw [(letterbox_geometry_offsets 8 1 4 4).2, (letterbox_geometry_padding 8 1 4 4).2, hrh]
    decide
  refine ⟨hh0, hrh, ?_⟩
  rw [letterbox_geometry_dst_box, hl, ht, hrw, hrh]
  decide

/-- Claim C14, counterexample: a 3x3 source letterboxed into a 3x3 destination
(all four dimensions positive) gets the destination rectangle left 0, top 0,
right -1, bottom 1: its right edge is left of its left edge, the rectangle is
empty.  The width 3 is rounded down to the multiple of four 0, and the source
restores the minimum of 4 only under the guard `dst_w >= 4`. -/
theorem letterbox_rect_empty_narrow_dst :
    (0 : Int) < 3
      ∧ (letterbox_geometry 3 3 3 3).dst_box = { left := 0, top := 0, right := -1, bottom := 1 }
      ∧ ¬ ((letterbox_geometry 3 3 3 3).dst_box.left
            ≤ (letterbox_geometry 3 3 3 3).dst_box.right) := by
  obtain ⟨_, _, hb⟩ := letterbox_geometry_3_3_3_3
  refine ⟨by decide, hb, ?_⟩
  rw [hb]
  decide

/-- Claim C14, as the code has it: on each axis the minimum size is restored
where the source guards it.  When the destination is at least 4 wide and the
resized width before alignment is at least 1, the rectangle is at least 4 wide
and so `left <= right`; when the destination is at least 2 high and the
resized height before alignment is at least 1, the rectangle is at least 2
high and so `top <= bottom`. -/
theorem letterbox_rect_minimum_size (src_w src_h dst_w dst_h : Int) :
    (4 ≤ dst_w → 1 ≤ (letterbox_geometry src_w src_h dst_w dst_h).resize_w0 →
        (letterbox_geometry src_w src_h dst_w dst_h).dst_box.left
            ≤ (letterbox_geometry src_w src_h dst_w dst_h).dst_box.right
          ∧ 4 ≤ (letterbox_geometry src_w src_h dst_w dst_h).dst_box.right
              - (letterbox_geometry src_w src_h dst_w dst_h).dst_box.left + 1)
      ∧ (2 ≤ dst_h → 1 ≤ (letterbox_geometry src_w src_h dst_w dst_h).resize_h0 →
        (letterbox_geometry src_w src_h dst_w dst_h).dst_box.top
            ≤ (letterbox_geometry src_w src_h dst_w dst_h).dst_box.bottom
          ∧ 2 ≤ (letterbox_geometry src_w src_h dst_w dst_h).dst_box.bottom
              - (letterbox_geometry src_w src_h dst_w dst_h).dst_box.top + 1) := by
  constructor
  · intro hd h0
    have hr : 4 ≤ (letterbox_geometry src_w src_h dst_w dst_h).resize_w := by
      rw [letterbox_geometry_resize_w]
      split_ifs with h1 h2
      · exact le_refl 4
      · rw [not_and_or] at h2
        rcases h2 with h2 | h2
        · omega
        · exact absurd hd h2
      · have := emod_of_tmod_eq_zero _ 4 (not_not.mp h1)
        omega
    rw [letterbox_geometry_dst_box]
    simp only
    constructor <;> omega
  · intro hd h0
    have hr : 2 ≤ (letterbox_geometry src_w src_h dst_w dst_h).resize_h := by
      rw [letterbox_geometry_resize_h]
      split_ifs with h1 h2
      · exact le_refl 2
      · rw [not_and_or] at h2
        rcases h2 with h2 | h2
        · omega
        · exact absurd hd h2
      · have := emod_of_tmod_eq_zero _ 2 (not_not.mp h1)
        omega
    rw [letterbox_geometry_dst_box]
    simp only
    constructor <;> omega

/-- Claim C14, instance: the 640x480 to 300x300 example meets both guards and
its rectangle is 300 wide and 224 high. -/
theorem letterbox_rect_minimum_size_witness :
    ((letterbox_geometry 640 480 300 300).dst_box.left
          ≤ (letterbox_geometry 640 480 300 300).dst_box.right
        ∧ 4 ≤ (letterbox_geometry 640 480 300 300).dst_box.right
            - (letterbox_geometry 640 480 300 300).dst_box.left + 1)
      ∧ ((letterbox_geometry 640 480 300 300).dst_box.top
          ≤ (letterbox_geometry 640 480 300 300).dst_box.bottom
        ∧ 2 ≤ (letterbox_geometry 640 480 300 300).dst_box.bottom
            - (letterbox_geometry 640 480 300 300).dst_box.top + 1) :=
  ⟨(letterbox_rect_minimum_size 640 480 300 300).1 (by decide)
      (by rw [letterbox_geometry_640_480_300_300.2.1]; decide),
    (letterbox_rect_minimum_size 640 480 300 300).2 (by decide)
      (by rw [letterbox_geometry_640_480_300_300.2.2.1]; decide)⟩

/-- On a non-negative value `even_offset` is rounding down to an even number,
and the result is between zero and the value. -/
theorem even_offset_of_nonneg (v : Int) (h : 0 ≤ v) :
    even_offset v = 2 * (v / 2) ∧ 0 ≤ even_offset v ∧ even_offset v ≤ v := by
  unfold even_offset
  rw [Int.tmod_eq_emod h (by norm_num)]
  split_ifs <;> omega

/-- For positive dimensions in the `int` range and a destination below 2^23
on both axes, the resized size before alignment is between zero and the
destination size: the float scale never overshoots by a whole pixel. -/
theorem letterbox_geometry_resize0_bounds (src_w src_h dst_w dst_h : Int)
    (hsw : 0 < src_w) (hsw1 : src_w ≤ 2147483647) (hsh : 0 < src_h) (hsh1 : src_h ≤ 2147483647)
    (hdw : 0 < dst_w) (hdw1 : dst_w ≤ 8388607) (hdh : 0 < dst_h) (hdh1 : dst_h ≤ 8388607) :
    (0 ≤ (letterbox_geometry src_w src_h dst_w dst_h).resize_w0
        ∧ (letterbox_geometry src_w src_h dst_w dst_h).resize_w0 ≤ dst_w)
      ∧ (0 ≤ (letterbox_geometry src_w src_h dst_w dst_h).resize_h0
        ∧ (letterbox_geometry src_w src_h dst_w dst_h).resize_h0 ≤ dst_h) := by
  have hqw : 0 ≤ F32.div (F32.ofInt dst_w) (F32.ofInt src_w) :=
    F32.rnd_nonneg _ (div_nonneg (F32.ofInt_pos dst_w hdw).le (F32.ofInt_pos src_w hsw).le)
  have hqh : 0 ≤ F32.div (F32.ofInt dst_h) (F32.ofInt src_h) :=
    F32.rnd_nonneg _ (div_nonneg (F32.ofInt_pos dst_h hdh).le (F32.ofInt_pos src_h hsh).le)
  rw [letterbox_geometry_resize_w0, letterbox_geometry_resize_h0, letterbox_geometry_scale]
  split_ifs with hlt
  · exact ⟨⟨hdw.le, le_refl _⟩,
      F32.toInt_mul_ratio_le src_h dst_h _ hsh hsh1 hdh hdh1 hqw hlt.le⟩
  · exact ⟨F32.toInt_mul_ratio_le src_w dst_w _ hsw hsw1 hdw hdw1 hqh (not_lt.mp hlt),
      ⟨hdh.le, le_refl _⟩⟩

/-- The alignment block keeps a resized size that is between zero and the
destination size in that range. -/
theorem letterbox_geometry_resize_bounds (src_w src_h dst_w dst_h : Int)
    (hw : 0 ≤ (letterbox_geometry src_w src_h dst_w dst_h).resize_w0
        ∧ (letterbox_geometry src_w src_h dst_w dst_h).resize_w0 ≤ dst_w)
    (hh : 0 ≤ (letterbox_geometry src_w src_h dst_w dst_h).resize_h0
        ∧ (letterbox_geometry src_w src_h dst_w dst_h).resize_h0 ≤ dst_h) :
    (0 ≤ (letterbox_geometry src_w src_h dst_w dst_h).resize_w
        ∧ (letterbox_geometry src_w src_h dst_w dst_h).resize_w ≤ dst_w)
      ∧ (0 ≤ (letterbox_geometry src_w src_h dst_w dst_h).resize_h
        ∧ (letterbox_geometry src_w src_h dst_w dst_h).resize_h ≤ dst_h) := by
  rw [letterbox_geometry_resize_w, letterbox_geometry_resize_h,
    Int.tmod_eq_emod hw.1 (by norm_num), Int.tmod_eq_emod hh.1 (by norm_num)]
  constructor
  · split_ifs <;> omega
  · split_ifs <;> omega

/-- When the aligned resized size is between zero and the destination size,
the rectangle lies inside the destination and the offsets are half the
padding rounded down to an even number. -/
theorem letterbox_geometry_inside_of_resize (src_w src_h dst_w dst_h : Int)
    (hw : 0 ≤ (letterbox_geometry src_w src_h dst_w dst_h).resize_w
        ∧ (letterbox_geometry src_w src_h dst_w dst_h).resize_w ≤ dst_w)
    (hh : 0 ≤ (letterbox_geometry src_w src_h dst_w dst_h).resize_h
        ∧ (letterbox_geometry src_w src_h dst_w dst_h).resize_h ≤ dst_h) :
    (0 ≤ (letterbox_geometry src_w src_h dst_w dst_h).padding_w
      ∧ (letterbox_geometry src_w src_h dst_w dst_h).left_offset
          = 2 * ((letterbox_geometry src_w src_h dst_w dst_h).padding_w.tdiv 2 / 2)
      ∧ 0 ≤ (letterbox_geometry src_w src_h dst_w dst_h).left_offset
      ∧ (letterbox_geometry src_w src_h dst_w dst_h).left_offset
          + (letterbox_geometry src_w src_h dst_w dst_h).resize_w ≤ dst_w)
    ∧ (0 ≤ (letterbox_geometry src_w src_h dst_w dst_h).padding_h
      ∧ (letterbox_geometry src_w src_h dst_w dst_h).top_offset
          = 2 * ((letterbox_geometry src_w src_h dst_w dst_h).padding_h.tdiv 2 / 2)
      ∧ 0 ≤ (letterbox_geometry src_w src_h dst_w dst_h).top_offset
      ∧ (letterbox_geometry src_w src_h dst_w dst_h).top_offset
          + (letterbox_geometry src_w src_h dst_w dst_h).resize_h ≤ dst_h) := by
  obtain ⟨hpw, hph⟩ := letterbox_geometry_padding src_w src_h dst_w dst_h
  obtain ⟨hl, ht⟩ := letterbox_geometry_offsets src_w src_h dst_w dst_h
  have pw0 : 0 ≤ (letterbox_geometry src_w src_h dst_w dst_h).padding_w := by omega
  have ph0 : 0 ≤ (letterbox_geometry src_w src_h dst_w dst_h).padding_h := by omega
  have tw := tdiv_two_of_nonneg _ pw0
  have th := tdiv_two_of_nonneg _ ph0
  obtain ⟨a1, a2, a3⟩ := even_offset_of_nonneg
    ((letterbox_geometry src_w src_h dst_w dst_h).padding_w.tdiv 2) (by omega)
  obtain ⟨b1, b2, b3⟩ := even_offset_of_nonneg
    ((letterbox_geometry src_w src_h dst_w dst_h).padding_h.tdiv 2) (by omega)
  rw [← hl] at a1 a2 a3
  rw [← ht] at b1 b2 b3
  refine ⟨⟨pw0, a1, a2, ?_⟩, ⟨ph0, b1, b2, ?_⟩⟩
  · omega
  · omega

/-- Claim C12, for destinations below 2^23 pixels on each axis: for positive
`int` source dimensions and positive destination dimensions of at most
8388607, the destination rectangle computed by `convert_image_with_letterbox`
lies inside the destination (`left >= 0`, `top >= 0`, `right <= dstW - 1`,
`bottom <= dstH - 1`) and the padding offsets written to the letterbox record
are both non-negative. -/
theorem letterbox_rect_inside {σ : Type} (cfg : build_config) (hw : rga_backend σ) (st : σ)
    (uninit_src uninit_dst : Int) (malloc : Int → Option Mem)
    (src_image dst_image : image_buffer_t) (r : letterbox_t) (color : Int)
    (hsw : 0 < src_image.width) (hsw1 : src_image.width ≤ 2147483647)
    (hsh : 0 < src_image.height) (hsh1 : src_image.height ≤ 2147483647)
    (hdw : 0 < dst_image.width) (hdw1 : dst_image.width ≤ 8388607)
    (hdh : 0 < dst_image.height) (hdh1 : dst_image.height ≤ 8388607) :
    0 ≤ (letterbox_geometry src_image.width src_image.height dst_image.width
          dst_image.height).dst_box.left
      ∧ 0 ≤ (letterbox_geometry src_image.width src_image.height dst_image.width
          dst_image.height).dst_box.top
      ∧ (letterbox_geometry src_image.width src_image.height dst_image.width
          dst_image.height).dst_box.right ≤ dst_image.width - 1
      ∧ (letterbox_geometry src_image.width src_image.height dst_image.width
          dst_image.height).dst_box.bottom ≤ dst_image.height - 1
      ∧ ∃ lb : letterbox_t,
          (convert_image_with_letterbox cfg hw st uninit_src uninit_dst malloc src_image
              dst_image (some r) color).letterbox = some lb
            ∧ 0 ≤ lb.x_pad ∧ 0 ≤ lb.y_pad := by
  obtain ⟨h0w, h0h⟩ := letterbox_geometry_resize0_bounds _ _ _ _ hsw hsw1 hsh hsh1 hdw hdw1
    hdh hdh1
  obtain ⟨hrw, hrh⟩ := letterbox_geometry_resize_bounds _ _ _ _ h0w h0h
  obtain ⟨⟨_, _, l0, l1⟩, ⟨_, _, t0, t1⟩⟩ := letterbox_geometry_inside_of_resize _ _ _ _ hrw hrh
  rw [letterbox_geometry_dst_box, convert_image_with_letterbox_record]
  simp only
  refine ⟨l0, t0, ?_, ?_, ⟨_, rfl, l0, t0⟩⟩
  · omega
  · omega

/-- Claim C12, instance: the 640x480 to 300x300 example is in the range of
the theorem. -/
theorem letterbox_rect_inside_witness :
    0 ≤ (letterbox_geometry 640 480 300 300).dst_box.left
      ∧ 0 ≤ (letterbox_geometry 640 480 300 300).dst_box.top
      ∧ (letterbox_geometry 640 480 300 300).dst_box.right ≤ 300 - 1
      ∧ (letterbox_geometry 640 480 300 300).dst_box.bottom ≤ 300 - 1
      ∧ ∃ lb : letterbox_t,
          (convert_image_with_letterbox rga_build failing_backend () 0 0 failing_malloc
              (image_of 640 480 IMAGE_FORMAT_RGB888 ramp_bytes)
              (image_of 300 300 IMAGE_FORMAT_RGB888 ramp_bytes)
              (some { x_pad := 7, y_pad := 7, scale := 7 }) 114).letterbox = some lb
            ∧ 0 ≤ lb.x_pad ∧ 0 ≤ lb.y_pad :=
  letterbox_rect_inside rga_build failing_backend () 0 0 failing_malloc
    (image_of 640 480 IMAGE_FORMAT_RGB888 ramp_bytes)
    (image_of 300 300 IMAGE_FORMAT_RGB888 ramp_bytes)
    { x_pad := 7, y_pad := 7, scale := 7 } 114
    (by decide) (by decide) (by decide) (by decide) (by decide) (by decide) (by decide)
    (by decide)

/-- Claim C15, for paddings that are not negative: whichever axis binds,
`left` is `padding_w / 2` (C division) rounded down to an even number whenever
`padding_w = dstW - (right - left + 1)` is not negative, and `top` is
`padding_h / 2` rounded down to an even number whenever
`padding_h = dstH - (bottom - top + 1)` is not negative; the letterbox record
reports `x_pad = left` and `y_pad = top`.  Both paddings are non-negative for
positive `int` source dimensions and positive destination dimensions of at
most 8388607. -/
theorem letterbox_offsets_even_half_padding {σ : Type} (cfg : build_config)
    (hw : rga_backend σ) (st : σ)
    (uninit_src uninit_dst : Int) (malloc : Int → Option Mem)
    (src_image dst_image : image_buffer_t) (r : letterbox_t) (color : Int) :
    (0 ≤ (letterbox_geometry src_image.width src_image.height dst_image.width
            dst_image.height).padding_w →
        (letterbox_geometry src_image.width src_image.height dst_image.width
            dst_image.height).dst_box.left
          = 2 * ((letterbox_geometry src_image.width src_image.height dst_image.width
              dst_image.height).padding_w.tdiv 2 / 2))
      ∧ (0 ≤ (letterbox_geometry src_image.width src_image.height dst_image.width
            dst_image.height).padding_h →
        (letterbox_geometry src_image.width src_image.height dst_image.width
            dst_image.height).dst_box.top
          = 2 * ((letterbox_geometry src_image.width src_image.height dst_image.width
              dst_image.height).padding_h.tdiv 2 / 2))
      ∧ (letterbox_geometry src_image.width src_image.height dst_image.width
          dst_image.height).padding_w
        = dst_image.width
          - ((letterbox_geometry src_image.width src_image.height dst_image.width
                dst_image.height).dst_box.right
             - (letterbox_geometry src_image.width src_image.height dst_image.width
                dst_image.height).dst_box.left + 1)
      ∧ (letterbox_geometry src_image.width src_image.height dst_image.width
          dst_image.height).padding_h
        = dst_image.height
          - ((letterbox_geometry src_image.width src_image.height dst_image.width
                dst_image.height).dst_box.bottom
             - (letterbox_geometry src_image.width src_image.height dst_image.width
                dst_image.height).dst_box.top + 1)
      ∧ (0 < src_image.width ∧ src_image.width ≤ 2147483647
          ∧ 0 < src_image.height ∧ src_image.height ≤ 2147483647
          ∧ 0 < dst_image.width ∧ dst_image.width ≤ 8388607
          ∧ 0 < dst_image.height ∧ dst_image.height ≤ 8388607 →
        0 ≤ (letterbox_geometry src_image.width src_image.height dst_image.width
            dst_image.height).padding_w
          ∧ 0 ≤ (letterbox_geometry src_image.width src_image.height dst_image.width
            dst_image.height).padding_h)
      ∧ ∃ lb : letterbox_t,
          (convert_image_with_letterbox cfg hw st uninit_src uninit_dst malloc src_image
              dst_image (some r) color).letterbox = some lb
            ∧ lb.x_pad = (letterbox_geometry src_image.width src_image.height dst_image.width
                dst_image.height).dst_box.left
            ∧ lb.y_pad = (letterbox_geometry src_image.width src_image.height dst_image.width
                dst_image.height).dst_box.top := by
  obtain ⟨hpw, hph⟩ := letterbox_geometry_padding src_image.width src_image.height
    dst_image.width dst_image.height
  obtain ⟨hl, ht⟩ := letterbox_geometry_offsets src_image.width src_image.height
    dst_image.width dst_image.height
  rw [letterbox_geometry_dst_box, convert_image_with_letterbox_record]
  simp only
  refine ⟨?_, ?_, ?_, ?_, ?_, ⟨_, rfl, rfl, rfl⟩⟩
  · intro h0
    rw [hl]
    exact (even_offset_of_nonneg _ (by rw [tdiv_two_of_nonneg _ h0]; omega)).1
  · intro h0
    rw [ht]
    exact (even_offset_of_nonneg _ (by rw [tdiv_two_of_nonneg _ h0]; omega)).1
  · omega
  · omega
  · rintro ⟨hsw, hsw1, hsh, hsh1, hdw, hdw1, hdh, hdh1⟩
    obtain ⟨h0w, h0h⟩ := letterbox_geometry_resize0_bounds _ _ _ _ hsw hsw1 hsh hsh1 hdw hdw1
      hdh hdh1
    obtain ⟨hrw, hrh⟩ := letterbox_geometry_resize_bounds _ _ _ _ h0w h0h
    obtain ⟨⟨pw0, _, _, _⟩, ⟨ph0, _, _, _⟩⟩ :=
      letterbox_geometry_inside_of_resize _ _ _ _ hrw hrh
    exact ⟨pw0, ph0⟩

/-- Claim C15, instance: in the 640x480 to 300x300 example the paddings are 0
and 76 and the offsets 0 and 38. -/
theorem letterbox_offsets_even_half_padding_witness :
    (letterbox_geometry 640 480 300 300).dst_box.left
        = 2 * ((letterbox_geometry 640 480 300 300).padding_w.tdiv 2 / 2)
      ∧ (letterbox_geometry 640 480 300 300).dst_box.top
        = 2 * ((letterbox_geometry 640 480 300 300).padding_h.tdiv 2 / 2)
      ∧ (letterbox_geometry 640 480 300 300).dst_box.top = 38
      ∧ (letterbox_geometry 640 480 300 300).padding_h = 76 :=
  ⟨(letterbox_offsets_even_half_padding rga_build failing_backend () 0 0 failing_malloc
      (image_of 640 480 IMAGE_FORMAT_RGB888 ramp_bytes)
      (image_of 300 300 IMAGE_FORMAT_RGB888 ramp_bytes)
      { x_pad := 7, y_pad := 7, scale := 7 } 114).1
      (le_of_eq letterbox_geometry_640_480_300_300.2.2.2.2.2.1.symm),
   (letterbox_offsets_even_half_padding rga_build failing_backend () 0 0 failing_malloc
      (image_of 640 480 IMAGE_FORMAT_RGB888 ramp_bytes)
      (image_of 300 300 IMAGE_FORMAT_RGB888 ramp_bytes)
      { x_pad := 7, y_pad := 7, scale := 7 } 114).2.1
      (by rw [show (letterbox_geometry (image_of 640 480 IMAGE_FORMAT_RGB888 ramp_bytes).width
            (image_of 640 480 IMAGE_FORMAT_RGB888 ramp_bytes).height
            (image_of 300 300 IMAGE_FORMAT_RGB888 ramp_bytes).width
            (image_of 300 300 IMAGE_FORMAT_RGB888 ramp_bytes).height).padding_h = 76 from
          letterbox_geometry_640_480_300_300.2.2.2.2.2.2.1]
          decide),
   by rw [letterbox_geometry_640_480_300_300.2.2.2.2.2.2.2.2.2],
   letterbox_geometry_640_480_300_300.2.2.2.2.2.2.1⟩

/-- Letterboxing into a destination of the size of the source: both scales
are 1 and the resized width before alignment is the source width after its
conversion to `float` and back. -/
theorem letterbox_geometry_same_size (w h : Int) (hw : 0 < w) (hh : 0 < h) :
    (letterbox_geometry w h w h).scale = 1
      ∧ (letterbox_geometry w h w h).resize_w0 = F32.toInt (F32.ofInt w)
      ∧ (letterbox_geometry w h w h).resize_h0 = h := by
  have h1w := F32.div_ofInt_self w hw
  have h1h := F32.div_ofInt_self h hh
  have hnlt : ¬ ((1 : ℚ) < 1) := by norm_num
  have hs : (letterbox_geometry w h w h).scale = 1 := by
    rw [letterbox_geometry_scale, h1w, h1h, if_neg hnlt]
  refine ⟨hs, ?_, ?_⟩
  · rw [letterbox_geometry_resize_w0, h1w, h1h, if_neg hnlt, hs]
    unfold F32.mul F32.ofInt
    rw [mul_one, F32.rnd_idem]
  · rw [letterbox_geometry_resize_h0, h1w, h1h, if_neg hnlt]

/-- The `float` nearest to 16777219 is 16777220 (a tie, broken to the even
mantissa). -/
theorem ofInt_16777219 : F32.ofInt 16777219 = 16777220 := by
  unfold F32.ofInt
  rw [F32.rnd_cert_tie ((16777219 : Int) : ℚ) 8388610 1 (by norm_num)
    (by norm_num [abs_of_pos]) (by norm_num [abs_of_pos]) (by norm_num [abs_of_neg])
    (by decide)]
  norm_num

/-- The `float` nearest to 134217738 is 134217744. -/
theorem ofInt_134217738 : F32.ofInt 134217738 = 134217744 := by
  unfold F32.ofInt
  rw [F32.rnd_cert_lt ((134217738 : Int) : ℚ) 8388609 4 (by norm_num)
    (by norm_num [abs_of_pos]) (by norm_num [abs_of_pos]) (by norm_num [abs_lt])]
  norm_num

/-- The geometry of a 16777219x2 image letterboxed into a destination of its
own size. -/
theorem letterbox_geometry_16777219 :
    (letterbox_geometry 16777219 2 16777219 2).dst_box
      = { left := 0, top := 0, right := 16777219, bottom := 1 } := by
  obtain ⟨_, hw0, hh0⟩ := letterbox_geometry_same_size 16777219 2 (by norm_num) (by norm_num)
  rw [ofInt_16777219] at hw0
  have e : F32.toInt (16777220 : ℚ) = 16777220 := by
    simpa using F32.toInt_intCast 16777220
  rw [e] at hw0
  have hrw : (letterbox_geometry 16777219 2 16777219 2).resize_w = 16777220 := by
    rw [letterbox_geometry_resize_w, hw0]; decide
  have hrh : (letterbox_geometry 16777219 2 16777219 2).resize_h = 2 := by
    rw [letterbox_geometry_resize_h, hh0]; decide
  have hl : (letterbox_geometry 16777219 2 16777219 2).left_offset = 0 := by
    rw [(letterbox_geometry_offsets 16777219 2 16777219 2).1,
      (letterbox_geometry_padding 16777219 2 16777219 2).1, hrw]
    decide
  have ht : (letterbox_geometry 16777219 2 16777219 2).top_offset = 0 := by
    rw [(letterbox_geometry_offsets 16777219 2 16777219 2).2,
      (letterbox_geometry_padding 16777219 2 16777219 2).2, hrh]
    decide
  rw [letterbox_geometry_dst_box, hl, ht, hrw, hrh]
  decide

/-- The geometry of a 134217738x2 image letterboxed into a destination of its
own size: the padding across is -6. -/
theorem letterbox_geometry_134217738 :
    (letterbox_geometry 134217738 2 134217738 2).padding_w = -6
      ∧ (letterbox_geometry 134217738 2 134217738 2).left_offset = 0
      ∧ (letterbox_geometry 134217738 2 134217738 2).dst_box
        = { left := 0, top := 0, right := 134217743, bottom := 1 } := by
  obtain ⟨_, hw0, hh0⟩ := letterbox_geometry_same_size 134217738 2 (by norm_num) (by norm_num)
  rw [ofInt_134217738] at hw0
  have e : F32.toInt (134217744 : ℚ) = 134217744 := by
    simpa using F32.toInt_intCast 134217744
  rw [e] at hw0
  have hrw : (letterbox_geometry 134217738 2 134217738 2).resize_w = 134217744 := by
    rw [letterbox_geometry_resize_w, hw0]; decide
  have hrh : (letterbox_geometry 134217738 2 134217738 2).resize_h = 2 := by
    rw [letterbox_geometry_resize_h, hh0]; decide
  have hp : (letterbox_geometry 134217738 2 134217738 2).padding_w = -6 := by
    rw [(letterbox_geometry_padding 134217738 2 134217738 2).1, hrw]; decide
  have hl : (letterbox_geometry 134217738 2 134217738 2).left_offset = 0 := by
    rw [(letterbox_geometry_offsets 134217738 2 134217738 2).1, hp]
    decide
  have ht : (letterbox_geometry 134217738 2 134217738 2).top_offset = 0 := by
    rw [(letterbox_geometry_offsets 134217738 2 134217738 2).2,
      (letterbox_geometry_padding 134217738 2 134217738 2).2, hrh]
    decide
  refine ⟨hp, hl, ?_⟩
  rw [letterbox_geometry_dst_box, hl, ht, hrw, hrh]
  decide

/-- The `float` nearest to 33/31 is 8929809/8388608, and 8668313 times it
rounds to 9227560. -/
theorem scale_33_31 :
    F32.rnd (33 / 31) = 8929809 / 8388608
      ∧ F32.rnd (8668313 * (8929809 / 8388608)) = 9227560 := by
  constructor
  · rw [F32.rnd_cert_lt (33 / 31) 8929809 (-23) (by norm_num) (by norm_num [abs_of_pos])
      (by norm_num [abs_of_pos]) (by norm_num [abs_lt])]
    norm_num
  · rw [F32.rnd_cert_lt (8668313 * (8929809 / 8388608)) 9227560 0 (by norm_num)
      (by norm_num [abs_of_pos]) (by norm_num [abs_of_pos]) (by norm_num [abs_lt])]
    norm_num

/-- The geometry of an 8668313x31 image letterboxed into 9227559x33, the
same aspect ratio 33/31: the scale is the float above 33/31 and the resized
width comes out one more than the destination width. -/
theorem letterbox_geometry_9227559 :
    (letterbox_geometry 8668313 31 9227559 33).resize_w0 = 9227560
      ∧ (letterbox_geometry 8668313 31 9227559 33).dst_box
        = { left := 0, top := 0, right := 9227559, bottom := 31 } := by
  obtain ⟨hr, hp⟩ := scale_33_31
  have ha : F32.ofInt 8668313 = 8668313 := by
    rw [F32.ofInt_eq 8668313 (by norm_num) (by norm_num)]; norm_num
  have hb : F32.ofInt 9227559 = 9227559 := by
    rw [F32.ofInt_eq 9227559 (by norm_num) (by norm_num)]; norm_num
  have hc : F32.ofInt 31 = 31 := by
    rw [F32.ofInt_eq 31 (by norm_num) (by norm_num)]; norm_num
  have hd : F32.ofInt 33 = 33 := by
    rw [F32.ofInt_eq 33 (by norm_num) (by norm_num)]; norm_num
  have hsw : F32.div (F32.ofInt 9227559) (F32.ofInt 8668313) = 8929809 / 8388608 := by
    rw [ha, hb]
    unfold F32.div
    rw [show ((9227559 : ℚ) / 8668313) = 33 / 31 by norm_num, hr]
  have hsh : F32.div (F32.ofInt 33) (F32.ofInt 31) = 8929809 / 8388608 := by
    rw [hc, hd]
    unfold F32.div
    rw [hr]
  have hnlt : ¬ ((8929809 : ℚ) / 8388608 < 8929809 / 8388608) := lt_irrefl _
  have hs : (letterbox_geometry 8668313 31 9227559 33).scale = 8929809 / 8388608 := by
    rw [letterbox_geometry_scale, hsw, hsh, if_neg hnlt]
  have hw0 : (letterbox_geometry 8668313 31 9227559 33).resize_w0 = 9227560 := by
    rw [letterbox_geometry_resize_w0, hsw, hsh, if_neg hnlt, hs, ha]
    unfold F32.mul
    rw [hp]
    simpa using F32.toInt_intCast 9227560
  have hh0 : (letterbox_geometry 8668313 31 9227559 33).resize_h0 = 33 := by
    rw [letterbox_geometry_resize_h0, hsw, hsh, if_neg hnlt]
  have hrw : (letterbox_geometry 8668313 31 9227559 33).resize_w = 9227560 := by
    rw [letterbox_geometry_resize_w, hw0]; decide
  have hrh : (letterbox_geometry 8668313 31 9227559 33).resize_h = 32 := by
    rw [letterbox_geometry_resize_h, hh0]; decide
  have hl : (letterbox_geometry 8668313 31 9227559 33).left_offset = 0 := by
    rw [(letterbox_geometry_offsets 8668313 31 9227559 33).1,
      (letterbox_geometry_padding 8668313 31 9227559 33).1, hrw]
    decide
  have ht : (letterbox_geometry 8668313 31 9227559 33).top_offset = 0 := by
    rw [(letterbox_geometry_offsets 8668313 31 9227559 33).2,
      (letterbox_geometry_padding 8668313 31 9227559 33).2, hrh]
    decide
  refine ⟨hw0, ?_⟩
  rw [letterbox_geometry_dst_box, hl, ht, hrw, hrh]
  decide

/-- Claim C12, counterexample: a 16777219x2 image letterboxed into a
destination of its own size gets the rectangle left 0, top 0, right 16777219,
bottom 1, although the last column of the destination is 16777218: the width
is converted to `float`, which rounds it to 16777220.  The same happens below
2^24, where every width is a `float`: an 8668313x31 image letterboxed into
9227559x33 gets right 9227559, one past the last column 9227558, because the
rounded scale times the source width rounds up to 9227560. -/
theorem letterbox_rect_outside_wide :
    ((0 : Int) < 16777219 ∧ (0 : Int) < 2
        ∧ (letterbox_geometry 16777219 2 16777219 2).dst_box
            = { left := 0, top := 0, right := 16777219, bottom := 1 }
        ∧ ¬ ((letterbox_geometry 16777219 2 16777219 2).dst_box.right ≤ 16777219 - 1))
      ∧ ((letterbox_geometry 8668313 31 9227559 33).dst_box
            = { left := 0, top := 0, right := 9227559, bottom := 31 }
        ∧ ¬ ((letterbox_geometry 8668313 31 9227559 33).dst_box.right ≤ 9227559 - 1)) := by
  have h1 := letterbox_geometry_16777219
  have h2 := letterbox_geometry_9227559.2
  refine ⟨⟨by decide, by decide, h1, ?_⟩, ⟨h2, ?_⟩⟩
  · rw [h1]; decide
  · rw [h2]; decide

/-- Claim C15, counterexample: a 134217738x2 image letterboxed into a
destination of its own size has the resized width 134217744 (the `float`
nearest to 134217738), so `padding_w` is -6 and `padding_w / 2` is -3; the
left edge and the reported `x_pad` are 0, which is neither -4 (rounding down
to even) nor -2 (rounding to even towards zero). -/
theorem letterbox_offsets_negative_padding :
    (letterbox_geometry 134217738 2 134217738 2).padding_w = -6
      ∧ (letterbox_geometry 134217738 2 134217738 2).padding_w
          = 134217738 - ((letterbox_geometry 134217738 2 134217738 2).dst_box.right
              - (letterbox_geometry 134217738 2 134217738 2).dst_box.left + 1)
      ∧ (letterbox_geometry 134217738 2 134217738 2).padding_w.tdiv 2 = -3
      ∧ (letterbox_geometry 134217738 2 134217738 2).dst_box.left = 0
      ∧ (letterbox_geometry 134217738 2 134217738 2).left_offset = 0
      ∧ ¬ ((letterbox_geometry 134217738 2 134217738 2).dst_box.left
            = 2 * ((letterbox_geometry 134217738 2 134217738 2).padding_w.tdiv 2 / 2)) := by
  obtain ⟨hp, hl, hb⟩ := letterbox_geometry_134217738
  rw [hb, hp]
  refine ⟨rfl, by decide, by decide, rfl, hl, by decide⟩

/-! ### Dimensions that are not positive -/

/-- An image with a zero width or height has byte size 0 in every format. -/
theorem get_image_size_zero_dim (image : image_buffer_t)
    (h : image.width = 0 ∨ image.height = 0) : get_image_size (some image) = 0 := by
  have hz : image.width * image.height = 0 := by
    rcases h with h | h <;> rw [h] <;> simp
  have e0 : int32 0 = 0 := by decide
  have e1 : (int32 0).tdiv 2 = 0 := by decide
  unfold get_image_size
  simp only
  split <;> simp [hz, e0, e1]

/-- Claim C16, counterexample: `convert_image_with_letterbox` has no check of
the dimensions.  A 4x4 Gray8 source letterboxed into a caller-supplied Gray8
destination of width 0 and height 4 returns 0, and so does a Gray8 source of
width 4 and height -4 letterboxed into a 4x4 destination (in both the paste
rectangle is empty and no pixel is read or written). -/
theorem convert_image_with_letterbox_accepts_nonpositive :
    (image_of 0 4 IMAGE_FORMAT_GRAY8 ramp_bytes).width ≤ 0
      ∧ (convert_image_with_letterbox rga_build failing_backend () 0 0 failing_malloc
          (image_of 4 4 IMAGE_FORMAT_GRAY8 ramp_bytes)
          (image_of 0 4 IMAGE_FORMAT_GRAY8 ramp_bytes) none 114).ret = 0
      ∧ (image_of 4 (-4) IMAGE_FORMAT_GRAY8 ramp_bytes).height ≤ 0
      ∧ (convert_image_with_letterbox rga_build failing_backend () 0 0 failing_malloc
          (image_of 4 (-4) IMAGE_FORMAT_GRAY8 ramp_bytes)
          (image_of 4 4 IMAGE_FORMAT_GRAY8 ramp_bytes) none 114).ret = 0 := by
  refine ⟨by decide, by decide, by decide, by decide⟩

/-- Claim C16, as the code has it: the only rejection that depends on the
dimensions is the zero byte size of a destination the call has to allocate.
When the destination has no data pointer and no positive descriptor and its
width or height is 0, `convert_image_with_letterbox` returns -1, whatever the
source, the build and the hardware library. -/
theorem convert_image_with_letterbox_empty_alloc_fails {σ : Type} (cfg : build_config)
    (hw : rga_backend σ) (st : σ) (uninit_src uninit_dst : Int) (malloc : Int → Option Mem)
    (src_image dst_image : image_buffer_t) (letterbox : Option letterbox_t) (color : Int)
    (hp : dst_image.virt_addr = none) (hfd : dst_image.fd ≤ 0)
    (hz : dst_image.width = 0 ∨ dst_image.height = 0) :
    (convert_image_with_letterbox cfg hw st uninit_src uninit_dst malloc src_image dst_image
        letterbox color).ret = -1 := by
  have hs := get_image_size_zero_dim dst_image hz
  have hnone : dst_image.virt_addr.isNone = true := by rw [hp]; rfl
  unfold convert_image_with_letterbox
  simp only [hnone, hfd, hs, and_self, if_true]

/-- Claim C16, instance: a destination of width 0 and height 4 without a
buffer. -/
theorem convert_image_with_letterbox_empty_alloc_fails_witness :
    (convert_image_with_letterbox rga_build failing_backend () 0 0 failing_malloc
        (image_of 4 4 IMAGE_FORMAT_GRAY8 ramp_bytes)
        { width := 0, height := 4, format := IMAGE_FORMAT_GRAY8, virt_addr := none, size := 0,
          fd := 0 }
        none 114).ret = -1 :=
  convert_image_with_letterbox_empty_alloc_fails rga_build failing_backend () 0 0 failing_malloc
    (image_of 4 4 IMAGE_FORMAT_GRAY8 ramp_bytes)
    { width := 0, height := 4, format := IMAGE_FORMAT_GRAY8, virt_addr := none, size := 0,
      fd := 0 }
    none 114 rfl (by decide) (Or.inl rfl)

/-! ### Buffer handles of the hardware path -/

/-- The releases appended at `err:` for a handle value. -/
theorem rga_cleanup_log {σ : Type} (hw : rga_backend σ) (ret : Int) (dst : image_buffer_t)
    (st : σ) (log : List rga_call) (hs hd : Int) :
    (rga_cleanup hw ret dst st log hs hd).log
      = log ++ ((if hs > 0 then [rga_call.releasebuffer_handle hs] else [])
          ++ (if hd > 0 then [rga_call.releasebuffer_handle hd] else [])) := by
  unfold rga_cleanup
  by_cases h1 : hs > 0 <;> by_cases h2 : hd > 0 <;> simp [h1, h2]

/-- The log of the fill and scaling step: the calls so far, then the fill (if
any) and the scaling call, then the releases. -/
theorem rga_fill_and_process_log {σ : Type} (hw : rga_backend σ) (st : σ) (log : List rga_call)
    (src_img dst_img : image_buffer_t) (srect drect : Int × Int × Int × Int) (color : Int)
    (hs hd : Int) :
    ∃ mid : List rga_call,
      (mid = [rga_call.imfill, rga_call.improcess] ∨ mid = [rga_call.improcess])
        ∧ (rga_fill_and_process hw st log src_img dst_img srect drect color hs hd).log
          = log ++ (mid ++ ((if hs > 0 then [rga_call.releasebuffer_handle hs] else [])
              ++ (if hd > 0 then [rga_call.releasebuffer_handle hd] else []))) := by
  unfold rga_fill_and_process
  simp only
  rw [rga_cleanup_log]
  by_cases h1 : drect.2.2.1 ≠ dst_img.width ∨ drect.2.2.2 ≠ dst_img.height ∨ drect.1 ≠ 0 ∨
      drect.2.1 ≠ 0
  · by_cases h2 : (hw.imfill st dst_img color).1 ≤ 0
    · exact ⟨_, Or.inl rfl, by simp only [if_pos h1, if_pos h2]; simp⟩
    · exact ⟨_, Or.inl rfl, by simp only [if_pos h1, if_neg h2]; simp⟩
  · exact ⟨_, Or.inr rfl, by simp only [if_neg h1]; simp⟩

/-- How often a positive handle value is imported and released in a log made
of two imports (the first successful), fills and scaling calls, and the
releases of `err:`. -/
theorem count_release_eq_count_import (hs hd h : Int) (hpos : 0 < h) (mid : List rga_call)
    (hmid : mid = [rga_call.imfill, rga_call.improcess] ∨ mid = [rga_call.improcess] ∨ mid = [])
    (hsp : 0 < hs) :
    ([rga_call.importbuffer hs, rga_call.importbuffer hd]
        ++ (mid ++ ((if hs > 0 then [rga_call.releasebuffer_handle hs] else [])
              ++ (if hd > 0 then [rga_call.releasebuffer_handle hd] else [])))).count
        (rga_call.releasebuffer_handle h)
      = ([rga_call.importbuffer hs, rga_call.importbuffer hd]
        ++ (mid ++ ((if hs > 0 then [rga_call.releasebuffer_handle hs] else [])
              ++ (if hd > 0 then [rga_call.releasebuffer_handle hd] else [])))).count
        (rga_call.importbuffer h) := by
  rw [if_pos hsp]
  by_cases p2 : hd > 0
  · rw [if_pos p2]
    rcases hmid with hm | hm | hm <;> rw [hm] <;> simp [List.count_cons]
  · rw [if_neg p2]
    have hne : ¬ (hd = h) := by omega
    rcases hmid with hm | hm | hm <;> rw [hm] <;> simp [List.count_cons, hne]

/-- The releases of `err:` contain no import. -/
theorem importbuffer_not_mem_releases (hs hd h : Int) :
    rga_call.importbuffer h ∉
      ((if hs > 0 then [rga_call.releasebuffer_handle hs] else [])
        ++ (if hd > 0 then [rga_call.releasebuffer_handle hd] else [])) := by
  by_cases p1 : hs > 0 <;> by_cases p2 : hd > 0 <;> simp [p1, p2]

/-- Claim C17: in every execution of `convert_image_rga`, whatever the build,
the hardware library and its state, and whatever the import, fill and scaling
calls return, every handle value that an import issued successfully (a
positive value `h` with an `importbuffer` entry in the call log) is released
as often as it was imported by the time the call returns: once for each
import, on the success path and on every failure path. -/
theorem convert_image_rga_releases_imports {σ : Type} (cfg : build_config)
    (hw : rga_backend σ) (st : σ) (uninit_src uninit_dst : Int)
    (src_img dst_img : image_buffer_t) (src_box dst_box : Option image_rect_t) (color : Int)
    (h : Int) (hpos : 0 < h)
    (himp : rga_call.importbuffer h ∈
      (convert_image_rga cfg hw st uninit_src uninit_dst src_img dst_img src_box dst_box
        color).log) :
    (convert_image_rga cfg hw st uninit_src uninit_dst src_img dst_img src_box dst_box
        color).log.count (rga_call.releasebuffer_handle h)
      = (convert_image_rga cfg hw st uninit_src uninit_dst src_img dst_img src_box dst_box
        color).log.count (rga_call.importbuffer h) := by
  unfold convert_image_rga at himp ⊢
  simp only at himp ⊢
  by_cases f1 : get_rga_fmt hw src_img.format = -1
  · rw [if_pos f1, rga_cleanup_log] at himp
    rw [List.nil_append] at himp
    exact absurd himp (importbuffer_not_mem_releases _ _ _)
  rw [if_neg f1] at himp ⊢
  by_cases f2 : get_rga_fmt hw dst_img.format = -1
  · rw [if_pos f2, rga_cleanup_log] at himp
    rw [List.nil_append] at himp
    exact absurd himp (importbuffer_not_mem_releases _ _ _)
  rw [if_neg f2] at himp ⊢
  by_cases c : cfg.LIBRGA_IM2D_HANDLE = true
  · rw [if_pos c] at himp ⊢
    by_cases s0 : (rga_import hw st src_img).1 ≤ 0
    · rw [if_pos s0, rga_cleanup_log] at himp
      exfalso
      rw [List.mem_append] at himp
      rcases himp with hm | hm
      · simp at hm
        omega
      · exact importbuffer_not_mem_releases _ _ _ hm
    · rw [if_neg s0] at himp ⊢
      have sp : 0 < (rga_import hw st src_img).1 := by omega
      by_cases d0 : (rga_import hw (rga_import hw st src_img).2 dst_img).1 ≤ 0
      · rw [if_pos d0, rga_cleanup_log]
        exact count_release_eq_count_import _ _ h hpos [] (Or.inr (Or.inr rfl)) sp
      · rw [if_neg d0]
        obtain ⟨mid, hmid, hlog⟩ := rga_fill_and_process_log hw
          (rga_import hw (rga_import hw st src_img).2 dst_img).2
          [rga_call.importbuffer (rga_import hw st src_img).1,
            rga_call.importbuffer (rga_import hw (rga_import hw st src_img).2 dst_img).1]
          src_img dst_img (box_of src_box src_img.width src_img.height)
          (box_of dst_box dst_img.width dst_img.height) color
          (rga_import hw st src_img).1
          (rga_import hw (rga_import hw st src_img).2 dst_img).1
        rw [hlog]
        rcases hmid with hm | hm
        · exact count_release_eq_count_import _ _ h hpos mid (Or.inl hm) sp
        · exact count_release_eq_count_import _ _ h hpos mid (Or.inr (Or.inl hm)) sp
  · rw [if_neg c] at himp
    exfalso
    obtain ⟨mid, hmid, hlog⟩ := rga_fill_and_process_log hw st [] src_img dst_img
      (box_of src_box src_img.width src_img.height)
      (box_of dst_box dst_img.width dst_img.height) color 0 0
    rw [hlog] at himp
    rcases hmid with hm | hm <;> rw [hm] at himp <;> simp at himp

/-- Claim C17, instance: with handles in use and a library that issues the
handles 1 and 2, the log of a 16x16 RGB conversion is import 1, import 2,
scale, release 1, release 2. -/
theorem convert_image_rga_releases_imports_witness :
    (convert_image_rga handle_build counting_backend 0 0 0
        (image_of 16 16 IMAGE_FORMAT_RGB888 ramp_bytes)
        (image_of 16 16 IMAGE_FORMAT_RGB888 ramp_bytes) none none 0).log
      = [rga_call.importbuffer 1, rga_call.importbuffer 2, rga_call.improcess,
          rga_call.releasebuffer_handle 1, rga_call.releasebuffer_handle 2]
      ∧ (convert_image_rga handle_build counting_backend 0 0 0
          (image_of 16 16 IMAGE_FORMAT_RGB888 ramp_bytes)
          (image_of 16 16 IMAGE_FORMAT_RGB888 ramp_bytes) none none 0).log.count
            (rga_call.releasebuffer_handle 1)
        = (convert_image_rga handle_build counting_backend 0 0 0
          (image_of 16 16 IMAGE_FORMAT_RGB888 ramp_bytes)
          (image_of 16 16 IMAGE_FORMAT_RGB888 ramp_bytes) none none 0).log.count
            (rga_call.importbuffer 1) :=
  ⟨by decide,
    convert_image_rga_releases_imports handle_build counting_backend 0 0 0
      (image_of 16 16 IMAGE_FORMAT_RGB888 ramp_bytes)
      (image_of 16 16 IMAGE_FORMAT_RGB888 ramp_bytes) none none 0 1 (by decide) (by decide)⟩

/-! ### What the resampler writes -/

/-- Claim C19 (amended), for destinations whose byte size is in the range of
`int`: for every channel count, source, crop rectangle and every paste
rectangle lying inside a destination with
`dst_width * dst_height * channel <= 2147483647`, `crop_and_scale_image_c` on
present buffers returns 0 and writes exactly the channel bytes of the
destination pixels in the paste rectangle: each of them receives the value
computed for it, and every other destination byte is unchanged.  When either
buffer is absent it returns -1 and the destination is as it was. -/
theorem crop_and_scale_image_c_frame (channel : Int) (s d : Mem)
    (src_width src_height crop_x crop_y crop_width crop_height : Int)
    (dst_width dst_height dst_box_x dst_box_y dst_box_width dst_box_height : Int)
    (hx0 : 0 ≤ dst_box_x) (hx1 : dst_box_x + dst_box_width ≤ dst_width)
    (hy0 : 0 ≤ dst_box_y) (hy1 : dst_box_y + dst_box_height ≤ dst_height)
    (hsz : dst_width * dst_height * channel ≤ 2147483647) :
    (∃ d' : Mem,
      crop_and_scale_image_c channel (some s) src_width src_height crop_x crop_y crop_width
          crop_height (some d) dst_width dst_height dst_box_x dst_box_y dst_box_width
          dst_box_height = (0, some d')
        ∧ (∀ x y c : Int, dst_box_x ≤ x ∧ x < dst_box_x + dst_box_width →
            dst_box_y ≤ y ∧ y < dst_box_y + dst_box_height → 0 ≤ c ∧ c < channel →
            d' ((y * dst_width + x) * channel + c)
              = pixel_value channel s src_width src_height crop_x crop_y crop_width crop_height
                  dst_box_width dst_box_height (x - dst_box_x) (y - dst_box_y) c)
        ∧ (∀ k : Int,
            (∀ x y c : Int, dst_box_x ≤ x → x < dst_box_x + dst_box_width →
              dst_box_y ≤ y → y < dst_box_y + dst_box_height → 0 ≤ c → c < channel →
              k ≠ (y * dst_width + x) * channel + c) →
            d' k = d k))
      ∧ crop_and_scale_image_c channel none src_width src_height crop_x crop_y crop_width
          crop_height (some d) dst_width dst_height dst_box_x dst_box_y dst_box_width
          dst_box_height = (-1, some d)
      ∧ crop_and_scale_image_c channel (some s) src_width src_height crop_x crop_y crop_width
          crop_height none dst_width dst_height dst_box_x dst_box_y dst_box_width
          dst_box_height = (-1, none)
      ∧ crop_and_scale_image_c channel none src_width src_height crop_x crop_y crop_width
          crop_height none dst_width dst_height dst_box_x dst_box_y dst_box_width
          dst_box_height = (-1, none) := by
  refine ⟨⟨_, rfl, ?_, ?_⟩, rfl, rfl, rfl⟩
  · intro x y c hx hy hc
    exact crop_and_scale_loops_pixel channel s src_width src_height crop_x crop_y crop_width
      crop_height d dst_width dst_height dst_box_x dst_box_y dst_box_width dst_box_height
      hx0 hx1 hy0 hy1 hsz x y c hx hy hc
  · intro k hk
    apply crop_and_scale_loops_frame channel s src_width src_height crop_x crop_y crop_width
      crop_height d dst_width dst_box_x dst_box_y dst_box_width dst_box_height k
    intro x y c h1 h2 h3 h4 h5 h6
    rw [int32_index_in_plane dst_width dst_height channel x y c hsz ⟨by omega, by omega⟩
      ⟨by omega, by omega⟩ ⟨h5, h6⟩]
    exact hk x y c h1 h2 h3 h4 h5 h6

/-- Claim C19, instance: a 4x4 RGB image pasted at (2, 2) of a zeroed 8x8
destination (192 bytes) leaves byte 0 of the destination zero. -/
theorem crop_and_scale_image_c_frame_witness :
    ∃ d' : Mem,
      crop_and_scale_image_c 3 (some ramp_bytes) 4 4 0 0 4 4 (some (fun _ => 0)) 8 8 2 2 4 4
          = (0, some d')
        ∧ d' 0 = 0 :=
  (crop_and_scale_image_c_frame 3 ramp_bytes (fun _ => 0) 4 4 0 0 4 4 8 8 2 2 4 4
      (by decide) (by decide) (by decide) (by decide) (by decide)).1.imp
    (fun _ h => ⟨h.1, h.2.2 0 (by intro x y c h1 h2 h3 h4 h5 h6; omega)⟩)

/-- Claim C19, counterexample: a one-channel destination 65536 pixels wide and
32769 pixels high (2147549184 bytes), all zero, and the paste rectangle of the
single pixel (65535, 32768), the last of the destination, fed from a 1 x 1
source holding 7.  The call returns 0 and the value computed for the pixel is
7, but the subscript (32768 * 65536 + 65535) * 1 + 0 = 2147549183 is not an
`int`: the byte of the pixel keeps its value 0, and the byte at offset
-2147418113, which belongs to no destination pixel, becomes 7. -/
theorem crop_and_scale_image_c_frame_fails_large :
    ∃ d' : Mem,
      crop_and_scale_image_c 1 (some (fun _ => 7)) 1 1 0 0 1 1 (some (fun _ => 0))
          65536 32769 65535 32768 1 1 = (0, some d')
        ∧ pixel_value 1 (fun _ => 7) 1 1 0 0 1 1 1 1 (65535 - 65535) (32768 - 32768) 0 = 7
        ∧ d' ((32768 * 65536 + 65535) * 1 + 0) = 0
        ∧ d' (-2147418113) = 7 := by
  rw [crop_and_scale_image_c_some]
  have hv : pixel_value 1 (fun _ => 7) 1 1 0 0 1 1 1 1 (65535 - 65535) (32768 - 32768) 0 = 7 := by
    rw [sub_self, sub_self, pixel_value_identity_read 1 (fun _ => 7) 1 1 0 0 0 (by norm_num)
      (by norm_num) (by norm_num) (by norm_num)]
  refine ⟨_, rfl, hv, ?_, ?_⟩
  · rw [crop_and_scale_loops_frame_beyond_int _ _ _ _ _ _ _ _ _ _ _ _ _ _ _
      (Or.inr (by norm_num))]
  · have hp := crop_and_scale_loops_pixel_of_inj 1 (fun _ => 7) 1 1 0 0 1 1 (fun _ => 0) 65536
      65535 32768 1 1 65535 32768 0 (by norm_num) (by norm_num) (by norm_num)
      (by intro x2 y2 c2 h1 h2 h3 h4 h5 h6 _; omega)
    have e : int32 ((32768 * 65536 + 65535) * 1 + 0) = -2147418113 := by decide
    rw [e, hv] at hp
    exact hp

/-! ### The two planes of the semi-planar layout -/

/-- The plane adapter is the luma pass followed by the chroma pass. -/
theorem crop_and_scale_image_yuv420sp_passes (src : Mem) (src_width src_height : Int)
    (crop_x crop_y crop_width crop_height : Int) (dst : Mem) (dst_width dst_height : Int)
    (dst_box_x dst_box_y dst_box_width dst_box_height : Int) :
    crop_and_scale_image_yuv420sp src src_width src_height crop_x crop_y crop_width crop_height
        dst dst_width dst_height dst_box_x dst_box_y dst_box_width dst_box_height
      = (0, yuv420sp_chroma_pass src src_width src_height crop_x crop_y crop_width crop_height
          (yuv420sp_luma_pass src src_width src_height crop_x crop_y crop_width crop_height
            dst dst_width dst_height dst_box_x dst_box_y dst_box_width dst_box_height)
          dst_width dst_height dst_box_x dst_box_y dst_box_width dst_box_height) := rfl

/-- Halving an extent that starts at a non-negative origin and ends inside
`W` gives an extent that ends inside half of `W`. -/
theorem half_box_inside (b w W : Int) (hb : 0 ≤ b) (hw : b + w ≤ W) (x : Int)
    (hx : b.tdiv 2 ≤ x ∧ x < b.tdiv 2 + w.tdiv 2) : 0 ≤ x ∧ x < W.tdiv 2 := by
  have hW : 0 ≤ W ∨ W < 0 := le_or_lt 0 W
  rw [tdiv_two_of_nonneg b hb] at hx
  rcases le_or_lt 0 w with h0 | h0
  · rw [tdiv_two_of_nonneg w h0] at hx
    rw [tdiv_two_of_nonneg W (by omega)]
    omega
  · exfalso
    have h1 : w.tdiv 2 = -((-w).tdiv 2) := by
      rw [← Int.neg_tdiv, neg_neg]
    rw [h1, tdiv_two_of_nonneg (-w) (by omega)] at hx
    omega

/-- The half-resolution chroma plane of two channels fits between the end of
the luma plane and the end of the semi-planar layout. -/
theorem chroma_plane_fits (W H : Int) (hW : 0 ≤ W) (hH : 0 ≤ H) :
    W * H + W.tdiv 2 * H.tdiv 2 * 2 ≤ (W * H * 3).tdiv 2 := by
  have hP : 0 ≤ W * H := mul_nonneg hW hH
  rw [tdiv_two_of_nonneg W hW, tdiv_two_of_nonneg H hH, tdiv_two_of_nonneg (W * H * 3) (by omega)]
  have ha : 0 ≤ W / 2 := by omega
  have hb : 0 ≤ H / 2 := by omega
  have h1 : 2 * (W / 2) ≤ W := by omega
  have h2 : 2 * (H / 2) ≤ H := by omega
  have h3 : (2 * (W / 2)) * (2 * (H / 2)) ≤ W * H :=
    mul_le_mul h1 h2 (by omega) hW
  have h4 : (2 * (W / 2)) * (2 * (H / 2)) = 4 * (W / 2 * (H / 2)) := by ring
  rw [h4] at h3
  generalize W * H = P at h3 hP ⊢
  generalize W / 2 * (H / 2) = Q at h3 ⊢
  omega

/-- The chroma pass reads and writes through the plane pointers: byte `k` of
its result is byte `k - offset` of the memory the loops leave behind the
destination plane pointer. -/
theorem yuv420sp_chroma_pass_apply (src : Mem) (src_width src_height : Int)
    (crop_x crop_y crop_width crop_height : Int) (d : Mem) (dst_width dst_height : Int)
    (dst_box_x dst_box_y dst_box_width dst_box_height : Int) (k : Int) :
    yuv420sp_chroma_pass src src_width src_height crop_x crop_y crop_width crop_height
        d dst_width dst_height dst_box_x dst_box_y dst_box_width dst_box_height k
      = crop_and_scale_loops 2 (Mem.offset src (int32 (src_width * src_height)))
          (src_width.tdiv 2) (src_height.tdiv 2) (crop_x.tdiv 2) (crop_y.tdiv 2)
          (crop_width.tdiv 2) (crop_height.tdiv 2)
          (Mem.offset d (int32 (dst_width * dst_height))) (dst_width.tdiv 2)
          (dst_box_x.tdiv 2) (dst_box_y.tdiv 2) (dst_box_width.tdiv 2) (dst_box_height.tdiv 2)
          (k + -(int32 (dst_width * dst_height))) := rfl

/-- Claim C18 (amended), for destinations whose luma plane size is in the range
of `int`: for every destination of width and height at least 1 with
`dst_width * dst_height <= 2147483647` and every paste rectangle lying inside
it, the luma pass of `crop_and_scale_image_yuv420sp` leaves every byte outside
`[0, W*H)` as it was and the chroma pass leaves every byte outside
`[W*H, (W*H*3)/2)` as it was, whatever the source, the crop rectangle and the
memory each pass starts from.  The second range begins where the first ends,
so the passes do not overlap, and it ends at the byte size `sizeFor` gives for
both semi-planar formats, so nothing is written past it. -/
theorem yuv420sp_plane_separation (src : Mem) (src_width src_height : Int)
    (crop_x crop_y crop_width crop_height : Int) (d : Mem) (dst_width dst_height : Int)
    (dst_box_x dst_box_y dst_box_width dst_box_height : Int) (k : Int)
    (hW : 1 ≤ dst_width) (hH : 1 ≤ dst_height)
    (hsz : dst_width * dst_height ≤ 2147483647)
    (hx0 : 0 ≤ dst_box_x) (hx1 : dst_box_x + dst_box_width ≤ dst_width)
    (hy0 : 0 ≤ dst_box_y) (hy1 : dst_box_y + dst_box_height ≤ dst_height) :
    (¬ (0 ≤ k ∧ k < dst_width * dst_height) →
        yuv420sp_luma_pass src src_width src_height crop_x crop_y crop_width crop_height
          d dst_width dst_height dst_box_x dst_box_y dst_box_width dst_box_height k = d k)
      ∧ (¬ (dst_width * dst_height ≤ k ∧ k < (dst_width * dst_height * 3).tdiv 2) →
        yuv420sp_chroma_pass src src_width src_height crop_x crop_y crop_width crop_height
          d dst_width dst_height dst_box_x dst_box_y dst_box_width dst_box_height k = d k)
      ∧ dst_width * dst_height ≤ (dst_width * dst_height * 3).tdiv 2
      ∧ sizeFor IMAGE_FORMAT_YUV420SP_NV12 dst_width dst_height
          = some ((dst_width * dst_height * 3).tdiv 2)
      ∧ sizeFor IMAGE_FORMAT_YUV420SP_NV21 dst_width dst_height
          = some ((dst_width * dst_height * 3).tdiv 2) := by
  have hP : 0 < dst_width * dst_height := mul_pos (by omega) (by omega)
  have hf := chroma_plane_fits dst_width dst_height (by omega) (by omega)
  have hn : 0 ≤ dst_width.tdiv 2 * dst_height.tdiv 2 * 2 := by
    rw [tdiv_two_of_nonneg dst_width (by omega), tdiv_two_of_nonneg dst_height (by omega)]
    have ha : 0 ≤ dst_width / 2 := by omega
    have hb : 0 ≤ dst_height / 2 := by omega
    positivity
  have h3 : (dst_width * dst_height * 3).tdiv 2 = dst_width * dst_height * 3 / 2 :=
    tdiv_two_of_nonneg _ (by omega)
  refine ⟨?_, ?_, ?_, rfl, rfl⟩
  · intro hk
    show crop_and_scale_loops 1 src src_width src_height crop_x crop_y crop_width crop_height
      d dst_width dst_box_x dst_box_y dst_box_width dst_box_height k = d k
    apply crop_and_scale_loops_frame
    intro x y c a1 a2 a3 a4 a5 a6 e
    have h := index_in_plane dst_width dst_height 1 x y c ⟨by omega, by omega⟩
      ⟨by omega, by omega⟩ ⟨a5, a6⟩
    rw [int32_index_in_plane dst_width dst_height 1 x y c (by rw [mul_one]; exact hsz)
      ⟨by omega, by omega⟩ ⟨by omega, by omega⟩ ⟨a5, a6⟩] at e
    simp only [mul_one] at h e
    rw [← e] at h
    exact hk h
  · intro hk
    rw [yuv420sp_chroma_pass_apply, int32_eq_self (dst_width * dst_height) (by omega) hsz,
      crop_and_scale_loops_frame, Mem.offset_apply]
    · congr 1
      ring
    · intro x y c a1 a2 a3 a4 a5 a6 e
      have bx := half_box_inside dst_box_x dst_box_width dst_width hx0 hx1 x ⟨a1, a2⟩
      have by1 := half_box_inside dst_box_y dst_box_height dst_height hy0 hy1 y ⟨a3, a4⟩
      have h := index_in_plane (dst_width.tdiv 2) (dst_height.tdiv 2) 2 x y c bx by1 ⟨a5, a6⟩
      rw [int32_index_in_plane (dst_width.tdiv 2) (dst_height.tdiv 2) 2 x y c (by omega) bx by1
        ⟨a5, a6⟩] at e
      rw [← e] at h
      apply hk
      constructor
      · omega
      · omega
  · omega

/-- Claim C18, instance: on a 4x4 destination with the whole image as paste
rectangle, byte 30 is outside both planes (bytes 0..15 and 16..23) and is left
alone by both passes. -/
theorem yuv420sp_plane_separation_witness :
    yuv420sp_luma_pass ramp_bytes 4 4 0 0 4 4 (fun _ => 7) 4 4 0 0 4 4 30 = 7
      ∧ yuv420sp_chroma_pass ramp_bytes 4 4 0 0 4 4 (fun _ => 7) 4 4 0 0 4 4 30 = 7
      ∧ yuv420sp_chroma_pass ramp_bytes 4 4 0 0 4 4 (fun _ => 7) 4 4 0 0 4 4 3 = 7 :=
  ⟨(yuv420sp_plane_separation ramp_bytes 4 4 0 0 4 4 (fun _ => 7) 4 4 0 0 4 4 30
      (by decide) (by decide) (by decide) (by decide) (by decide) (by decide)
      (by decide)).1 (by decide),
   (yuv420sp_plane_separation ramp_bytes 4 4 0 0 4 4 (fun _ => 7) 4 4 0 0 4 4 30
      (by decide) (by decide) (by decide) (by decide) (by decide) (by decide)
      (by decide)).2.1 (by decide),
   (yuv420sp_plane_separation ramp_bytes 4 4 0 0 4 4 (fun _ => 7) 4 4 0 0 4 4 3
      (by decide) (by decide) (by decide) (by decide) (by decide) (by decide)
      (by decide)).2.1 (by decide)⟩

/-- Claim C18, counterexample: a destination 65536 pixels wide and 32768 pixels
high, all zero, with the paste rectangle of its first 2 x 2 pixels, fed from
a 2 x 2 source whose bytes are all 7.  The plane offset 65536 * 32768 =
2147483648 is not an `int`; the chroma pass works behind the pointer
`dst - 2147483648` and changes the byte at offset -2147483648 from 0 to 7,
outside `[W*H, (W*H*3)/2)`. -/
theorem yuv420sp_plane_separation_fails_large :
    yuv420sp_chroma_pass (fun _ => 7) 2 2 0 0 2 2 (fun _ => 0) 65536 32768 0 0 2 2
        (-2147483648) = 7
      ∧ (fun _ => 0 : Mem) (-2147483648) = 0
      ∧ ¬ ((65536 : Int) * 32768 ≤ -2147483648
          ∧ (-2147483648 : Int) < ((65536 : Int) * 32768 * 3).tdiv 2) := by
  refine ⟨?_, rfl, by decide⟩
  have e1 : int32 (65536 * 32768) = -2147483648 := by decide
  have e2 : (65536 : Int).tdiv 2 = 32768 := by decide
  have e3 : (2 : Int).tdiv 2 = 1 := by decide
  have e4 : (0 : Int).tdiv 2 = 0 := by decide
  have e5 : (-2147483648 : Int) + -(-2147483648) = (0 * 32768 + 0) * 2 + 0 := by decide
  rw [yuv420sp_chroma_pass_apply, e1, e2, e3, e4, e5,
    crop_and_scale_loops_pixel 2 _ 1 1 0 0 1 1 _ 32768 16384 0 0 1 1 (by norm_num) (by norm_num)
      (by norm_num) (by norm_num) (by norm_num) 0 0 0 (by norm_num) (by norm_num) (by norm_num),
    sub_self, pixel_value_identity_read 2 _ 1 1 0 0 0 (by norm_num) (by norm_num) (by norm_num)
      (by norm_num)]
  rfl

/-! ### Integer-ratio downscaling -/

/-- The float ratio of `k * p` to `p` is exactly `k` when `k * p` is at most
2^24. -/
theorem float_ratio_int (k p : Int) (hk : 1 ≤ k) (hp : 1 ≤ p) (h : k * p ≤ 16777216) :
    F32.div (F32.ofInt (k * p)) (F32.ofInt p) = (k : ℚ) := by
  have hkp : 0 ≤ k * p := mul_nonneg (by omega) (by omega)
  have h1 : p ≤ k * p := by nlinarith
  have h2 : k ≤ k * p := by nlinarith
  rw [F32.ofInt_eq (k * p) hkp h, F32.ofInt_eq p (by omega) (by omega)]
  unfold F32.div
  have hp0 : (p : ℚ) ≠ 0 := by
    have : (0 : ℚ) < p := by exact_mod_cast (by omega : 0 < p)
    exact ne_of_gt this
  have e : (((k * p : Int) : ℚ)) / (p : ℚ) = (k : ℚ) := by
    push_cast
    field_simp
  rw [e]
  exact F32.rnd_intCast k (by rw [abs_of_nonneg (by omega)]; norm_num; omega)

/-- The sampling coordinate of offset `i` at the integer ratio `k` is exactly
`k * i` when that is at most 2^24. -/
theorem float_offset_int (k i : Int) (hk : 1 ≤ k) (hi : 0 ≤ i) (h : k * i ≤ 16777216) :
    F32.mul (F32.ofInt i) (k : ℚ) = ((k * i : Int) : ℚ) := by
  have hki : 0 ≤ k * i := mul_nonneg (by omega) hi
  have h1 : i ≤ k * i := by nlinarith
  rw [F32.ofInt_eq i hi (by omega)]
  unfold F32.mul
  have e : (i : ℚ) * (k : ℚ) = ((k * i : Int) : ℚ) := by
    push_cast
    ring
  rw [e]
  exact F32.rnd_intCast (k * i) (by rw [abs_of_nonneg hki]; norm_num; omega)

/-- With a crop of `k` times the paste width and `m` times the paste height
(both at most 2^24) inside the source, the first neighbour of the paste
offset `(i, j)` is the source pixel `(crop_x + k*i, crop_y + m*j)` and both
fractional offsets are zero. -/
theorem src_taps_point_sample (src_width src_height : Int)
    (crop_x crop_y k m pw ph i j : Int) (hk : 1 ≤ k) (hm : 1 ≤ m)
    (hcw : k * pw ≤ 16777216) (hch : m * ph ≤ 16777216)
    (hx0 : 0 ≤ crop_x) (hx1 : crop_x + k * pw ≤ src_width)
    (hy0 : 0 ≤ crop_y) (hy1 : crop_y + m * ph ≤ src_height)
    (hi : 0 ≤ i ∧ i < pw) (hj : 0 ≤ j ∧ j < ph) :
    src_taps src_width src_height crop_x crop_y (k * pw) (m * ph)
        (F32.div (F32.ofInt (k * pw)) (F32.ofInt pw))
        (F32.div (F32.ofInt (m * ph)) (F32.ofInt ph)) i j =
      { global_src_x1 := crop_x + k * i, global_src_y1 := crop_y + m * j,
        global_src_x2 := clamp_src
          (crop_x + (if k * i + 1 < k * pw then k * i + 1 else k * i)) src_width,
        global_src_y2 := clamp_src
          (crop_y + (if m * j + 1 < m * ph then m * j + 1 else m * j)) src_height,
        x_diff := 0, y_diff := 0 } := by
  have hki0 : 0 ≤ k * i := mul_nonneg (by omega) hi.1
  have hmj0 : 0 ≤ m * j := mul_nonneg (by omega) hj.1
  have hki : k * i + k ≤ k * pw := by nlinarith
  have hmj : m * j + m ≤ m * ph := by nlinarith
  simp only [float_ratio_int k pw hk (by omega) hcw, float_ratio_int m ph hm (by omega) hch]
  unfold src_taps
  simp only [float_offset_int k i hk hi.1 (by omega), float_offset_int m j hm hj.1 (by omega),
    F32.toInt_intCast, F32.sub_self_intCast (k * i) hki0 (by omega),
    F32.sub_self_intCast (m * j) hmj0 (by omega),
    clamp_src_of_mem (crop_x + k * i) src_width (by omega) (by omega),
    clamp_src_of_mem (crop_y + m * j) src_height (by omega) (by omega)]

/-- Under the hypotheses of `src_taps_point_sample` the value computed for the
paste offset `(i, j)` is the source byte that the `int` subscript
`index_A + c` of the pixel `(crop_x + k*i, crop_y + m*j)` selects. -/
theorem pixel_value_point_sample_read (channel : Int) (src : Mem) (src_width src_height : Int)
    (crop_x crop_y k m pw ph i j c : Int) (hk : 1 ≤ k) (hm : 1 ≤ m)
    (hcw : k * pw ≤ 16777216) (hch : m * ph ≤ 16777216)
    (hx0 : 0 ≤ crop_x) (hx1 : crop_x + k * pw ≤ src_width)
    (hy0 : 0 ≤ crop_y) (hy1 : crop_y + m * ph ≤ src_height)
    (hi : 0 ≤ i ∧ i < pw) (hj : 0 ≤ j ∧ j < ph) :
    pixel_value channel src src_width src_height crop_x crop_y (k * pw) (m * ph) pw ph i j c
      = src (int32 (int32 ((crop_y + m * j) * src_width * channel
          + (crop_x + k * i) * channel) + c)) := by
  unfold pixel_value
  simp only [src_taps_point_sample src_width src_height crop_x crop_y k m pw ph i j hk hm hcw hch
    hx0 hx1 hy0 hy1 hi hj, bilinear_zero, index_A]

/-- With a crop of `k` times the paste width and `m` times the paste height
(both at most 2^24) inside a source whose byte size is in the range of `int`,
the value computed for the paste offset `(i, j)` is the source byte of pixel
`(crop_x + k*i, crop_y + m*j)`. -/
theorem pixel_value_point_sample (channel : Int) (src : Mem) (src_width src_height : Int)
    (crop_x crop_y k m pw ph i j c : Int) (hk : 1 ≤ k) (hm : 1 ≤ m)
    (hcw : k * pw ≤ 16777216) (hch : m * ph ≤ 16777216)
    (hx0 : 0 ≤ crop_x) (hx1 : crop_x + k * pw ≤ src_width)
    (hy0 : 0 ≤ crop_y) (hy1 : crop_y + m * ph ≤ src_height)
    (hss : src_width * src_height * channel ≤ 2147483647)
    (hi : 0 ≤ i ∧ i < pw) (hj : 0 ≤ j ∧ j < ph) (hc : 0 ≤ c ∧ c < channel) :
    pixel_value channel src src_width src_height crop_x crop_y (k * pw) (m * ph) pw ph i j c
      = src (((crop_y + m * j) * src_width + (crop_x + k * i)) * channel + c) := by
  have hki0 : 0 ≤ k * i := mul_nonneg (by omega) hi.1
  have hmj0 : 0 ≤ m * j := mul_nonneg (by omega) hj.1
  have hki : k * i + k ≤ k * pw := by nlinarith
  have hmj : m * j + m ≤ m * ph := by nlinarith
  rw [pixel_value_point_sample_read channel src src_width src_height crop_x crop_y k m pw ph i j c
    hk hm hcw hch hx0 hx1 hy0 hy1 hi hj,
    int32_read_index src_width src_height channel (crop_x + k * i) (crop_y + m * j) c hss
      ⟨by omega, by omega⟩ ⟨by omega, by omega⟩ hc]

/-- On present buffers `crop_and_scale_image_c` returns the memory written by
the loops. -/
theorem crop_and_scale_image_c_present (channel : Int) (s d : Mem)
    (src_width src_height crop_x crop_y crop_width crop_height : Int)
    (dst_width dst_height dst_box_x dst_box_y dst_box_width dst_box_height : Int) :
    (crop_and_scale_image_c channel (some s) src_width src_height crop_x crop_y crop_width
        crop_height (some d) dst_width dst_height dst_box_x dst_box_y dst_box_width
        dst_box_height).2.getD d
      = crop_and_scale_loops channel s src_width src_height crop_x crop_y crop_width
          crop_height d dst_width dst_box_x dst_box_y dst_box_width dst_box_height := rfl

/-- Claim C20 (amended), for crops of at most 2^24 pixels on each axis and
source and destination byte sizes in the range of `int`: for positive integers
`k` and `m`, a crop rectangle inside the source whose width is `k` times the
paste width and whose height is `m` times the paste height, both at most
16777216, a paste rectangle inside the destination, and
`src_width * src_height * channel` and `dst_width * dst_height * channel` both
at most 2147483647, `crop_and_scale_image_c` returns 0 and the destination
pixel at `(pasteLeft + i, pasteTop + j)` equals the source pixel at
`(cropLeft + k*i, cropTop + m*j)` in every channel, whatever the other source
pixels are. -/
theorem crop_and_scale_point_sample (channel : Int) (s d : Mem) (src_width src_height : Int)
    (crop_x crop_y k m pw ph : Int) (dst_width dst_height dst_box_x dst_box_y : Int)
    (i j c : Int) (hk : 1 ≤ k) (hm : 1 ≤ m)
    (hcw : k * pw ≤ 16777216) (hch : m * ph ≤ 16777216)
    (hx0 : 0 ≤ crop_x) (hx1 : crop_x + k * pw ≤ src_width)
    (hy0 : 0 ≤ crop_y) (hy1 : crop_y + m * ph ≤ src_height)
    (hss : src_width * src_height * channel ≤ 2147483647)
    (hb0 : 0 ≤ dst_box_x) (hb1 : dst_box_x + pw ≤ dst_width)
    (hb2 : 0 ≤ dst_box_y) (hb3 : dst_box_y + ph ≤ dst_height)
    (hds : dst_width * dst_height * channel ≤ 2147483647)
    (hi : 0 ≤ i ∧ i < pw) (hj : 0 ≤ j ∧ j < ph) (hc : 0 ≤ c ∧ c < channel) :
    (crop_and_scale_image_c channel (some s) src_width src_height crop_x crop_y (k * pw)
        (m * ph) (some d) dst_width dst_height dst_box_x dst_box_y pw ph).1 = 0
      ∧ ((crop_and_scale_image_c channel (some s) src_width src_height crop_x crop_y (k * pw)
          (m * ph) (some d) dst_width dst_height dst_box_x dst_box_y pw ph).2.getD d)
          (((dst_box_y + j) * dst_width + (dst_box_x + i)) * channel + c)
        = s (((crop_y + m * j) * src_width + (crop_x + k * i)) * channel + c) := by
  refine ⟨rfl, ?_⟩
  show crop_and_scale_loops channel s src_width src_height crop_x crop_y (k * pw) (m * ph) d
      dst_width dst_box_x dst_box_y pw ph
      (((dst_box_y + j) * dst_width + (dst_box_x + i)) * channel + c) = _
  rw [crop_and_scale_loops_pixel channel s src_width src_height crop_x crop_y (k * pw) (m * ph)
    d dst_width dst_height dst_box_x dst_box_y pw ph hb0 hb1 hb2 hb3 hds (dst_box_x + i)
    (dst_box_y + j) c (by omega) (by omega) hc]
  rw [show dst_box_x + i - dst_box_x = i by ring, show dst_box_y + j - dst_box_y = j by ring]
  exact pixel_value_point_sample channel s src_width src_height crop_x crop_y k m pw ph i j c
    hk hm hcw hch hx0 hx1 hy0 hy1 hss hi hj hc

/-- Claim C20, instance: halving a 4x4 Gray8 image (16 bytes) on both axes
into a 2x2 destination (4 bytes), the destination pixel (1, 1) is the source
pixel (2, 2). -/
theorem crop_and_scale_point_sample_witness :
    (crop_and_scale_image_c 1 (some ramp_bytes) 4 4 0 0 (2 * 2) (2 * 2) (some (fun _ => 0))
        2 2 0 0 2 2).1 = 0
      ∧ ((crop_and_scale_image_c 1 (some ramp_bytes) 4 4 0 0 (2 * 2) (2 * 2)
          (some (fun _ => 0)) 2 2 0 0 2 2).2.getD (fun _ => 0))
          (((0 + 1) * 2 + (0 + 1)) * 1 + 0)
        = ramp_bytes (((0 + 2 * 1) * 4 + (0 + 2 * 1)) * 1 + 0) :=
  crop_and_scale_point_sample 1 ramp_bytes (fun _ => 0) 4 4 0 0 2 2 2 2 2 2 0 0 1 1 0
    (by decide) (by decide) (by decide) (by decide) (by decide) (by decide) (by decide)
    (by decide) (by decide) (by decide) (by decide) (by decide) (by decide) (by decide)
    (by decide) (by decide) (by decide)

/-- The floats of the 97-fold downscale of a row of 16777217 pixels: the width
converts to 16777216.0, its ratio to 172961 rounds to 12713983/131072 (just
below 97), and 172960 times that ratio rounds to 16777119. -/
theorem floats_downscale_97 :
    F32.div (F32.ofInt 16777217) (F32.ofInt 172961) = 12713983 / 131072
      ∧ F32.mul (F32.ofInt 172960) (12713983 / 131072) = ((16777119 : Int) : ℚ) := by
  have h1 : F32.ofInt 16777217 = 16777216 := by
    unfold F32.ofInt
    have := rnd_16777217
    simpa using this
  have h2 : F32.ofInt 172961 = 172961 := by
    rw [F32.ofInt_eq 172961 (by norm_num) (by norm_num)]; norm_num
  have h3 : F32.ofInt 172960 = 172960 := by
    rw [F32.ofInt_eq 172960 (by norm_num) (by norm_num)]; norm_num
  constructor
  · rw [h1, h2]
    unfold F32.div
    rw [F32.rnd_cert_lt (16777216 / 172961) 12713983 (-17) (by norm_num)
      (by norm_num [abs_of_pos]) (by norm_num [abs_of_pos]) (by norm_num [abs_lt])]
    norm_num
  · rw [h3]
    unfold F32.mul
    rw [F32.rnd_cert_lt (172960 * (12713983 / 131072)) 16777119 0 (by norm_num)
      (by norm_num [abs_of_pos]) (by norm_num [abs_of_pos]) (by norm_num [abs_lt])]
    norm_num

/-- The value computed for the last pixel of the 97-fold downscale of a row of
16777217 pixels is the byte of source pixel 16777119, one before pixel
97 * 172960 = 16777120. -/
theorem pixel_value_downscale_97 (src : Mem) :
    pixel_value 1 src 16777217 1 0 0 16777217 1 172961 1 172960 0 0 = src 16777119 := by
  obtain ⟨hr, hp⟩ := floats_downscale_97
  unfold pixel_value
  simp only [hr, F32.div_ofInt_self 1 (by norm_num)]
  have t : src_taps 16777217 1 0 0 16777217 1 (12713983 / 131072) 1 172960 0 =
      { global_src_x1 := 16777119, global_src_y1 := 0,
        global_src_x2 := 16777120, global_src_y2 := 0, x_diff := 0, y_diff := 0 } := by
    unfold src_taps
    simp only [hp, float_offset_zero, F32.toInt_intCast,
      F32.sub_self_intCast 16777119 (by norm_num) (by norm_num),
      F32.sub_self_intCast 0 (by norm_num) (by norm_num)]
    simp [clamp_src]
  rw [t]
  have e : int32 16777119 = 16777119 := by decide
  simp [bilinear_zero, index_A, e]

/-- Claim C20, counterexample.  (1) A Gray8 row of 16777217 = 97 * 172961
pixels, cropped whole and pasted into a whole row of 172961 pixels (`k = 97`,
`m = 1`, all offsets 0, one channel, so byte indices are pixel columns): the
destination pixel 172960 is 0, the byte of source pixel 16777119, while the
source pixel 97 * 172960 = 16777120 is 1; the width is converted to the float
16777216.0 and the ratio comes out below 97.  (2) A Gray8 source 46342 pixels
wide and high (2147580964 bytes) whose last pixel (46341, 46341) is 1 and all
others 0, with that one pixel as crop and a 1 x 1 destination (`k = m = 1`):
the destination pixel is 0; the subscript 46341 * 46342 + 46341 = 2147580963
is not an `int` and the byte read is the one at offset -2147386333.  (3) A
Gray8 destination 65536 pixels wide and 32769 pixels high (2147549184 bytes),
all zero, whose last pixel (65535, 32768) is the paste rectangle, fed from a
1 x 1 source holding 7 (`k = m = 1`): the byte of the destination pixel stays
0; the subscript 2147549183 is not an `int`. -/
theorem crop_and_scale_point_sample_fails_wide :
    ((16777217 : Int) = 97 * 172961 ∧ (16777120 : Int) = 0 + 97 * 172960
      ∧ (crop_and_scale_image_c 1 (some downscale_src_bytes) 16777217 1 0 0 16777217 1
          (some (fun _ => 0)) 172961 1 0 0 172961 1).1 = 0
      ∧ ((crop_and_scale_image_c 1 (some downscale_src_bytes) 16777217 1 0 0 16777217 1
          (some (fun _ => 0)) 172961 1 0 0 172961 1).2.getD (fun _ => 0)) 172960 = 0
      ∧ downscale_src_bytes 16777120 = 1)
    ∧ ((crop_and_scale_image_c 1 (some (marked_bytes 2147580963)) 46342 46342 46341 46341
          (1 * 1) (1 * 1) (some (fun _ => 0)) 1 1 0 0 1 1).1 = 0
      ∧ ((crop_and_scale_image_c 1 (some (marked_bytes 2147580963)) 46342 46342 46341 46341
          (1 * 1) (1 * 1) (some (fun _ => 0)) 1 1 0 0 1 1).2.getD (fun _ => 0))
          (((0 + 0) * 1 + (0 + 0)) * 1 + 0) = 0
      ∧ marked_bytes 2147580963 (((46341 + 1 * 0) * 46342 + (46341 + 1 * 0)) * 1 + 0) = 1)
    ∧ ((crop_and_scale_image_c 1 (some (fun _ => 7)) 1 1 0 0 (1 * 1) (1 * 1)
          (some (fun _ => 0)) 65536 32769 65535 32768 1 1).1 = 0
      ∧ ((crop_and_scale_image_c 1 (some (fun _ => 7)) 1 1 0 0 (1 * 1) (1 * 1)
          (some (fun _ => 0)) 65536 32769 65535 32768 1 1).2.getD (fun _ => 0))
          (((32768 + 0) * 65536 + (65535 + 0)) * 1 + 0) = 0
      ∧ (fun _ => 7 : Mem) (((0 + 1 * 0) * 1 + (0 + 1 * 0)) * 1 + 0) = 7) := by
  refine ⟨⟨by decide, by decide, rfl, ?_, by decide⟩, ⟨rfl, ?_, by decide⟩, ⟨rfl, ?_, rfl⟩⟩
  · have hp := crop_and_scale_loops_pixel 1 downscale_src_bytes 16777217 1 0 0 16777217 1
      (fun _ => 0) 172961 1 0 0 172961 1 (by norm_num) (by norm_num) (by norm_num) (by norm_num)
      (by norm_num) 172960 0 0 (by norm_num) (by norm_num) (by norm_num)
    have e : ((0 : Int) * 172961 + 172960) * 1 + 0 = 172960 := by norm_num
    have e2 : (172960 : Int) - 0 = 172960 := by norm_num
    have e3 : (0 : Int) - 0 = 0 := by norm_num
    rw [e, e2, e3, pixel_value_downscale_97] at hp
    rw [crop_and_scale_image_c_present, hp]
    decide
  · have hp := crop_and_scale_loops_pixel 1 (marked_bytes 2147580963) 46342 46342 46341 46341
      (1 * 1) (1 * 1) (fun _ => 0) 1 1 0 0 1 1 (by norm_num) (by norm_num) (by norm_num)
      (by norm_num) (by norm_num) (0 + 0) (0 + 0) 0 (by norm_num) (by norm_num) (by norm_num)
    have e3 : (0 : Int) + 0 - 0 = 0 := by norm_num
    rw [e3, pixel_value_point_sample_read 1 (marked_bytes 2147580963) 46342 46342 46341 46341
      1 1 1 1 0 0 0 (by norm_num) (by norm_num) (by norm_num) (by norm_num) (by norm_num)
      (by norm_num) (by norm_num) (by norm_num) (by norm_num) (by norm_num)] at hp
    rw [crop_and_scale_image_c_present, hp]
    decide
  · rw [crop_and_scale_image_c_present,
      crop_and_scale_loops_frame_beyond_int _ _ _ _ _ _ _ _ _ _ _ _ _ _ _
        (Or.inr (by norm_num))]

end ImageUtils
